import Mathlib

/-!
# Raw-transaction RPC commands of bitcoin v0.12.1 (rpcrawtransaction.cpp)

A shallow embedding of the RPC handlers `createrawtransaction` and
`signrawtransaction`.  Handlers are functions into `Except Exn _`: a C++
`throw` is `Except.error`.  Code that the handlers call but that lives in
other translation units (base58, script, univalue helpers, serialization)
is collected in the record `Externals` and is a parameter of every handler.
-/

set_option autoImplicit false

namespace Blockchain

/-! ## Exceptions -/

/-- The enumerators of `RPCErrorCode` (rpcprotocol.h) raised by the raw-transaction commands. -/
inductive RPCErrorCode where
  | RPC_MISC_ERROR
  | RPC_TYPE_ERROR
  | RPC_INVALID_ADDRESS_OR_KEY
  | RPC_INVALID_PARAMETER
  | RPC_DESERIALIZATION_ERROR
  | RPC_INTERNAL_ERROR
  | RPC_TRANSACTION_ERROR
  | RPC_TRANSACTION_REJECTED
  | RPC_TRANSACTION_ALREADY_IN_CHAIN
  deriving DecidableEq, Repr

/-- The kinds of C++ exception that leave a handler: `JSONRPCError(code, message)` and
`std::runtime_error(what)`, which the handlers throw themselves, the
`std::ios_base::failure(what)` of a data stream that is read past its end, and the
`std::length_error(what)` of a vector that is resized beyond its maximal size. -/
inductive Exn where
  | JSONRPCError (code : RPCErrorCode) (message : String)
  | runtime_error (what : String)
  | ios_base_failure (what : String)
  | length_error (what : String)
  deriving DecidableEq, Repr

/-! ## The JSON document model -/

/-- The type tags of a JSON value (`UniValue::VType`). -/
inductive VType where
  | VNULL | VOBJ | VARR | VSTR | VNUM | VBOOL
  deriving DecidableEq, Repr

/-- Modelled from the spec: the tagged-union document model
`null | bool | i64 | f64 | string | array | object` of the JSON library (univalue.h is not
among the sources).  `VNUM n` is an integer literal with value `n`, `VREAL` a numeric literal
with a fraction or exponent; an object is the sequence of its entries in the order given. -/
inductive UniValue where
  | VNULL
  | VBOOL (b : Bool)
  | VNUM (n : Int)
  | VREAL (val : String)
  | VSTR (val : String)
  | VARR (values : List UniValue)
  | VOBJ (entries : List (String × UniValue))

namespace UniValue

instance : Inhabited UniValue := ⟨VNULL⟩

def type : UniValue → VType
  | VNULL => .VNULL
  | VBOOL _ => .VBOOL
  | VNUM _ => .VNUM
  | VREAL _ => .VNUM
  | VSTR _ => .VSTR
  | VARR _ => .VARR
  | VOBJ _ => .VOBJ

def isNull : UniValue → Bool
  | VNULL => true
  | _ => false

def isNum : UniValue → Bool
  | VNUM _ => true
  | VREAL _ => true
  | _ => false

def isObject : UniValue → Bool
  | VOBJ _ => true
  | _ => false

/-- The member `get_array()`: the elements of an array. -/
def get_array : UniValue → Except Exn (List UniValue)
  | VARR xs => .ok xs
  | _ => .error (.runtime_error "JSON value is not an array as expected")

/-- The member `get_obj()`: the entries of an object. -/
def get_obj : UniValue → Except Exn (List (String × UniValue))
  | VOBJ kvs => .ok kvs
  | _ => .error (.runtime_error "JSON value is not an object as expected")

/-- The member `get_str()`. -/
def get_str : UniValue → Except Exn String
  | VSTR s => .ok s
  | _ => .error (.runtime_error "JSON value is not a string as expected")

/-- The member `get_bool()`. -/
def get_bool : UniValue → Except Exn Bool
  | VBOOL b => .ok b
  | _ => .error (.runtime_error "JSON value is not a boolean as expected")

/-- The member `get_int64()`: the value of an integer literal that fits a 64-bit
`int64_t`. -/
def get_int64 : UniValue → Except Exn Int
  | VNUM n =>
    if -9223372036854775808 ≤ n ∧ n ≤ 9223372036854775807 then .ok n
    else .error (.runtime_error "JSON integer out of range")
  | VREAL _ => .error (.runtime_error "JSON integer out of range")
  | _ => .error (.runtime_error "JSON value is not an integer as expected")

/-- The member `get_int()`: the value of an integer literal that fits a 32-bit `int`. -/
def get_int : UniValue → Except Exn Int
  | VNUM n =>
    if -2147483648 ≤ n ∧ n ≤ 2147483647 then .ok n
    else .error (.runtime_error "JSON integer out of range")
  | VREAL _ => .error (.runtime_error "JSON integer out of range")
  | _ => .error (.runtime_error "JSON value is not an integer as expected")

/-- The member `getValStr()`: the raw text held by a scalar. -/
def getValStr : UniValue → String
  | VSTR s => s
  | VREAL s => s
  | VNUM n => toString n
  | VBOOL true => "1"
  | _ => ""

end UniValue

open UniValue

/-- The value of the first entry of `kvs` whose key is `name`, the null value when there is
none (`findKey` followed by `values.at`). -/
def lookupKey (kvs : List (String × UniValue)) (name : String) : UniValue :=
  match kvs with
  | [] => VNULL
  | (k, v) :: rest => if k = name then v else lookupKey rest name

/-- The free function `find_value(obj, name)`. -/
def find_value (obj : List (String × UniValue)) (name : String) : UniValue :=
  lookupKey obj name

/-- The member `getKeys()` of an object: every key, in entry order. -/
def getKeys (obj : List (String × UniValue)) : List String :=
  obj.map Prod.fst

/-- Element `i` of the parameter array, the null value past its end (`params[i]`). -/
def paramAt (params : List UniValue) (i : Nat) : UniValue :=
  params.getD i VNULL

/-! ## Transactions -/

/-- A 256-bit hash, as a natural number. -/
abbrev uint256 := Nat

/-- A script: its bytes. -/
abbrev CScript := List Nat

structure COutPoint where
  hash : uint256
  n : Nat
  deriving DecidableEq, Repr

structure CTxIn where
  prevout : COutPoint
  scriptSig : CScript
  nSequence : Nat
  deriving DecidableEq, Repr

structure CTxOut where
  nValue : Int
  scriptPubKey : CScript
  deriving DecidableEq, Repr

structure CMutableTransaction where
  nVersion : Int
  vin : List CTxIn
  vout : List CTxOut
  nLockTime : Nat
  deriving DecidableEq, Repr

/-- Modelled from the spec: a freshly constructed transaction has version 1, no inputs, no
outputs and lock time 0 (the constructor of `CMutableTransaction` is in
primitives/transaction.cpp, which is not among the sources). -/
def CMutableTransaction.new : CMutableTransaction :=
  { nVersion := 1, vin := [], vout := [], nLockTime := 0 }

/-- The largest value of `uint32_t`, `std::numeric_limits<uint32_t>::max()`. -/
def UINT32_MAX : Nat := 4294967295

/-- Conversion of a signed integer to `uint32_t`. -/
def toUInt32 (z : Int) : Nat := (z % 4294967296).toNat

/-- A decoded base58 address (`CBase58Data`): version bytes and payload.  Two addresses are the
same element of a `std::set<CBitcoinAddress>` exactly when both components agree. -/
structure CBitcoinAddress where
  vchVersion : List Nat
  vchData : List Nat
  deriving DecidableEq, Repr

/-! ## Unspent outputs -/

/-- The null output (`CTxOut::SetNull`): value -1 and an empty script. -/
def CTxOut.null : CTxOut := { nValue := -1, scriptPubKey := [] }

/-- The member `CTxOut::IsNull()`. -/
def CTxOut.IsNull (out : CTxOut) : Bool := out.nValue == -1

/-- Modelled from the spec: the unspent outputs of one transaction, `Coin` entries
`(value, script_pub_key, height, is_coinbase, is_spent)` grouped by transaction as the class
`CCoins` does (coins.h is not among the sources); a spent output is a null entry of `vout`. -/
structure CCoins where
  fCoinBase : Bool
  vout : List CTxOut
  nHeight : Int
  nVersion : Int
  deriving DecidableEq, Repr

namespace CCoins

/-- The state after `CCoins::Clear()`: no outputs. -/
def empty : CCoins := { fCoinBase := false, vout := [], nHeight := 0, nVersion := 0 }

/-- The member `IsAvailable(nPos)`: output `nPos` exists and is not null. -/
def IsAvailable (coins : CCoins) (nPos : Nat) : Bool :=
  match coins.vout.get? nPos with
  | some out => !out.IsNull
  | none => false

/-- The member `Cleanup()`: trailing null outputs are removed. -/
def Cleanup (coins : CCoins) : CCoins :=
  { coins with vout := coins.vout.rdropWhile CTxOut.IsNull }

end CCoins

/-- The entries of a coins cache (`CCoinsViewCache::cacheCoins`), by transaction id. -/
abbrev CCoinsMap := uint256 → Option CCoins

/-- A private key (`CKey`): its bytes. -/
abbrev CKey := List Nat

/-- A key store (`CBasicKeyStore`): the keys and redeem scripts added to it, in order. -/
structure CKeyStore where
  keys : List CKey
  scripts : List CScript
  deriving DecidableEq, Repr

/-- The wallet behind `pwalletMain`: its key store and whether it is locked. -/
structure CWallet where
  keystore : CKeyStore
  fLocked : Bool
  deriving DecidableEq, Repr

/-- The values of the enumeration `ScriptError`. -/
abbrev ScriptError := Nat

/-- Modelled from the spec: the signature hash types, `ALL=0x01, NONE=0x02, SINGLE=0x03,
ANYONECANPAY=0x80` (script/interpreter.h is not among the sources). -/
def SIGHASH_ALL : Nat := 1

/-- Modelled from the spec: `NONE=0x02` (script/interpreter.h is not among the sources). -/
def SIGHASH_NONE : Nat := 2

/-- Modelled from the spec: `SINGLE=0x03` (script/interpreter.h is not among the sources). -/
def SIGHASH_SINGLE : Nat := 3

/-- Modelled from the spec: `ANYONECANPAY=0x80` (script/interpreter.h is not among the
sources). -/
def SIGHASH_ANYONECANPAY : Nat := 128

/-- Bitwise complement of a 32-bit `int`, as an unsigned 32-bit pattern. -/
def bitNot32 (x : Nat) : Nat := 4294967295 - x % 4294967296

/-! ## Blocks, chain and node state -/

/-- A transaction as the handlers read it: the same fields as `CMutableTransaction`. -/
abbrev CTransaction := CMutableTransaction

/-- The header of a block (`CBlockHeader`). -/
structure CBlockHeader where
  nVersion : Int
  hashPrevBlock : uint256
  hashMerkleRoot : uint256
  nTime : Nat
  nBits : Nat
  nNonce : Nat
  deriving DecidableEq, Repr

/-- A block (`CBlock`): its header and its transactions. -/
structure CBlock where
  header : CBlockHeader
  vtx : List CTransaction
  deriving DecidableEq, Repr

/-- Modelled from the spec: the partial Merkle branch of a `MerkleBlock`,
`(total_tx_count, hashes, bits)` (merkleblock.h is not among the sources). -/
structure CPartialMerkleTree where
  nTransactions : Nat
  vBits : List Bool
  vHash : List uint256
  deriving DecidableEq, Repr

/-- Modelled from the spec: `MerkleBlock`, a block header with a partial Merkle branch
(merkleblock.h is not among the sources). -/
structure CMerkleBlock where
  header : CBlockHeader
  txn : CPartialMerkleTree
  deriving DecidableEq, Repr

/-- Modelled from the spec: an entry of the block index, the `Index` of the `ChainStore`
interface (chain.h is not among the sources): the hash of its block, its height and its
block time.  Two entries are the same object exactly when they are equal. -/
structure CBlockIndex where
  hashBlock : uint256
  nHeight : Int
  nTime : Int
  deriving DecidableEq, Repr

/-- The active chain (`CChain`): its block index entries, genesis first. -/
abbrev CChain := List CBlockIndex

namespace CChain

/-- Modelled from the spec: `active_height()` of the `ChainStore` interface, the index of the
tip, -1 for an empty chain. -/
def Height (chain : CChain) : Int := (chain.length : Int) - 1

/-- The entry at height `nHeight` (`operator[]`), none below 0 and above the tip. -/
def atHeight (chain : CChain) (nHeight : Int) : Option CBlockIndex :=
  if nHeight < 0 then none else chain[nHeight.toNat]?

/-- Modelled from the spec: `contains_in_active_chain(index)` of the `ChainStore` interface:
the entry of the chain at the height of `pindex` is `pindex`. -/
def Contains (chain : CChain) (pindex : CBlockIndex) : Bool :=
  chain.atHeight pindex.nHeight == some pindex

end CChain

/-- Modelled from the spec: the shared state the handlers work on, namely the mempool
(transactions keyed by txid), the chain UTXO view `pcoinsTip` (as the lookup of the coins of
a transaction), the block index `mapBlockIndex`, the active chain `chainActive` and the block
store behind `ReadBlockFromDisk` (main.h, txmempool.h and coins.h are not among the
sources). -/
structure NodeState where
  mempool : uint256 → Option CTransaction
  pcoinsTip : uint256 → Option CCoins
  mapBlockIndex : uint256 → Option CBlockIndex
  chainActive : CChain
  blockFiles : CBlockIndex → Option CBlock

/-- The validation state filled in by mempool admission (`CValidationState`): whether it is
invalid, the reject code and the reject reason. -/
structure CValidationState where
  fInvalid : Bool
  nRejectCode : Nat
  strRejectReason : String
  deriving DecidableEq, Repr

/-- What a call of `AcceptToMemoryPool` leaves behind: its return value, the validation
state, `fMissingInputs`, and the node state after the call. -/
structure AcceptResult where
  fAccepted : Bool
  state : CValidationState
  fMissingInputs : Bool
  node : NodeState

/-- Conversion of an integer to `int` (32 bits, two's complement). -/
def toInt32 (z : Int) : Int := (z + 2147483648) % 4294967296 - 2147483648

/-- What a call of `ExtractDestinations(scriptPubKey, typeRet, addressRet, nRequiredRet)`
leaves behind: its return value, the script type (an enumerator of `txnouttype`, as its
number), the destinations (each as the address `CBitcoinAddress(addr)`) and the number of
required signatures. -/
structure DestinationsResult where
  fOk : Bool
  typeRet : Nat
  addressRet : List CBitcoinAddress
  nRequiredRet : Int
  deriving DecidableEq, Repr

/-! ## Code of other translation units -/

/-- The functions the handlers call that are defined outside rpcrawtransaction.cpp. -/
structure Externals where
  /-- The function `RPCTypeCheck(params, typesExpected, fAllowNull)` of rpcserver.cpp. -/
  RPCTypeCheck : List UniValue → List VType → Bool → Except Exn Unit
  /-- The function `ParseHashV(v, strName)` of rpcserver.cpp. -/
  ParseHashV : UniValue → String → Except Exn uint256
  /-- The function `ParseHexV(v, strName)` of rpcserver.cpp. -/
  ParseHexV : UniValue → String → Except Exn (List Nat)
  /-- The constructor `CBitcoinAddress(str)` of base58.cpp. -/
  decodeAddress : String → CBitcoinAddress
  /-- The member `CBitcoinAddress::IsValid()`. -/
  IsValid : CBitcoinAddress → Bool
  /-- The call `GetScriptForDestination(address.Get())` of script/standard.cpp. -/
  GetScriptForDestination : CBitcoinAddress → CScript
  /-- The function `AmountFromValue(value)` of rpcserver.cpp. -/
  AmountFromValue : UniValue → Except Exn Int
  /-- The opcode `OP_RETURN` of script/script.h. -/
  OP_RETURN : Nat
  /-- The operator `CScript << opcode` of script/script.h. -/
  pushOpcode : CScript → Nat → CScript
  /-- The operator `CScript << std::vector<unsigned char>` of script/script.h. -/
  pushData : CScript → List Nat → CScript
  /-- The function `EncodeHexTx(tx)` of core_write.cpp. -/
  EncodeHexTx : CMutableTransaction → String
  /-- The function `RPCTypeCheckObj(o, typesExpected)` of rpcserver.cpp. -/
  RPCTypeCheckObj : List (String × UniValue) → List (String × VType) → Except Exn Unit
  /-- Deserialization `ssData >> tx` of one transaction from the front of a byte stream:
  `some (tx, k)` when the transaction occupies the first `k + 1` bytes, `none` when the
  stream throws. -/
  deserializeTx : List Nat → Option (CMutableTransaction × Nat)
  /-- The call `CBitcoinSecret::SetString(str)` followed by `GetKey()`: `none` when
  `SetString` returns false. -/
  decodeSecret : String → Option CKey
  /-- The member `CKey::IsValid()`. -/
  keyIsValid : CKey → Bool
  /-- The function `EnsureWalletIsUnlocked()` of rpcwallet.cpp. -/
  EnsureWalletIsUnlocked : CWallet → Except Exn Unit
  /-- The member `CScript::IsPayToScriptHash()`. -/
  IsPayToScriptHash : CScript → Bool
  /-- The function `SignSignature(keystore, fromPubKey, txTo, nIn, nHashType)` of
  script/sign.cpp: the `scriptSig` it leaves in input `nIn` of `txTo`. -/
  SignSignature : CKeyStore → CScript → CMutableTransaction → Nat → Nat → CScript
  /-- The function `CombineSignatures(scriptPubKey, txTo, nIn, scriptSig1, scriptSig2)` of
  script/sign.cpp. -/
  CombineSignatures : CScript → CMutableTransaction → Nat → CScript → CScript → CScript
  /-- The constant `STANDARD_SCRIPT_VERIFY_FLAGS` of policy/policy.h. -/
  STANDARD_SCRIPT_VERIFY_FLAGS : Nat
  /-- The function `VerifyScript(scriptSig, scriptPubKey, flags, checker(&txTo, nIn),
  &serror)` of script/interpreter.cpp: its result and the error it stores. -/
  VerifyScript : CScript → CScript → Nat → CMutableTransaction → Nat → Bool × ScriptError
  /-- The function `ScriptErrorString(serror)` of script/script_error.cpp. -/
  ScriptErrorString : ScriptError → String
  /-- The function `ScriptToAsmStr(script)` of core_write.cpp. -/
  ScriptToAsmStr : CScript → String
  /-- The member `uint256::ToString()`. -/
  hashToString : uint256 → String
  /-- The function `HexStr(begin, end)` of utilstrencodings.h. -/
  HexStr : List Nat → String
  /-- The member `CCoinsViewMemPool::GetCoins(txid, coins)` of the view that stacks the
  mempool on the chain view: a read of the node state. -/
  viewMempoolGetCoins : NodeState → uint256 → Option CCoins
  /-- The function `DecodeHexTx(tx, strHexTx)` of core_read.cpp: `none` when it returns
  false. -/
  DecodeHexTx : String → Option CTransaction
  /-- The member `CTransaction::GetHash()`. -/
  GetHash : CTransaction → uint256
  /-- The function `AcceptToMemoryPool(pool, state, tx, fLimitFree, pfMissingInputs,
  fOverrideMempoolLimit, fRejectAbsurdFee)` of main.cpp. -/
  AcceptToMemoryPool : NodeState → CTransaction → Bool → Bool → Bool → AcceptResult
  /-- The function `IsHex(str)` of utilstrencodings.cpp. -/
  IsHex : String → Bool
  /-- The function `uint256S(str)` of uint256.h. -/
  uint256S : String → uint256
  /-- The function `GetTransaction(hash, txOut, consensusParams, hashBlock, fAllowSlow)` of
  main.cpp, called with a null `hashBlock`: the transaction and `hashBlock` after the call,
  `none` when it returns false. -/
  GetTransaction : NodeState → uint256 → Bool → Option (CTransaction × uint256)
  /-- The constructor `CMerkleBlock(block, txids)` of merkleblock.cpp. -/
  buildMerkleBlock : CBlock → List uint256 → CMerkleBlock
  /-- Serialization `ssMB << mb` of a Merkle block. -/
  serializeMerkleBlock : CMerkleBlock → List Nat
  /-- Deserialization `ssMB >> merkleBlock`: `none` when the stream throws. -/
  deserializeMerkleBlock : List Nat → Option CMerkleBlock
  /-- The member `CPartialMerkleTree::ExtractMatches(vMatch)`: the root it returns and the
  matches it stores. -/
  ExtractMatches : CPartialMerkleTree → uint256 × List uint256
  /-- The member `CBlockHeader::GetHash()`. -/
  headerGetHash : CBlockHeader → uint256
  /-- The call `ScriptToAsmStr(script, true)` of core_write.cpp, which attempts to decode
  signature hash types. -/
  ScriptToAsmStrSighashDecode : CScript → String
  /-- The function `GetSerializeSize(tx, SER_NETWORK, PROTOCOL_VERSION)`. -/
  GetSerializeSize : CTransaction → Nat
  /-- The function `ValueFromAmount(amount)` of rpcserver.cpp. -/
  ValueFromAmount : Int → UniValue
  /-- The member `CTransaction::IsCoinBase()`. -/
  IsCoinBase : CTransaction → Bool
  /-- The function `ExtractDestinations` of script/standard.cpp. -/
  ExtractDestinations : CScript → DestinationsResult
  /-- The function `GetTxnOutputType(type)` of script/standard.cpp: the name of a script
  type. -/
  GetTxnOutputType : Nat → String
  /-- The member `CBitcoinAddress::ToString()`. -/
  addressToString : CBitcoinAddress → String
  /-- The address `CBitcoinAddress(CScriptID(script))` of the hash of a script. -/
  scriptIDAddress : CScript → CBitcoinAddress

/-! ## createrawtransaction -/

/-- Lines 366-371: the lock time of the new transaction. -/
def createrawtransaction_locktime (params : List UniValue) : Except Exn Nat :=
  if params.length > 2 ∧ !(paramAt params 2).isNull then
    match (paramAt params 2).get_int64 with
    | .error e => .error e
    | .ok nLockTime =>
      if nLockTime < 0 ∨ nLockTime > (UINT32_MAX : Int) then
        .error (.JSONRPCError .RPC_INVALID_PARAMETER "Invalid parameter, locktime out of range")
      else .ok (toUInt32 nLockTime)
  else .ok CMutableTransaction.new.nLockTime

/-- Lines 374-389: the body of the loop over the inputs array, appending one input. -/
def createrawtransaction_input (E : Externals) (nLockTime : Nat) (vin : List CTxIn)
    (input : UniValue) : Except Exn (List CTxIn) :=
  match input.get_obj with
  | .error e => .error e
  | .ok o =>
    match E.ParseHashV (find_value o "txid") "txid" with
    | .error e => .error e
    | .ok txid =>
      let vout_v := find_value o "vout"
      if !vout_v.isNum then
        .error (.JSONRPCError .RPC_INVALID_PARAMETER "Invalid parameter, missing vout key")
      else
        match vout_v.get_int with
        | .error e => .error e
        | .ok nOutput =>
          if nOutput < 0 then
            .error (.JSONRPCError .RPC_INVALID_PARAMETER "Invalid parameter, vout must be positive")
          else
            let nSequence := if nLockTime ≠ 0 then UINT32_MAX - 1 else UINT32_MAX
            .ok (vin ++ [{ prevout := { hash := txid, n := toUInt32 nOutput },
                           scriptSig := [], nSequence := nSequence }])

/-- Lines 373-390: the loop over the inputs array. -/
def createrawtransaction_vin (E : Externals) (nLockTime : Nat) :
    List UniValue → List CTxIn → Except Exn (List CTxIn)
  | [], vin => .ok vin
  | input :: rest, vin =>
    match createrawtransaction_input E nLockTime vin input with
    | .error e => .error e
    | .ok vin' => createrawtransaction_vin E nLockTime rest vin'

/-- Lines 396-415: the body of the loop over the keys of the outputs object.  The state is
the set of addresses seen so far and the outputs built so far. -/
def createrawtransaction_output (E : Externals) (sendTo : List (String × UniValue))
    (st : List CBitcoinAddress × List CTxOut) (name_ : String) :
    Except Exn (List CBitcoinAddress × List CTxOut) :=
  if name_ = "data" then
    match E.ParseHexV (VSTR (lookupKey sendTo name_).getValStr) "Data" with
    | .error e => .error e
    | .ok data =>
      .ok (st.1, st.2 ++ [{ nValue := 0,
                            scriptPubKey := E.pushData (E.pushOpcode [] E.OP_RETURN) data }])
  else
    let address := E.decodeAddress name_
    if !E.IsValid address then
      .error (.JSONRPCError .RPC_INVALID_ADDRESS_OR_KEY ("Invalid Bitcoin address: " ++ name_))
    else if address ∈ st.1 then
      .error (.JSONRPCError .RPC_INVALID_PARAMETER
        ("Invalid parameter, duplicated address: " ++ name_))
    else
      match E.AmountFromValue (lookupKey sendTo name_) with
      | .error e => .error e
      | .ok nAmount =>
        .ok (address :: st.1,
             st.2 ++ [{ nValue := nAmount, scriptPubKey := E.GetScriptForDestination address }])

/-- Lines 392-416: the loop over the keys of the outputs object. -/
def createrawtransaction_vout (E : Externals) (sendTo : List (String × UniValue)) :
    List String → List CBitcoinAddress × List CTxOut →
    Except Exn (List CBitcoinAddress × List CTxOut)
  | [], st => .ok st
  | name_ :: rest, st =>
    match createrawtransaction_output E sendTo st name_ with
    | .error e => .error e
    | .ok st' => createrawtransaction_vout E sendTo rest st'

/-- Lines 321-416 of `createrawtransaction`: the transaction `rawTx` that is handed to
`EncodeHexTx`. -/
def createrawtransaction_rawTx (E : Externals) (params : List UniValue) (fHelp : Bool) :
    Except Exn CMutableTransaction :=
  if fHelp ∨ params.length < 2 ∨ params.length > 3 then
    .error (.runtime_error "createrawtransaction [inputs] outputs ( locktime )")
  else
    match E.RPCTypeCheck params [.VARR, .VOBJ, .VNUM] true with
    | .error e => .error e
    | .ok _ =>
      if (paramAt params 0).isNull ∨ (paramAt params 1).isNull then
        .error (.JSONRPCError .RPC_INVALID_PARAMETER
          "Invalid parameter, arguments 1 and 2 must be non-null")
      else
        match (paramAt params 0).get_array with
        | .error e => .error e
        | .ok inputs =>
          match (paramAt params 1).get_obj with
          | .error e => .error e
          | .ok sendTo =>
            match createrawtransaction_locktime params with
            | .error e => .error e
            | .ok nLockTime =>
              match createrawtransaction_vin E nLockTime inputs [] with
              | .error e => .error e
              | .ok vin =>
                match createrawtransaction_vout E sendTo (getKeys sendTo) ([], []) with
                | .error e => .error e
                | .ok st =>
                  .ok { CMutableTransaction.new with
                        nLockTime := nLockTime, vin := vin, vout := st.2 }

/-- The handler `createrawtransaction(params, fHelp)`: the hex encoding of `rawTx`. -/
def createrawtransaction (E : Externals) (params : List UniValue) (fHelp : Bool) :
    Except Exn UniValue :=
  match createrawtransaction_rawTx E params fHelp with
  | .error e => .error e
  | .ok rawTx => .ok (VSTR (E.EncodeHexTx rawTx))

/-- The input that `createrawtransaction` builds from the element `input` of the inputs
array: the outpoint named by its `txid` and `vout` entries, an empty `scriptSig`, and the
sequence number chosen by the lock time. -/
def InputOf (E : Externals) (nLockTime : Nat) (input : UniValue) (txin : CTxIn) : Prop :=
  ∃ o txid nOutput, input.get_obj = .ok o ∧
    E.ParseHashV (find_value o "txid") "txid" = .ok txid ∧
    (find_value o "vout").get_int = .ok nOutput ∧ 0 ≤ nOutput ∧ nOutput ≤ 2147483647 ∧
    txin = { prevout := { hash := txid, n := nOutput.toNat }, scriptSig := [],
             nSequence := if nLockTime ≠ 0 then 4294967294 else 4294967295 }

/-- The output that `createrawtransaction` builds for the key `name_` of the outputs object
`sendTo`. -/
def OutputOf (E : Externals) (sendTo : List (String × UniValue)) (name_ : String)
    (txout : CTxOut) : Prop :=
  if name_ = "data" then
    ∃ data, E.ParseHexV (VSTR (lookupKey sendTo name_).getValStr) "Data" = .ok data ∧
      txout = { nValue := 0, scriptPubKey := E.pushData (E.pushOpcode [] E.OP_RETURN) data }
  else
    E.IsValid (E.decodeAddress name_) = true ∧
    ∃ nAmount, E.AmountFromValue (lookupKey sendTo name_) = .ok nAmount ∧
      txout = { nValue := nAmount,
                scriptPubKey := E.GetScriptForDestination (E.decodeAddress name_) }

/-- The addresses denoted by the keys of an outputs object other than the key `data`. -/
def addressKeys (E : Externals) (keys : List String) : List CBitcoinAddress :=
  (keys.filter (fun name_ => name_ ≠ "data")).map E.decodeAddress

/-! ## signrawtransaction -/

/-- The function `TxInErrorToJSON(txin, vErrorsRet, strMessage)`: one error entry is appended. -/
def TxInErrorToJSON (E : Externals) (txin : CTxIn) (vErrorsRet : List UniValue)
    (strMessage : String) : List UniValue :=
  vErrorsRet ++ [VOBJ [("txid", VSTR (E.hashToString txin.prevout.hash)),
                       ("vout", VNUM txin.prevout.n),
                       ("scriptSig", VSTR (E.HexStr txin.scriptSig)),
                       ("sequence", VNUM txin.nSequence),
                       ("error", VSTR strMessage)]]

/-- Lines 610-619: transactions are read from the stream until it is empty.  The first
argument bounds the number of rounds; a transaction occupies at least one byte, so the length
of the stream is enough and the second equation is never reached from there. -/
def signrawtransaction_txVariants (E : Externals) :
    Nat → List Nat → List CMutableTransaction → Except Exn (List CMutableTransaction)
  | _, [], txVariants => .ok txVariants
  | 0, _ :: _, txVariants => .ok txVariants
  | fuel + 1, b :: bs, txVariants =>
    match E.deserializeTx (b :: bs) with
    | none => .error (.JSONRPCError .RPC_DESERIALIZATION_ERROR "TX decode failed")
    | some (tx, k) => signrawtransaction_txVariants E fuel (bs.drop k) (txVariants ++ [tx])

/-- The call `CCoinsViewCache::AccessCoins(txid)` on a cache whose backend is `base`: the
cache after the call (an entry found in the backend is copied into the cache). -/
def FetchCoins (base : uint256 → Option CCoins) (cacheCoins : CCoinsMap) (txid : uint256) :
    CCoinsMap :=
  match cacheCoins txid with
  | some _ => cacheCoins
  | none =>
    match base txid with
    | none => cacheCoins
    | some coins => fun h => if h = txid then some coins else cacheCoins h

/-- Lines 629-644: the request-local view after the previous transaction of every input was
looked up through the mempool-and-chain backend `viewMempool`; afterwards its backend is the
dummy view, which holds nothing. -/
def signrawtransaction_view (viewMempool : uint256 → Option CCoins) (vin : List CTxIn) :
    CCoinsMap :=
  vin.foldl (fun view txin => FetchCoins viewMempool view txin.prevout.hash) (fun _ => none)

/-- Lines 651-661: the loop over the private keys given in the call. -/
def signrawtransaction_addKeys (E : Externals) :
    List UniValue → CKeyStore → Except Exn CKeyStore
  | [], tempKeystore => .ok tempKeystore
  | k :: rest, tempKeystore =>
    match k.get_str with
    | .error e => .error e
    | .ok str =>
      match E.decodeSecret str with
      | none => .error (.JSONRPCError .RPC_INVALID_ADDRESS_OR_KEY "Invalid private key")
      | some key =>
        if !E.keyIsValid key then
          .error (.JSONRPCError .RPC_INVALID_ADDRESS_OR_KEY "Private key outside allowed range")
        else
          signrawtransaction_addKeys E rest { tempKeystore with keys := tempKeystore.keys ++ [key] }

/-- Lines 646-666: `fGivenKeys` and the temporary key store. -/
def signrawtransaction_keys (E : Externals) (pwalletMain : Option CWallet)
    (params : List UniValue) : Except Exn (Bool × CKeyStore) :=
  if params.length > 2 ∧ !(paramAt params 2).isNull then
    match (paramAt params 2).get_array with
    | .error e => .error e
    | .ok keys =>
      match signrawtransaction_addKeys E keys { keys := [], scripts := [] } with
      | .error e => .error e
      | .ok tempKeystore => .ok (true, tempKeystore)
  else
    match pwalletMain with
    | none => .ok (false, { keys := [], scripts := [] })
    | some wallet =>
      match E.EnsureWalletIsUnlocked wallet with
      | .error e => .error e
      | .ok _ => .ok (false, { keys := [], scripts := [] })

/-- Lines 689-701: the block that enters the output `(txid, nOut)` with script `scriptPubKey`
into the view; `nOut` is the `int` of line 685, from 0 to 2147483647.  `ModifyCoins` yields
the cached coins of `txid`, or fresh empty coins when there are none; leaving the block runs
`Cleanup` on them.  The new size `nOut+1` of line 698 is computed in `int`.  For
`nOut = 2147483647` the sum overflows: C++ leaves this undefined; with the wrap-around of
two's complement the sum is -2147483648, which as the unsigned size handed to `resize` is
beyond the maximal size of a vector, so that `resize` throws `std::length_error` (the text of
the exception is the library's).  (Memory is unbounded here, a failing allocation in
`resize` is not represented.) -/
def signrawtransaction_prevCoins (E : Externals) (view : CCoinsMap) (txid : uint256)
    (nOut : Nat) (scriptPubKey : CScript) : Except Exn CCoinsMap :=
  let coins := (view txid).getD CCoins.empty
  if coins.IsAvailable nOut ∧ (coins.vout.getD nOut CTxOut.null).scriptPubKey ≠ scriptPubKey then
    .error (.JSONRPCError .RPC_DESERIALIZATION_ERROR
      ("Previous output scriptPubKey mismatch:\n" ++
        E.ScriptToAsmStr (coins.vout.getD nOut CTxOut.null).scriptPubKey ++ "\nvs:\n" ++
        E.ScriptToAsmStr scriptPubKey))
  else if nOut ≥ coins.vout.length ∧ toInt32 (nOut + 1) < 0 then
    .error (.length_error "vector::_M_default_append")
  else
    let vout := if nOut ≥ coins.vout.length
      then coins.vout ++ List.replicate (nOut + 1 - coins.vout.length) CTxOut.null
      else coins.vout
    let vout := vout.set nOut { nValue := 0, scriptPubKey := scriptPubKey }
    .ok (fun h => if h = txid then some ({ coins with vout := vout } : CCoins).Cleanup else view h)

/-- Lines 672-713: the body of the loop over the previous outputs given in the call.  The
state is the view and the temporary key store. -/
def signrawtransaction_prevTx (E : Externals) (fGivenKeys : Bool)
    (st : CCoinsMap × CKeyStore) (p : UniValue) : Except Exn (CCoinsMap × CKeyStore) :=
  if !p.isObject then
    .error (.JSONRPCError .RPC_DESERIALIZATION_ERROR
      "expected object with \x7b\"txid\x27\",\"vout\",\"scriptPubKey\"\x7d")
  else
    match p.get_obj with
    | .error e => .error e
    | .ok prevOut =>
      match E.RPCTypeCheckObj prevOut
          [("txid", .VSTR), ("vout", .VNUM), ("scriptPubKey", .VSTR)] with
      | .error e => .error e
      | .ok _ =>
        match E.ParseHashV (find_value prevOut "txid") "txid" with
        | .error e => .error e
        | .ok txid =>
          match (find_value prevOut "vout").get_int with
          | .error e => .error e
          | .ok nOut =>
            if nOut < 0 then
              .error (.JSONRPCError .RPC_DESERIALIZATION_ERROR "vout must be positive")
            else
              match E.ParseHexV (find_value prevOut "scriptPubKey") "scriptPubKey" with
              | .error e => .error e
              | .ok scriptPubKey =>
                match signrawtransaction_prevCoins E st.1 txid nOut.toNat scriptPubKey with
                | .error e => .error e
                | .ok view =>
                  if fGivenKeys ∧ E.IsPayToScriptHash scriptPubKey then
                    match E.RPCTypeCheckObj prevOut
                        [("txid", .VSTR), ("vout", .VNUM), ("scriptPubKey", .VSTR),
                         ("redeemScript", .VSTR)] with
                    | .error e => .error e
                    | .ok _ =>
                      let v := find_value prevOut "redeemScript"
                      if !v.isNull then
                        match E.ParseHexV v "redeemScript" with
                        | .error e => .error e
                        | .ok redeemScript =>
                          .ok (view, { st.2 with scripts := st.2.scripts ++ [redeemScript] })
                      else .ok (view, st.2)
                  else .ok (view, st.2)

/-- Lines 671-714: the loop over the previous outputs given in the call. -/
def signrawtransaction_prevTxsLoop (E : Externals) (fGivenKeys : Bool) :
    List UniValue → CCoinsMap × CKeyStore → Except Exn (CCoinsMap × CKeyStore)
  | [], st => .ok st
  | p :: rest, st =>
    match signrawtransaction_prevTx E fGivenKeys st p with
    | .error e => .error e
    | .ok st' => signrawtransaction_prevTxsLoop E fGivenKeys rest st'

/-- Lines 668-715: the previous outputs given in the call are entered into the view. -/
def signrawtransaction_prevTxs (E : Externals) (fGivenKeys : Bool) (params : List UniValue)
    (st : CCoinsMap × CKeyStore) : Except Exn (CCoinsMap × CKeyStore) :=
  if params.length > 1 ∧ !(paramAt params 1).isNull then
    match (paramAt params 1).get_array with
    | .error e => .error e
    | .ok prevTxs => signrawtransaction_prevTxsLoop E fGivenKeys prevTxs st
  else .ok st

/-- Lines 725-733: the table of signature hash type names. -/
def mapSigHashValues : List (String × Nat) :=
  [("ALL", SIGHASH_ALL),
   ("ALL|ANYONECANPAY", SIGHASH_ALL ||| SIGHASH_ANYONECANPAY),
   ("NONE", SIGHASH_NONE),
   ("NONE|ANYONECANPAY", SIGHASH_NONE ||| SIGHASH_ANYONECANPAY),
   ("SINGLE", SIGHASH_SINGLE),
   ("SINGLE|ANYONECANPAY", SIGHASH_SINGLE ||| SIGHASH_ANYONECANPAY)]

/-- Lines 723-739: the signature hash type `nHashType` of the call. -/
def signrawtransaction_hashType (params : List UniValue) : Except Exn Nat :=
  if params.length > 3 ∧ !(paramAt params 3).isNull then
    match (paramAt params 3).get_str with
    | .error e => .error e
    | .ok strHashType =>
      match mapSigHashValues.lookup strHashType with
      | some nHashType => .ok nHashType
      | none => .error (.JSONRPCError .RPC_INVALID_PARAMETER "Invalid sighash param")
  else .ok SIGHASH_ALL

/-- Line 741: `fHashSingle`. -/
def fHashSingle (nHashType : Nat) : Bool :=
  (nHashType &&& bitNot32 SIGHASH_ANYONECANPAY) == SIGHASH_SINGLE

/-- Assignment to `tx.vin[i].scriptSig`. -/
def setScriptSig (tx : CMutableTransaction) (i : Nat) (scriptSig : CScript) :
    CMutableTransaction :=
  match tx.vin.get? i with
  | none => tx
  | some txin => { tx with vin := tx.vin.set i { txin with scriptSig := scriptSig } }

/-- Lines 762-764: the signatures of input `i` of every variant are merged into input `i` of
`mergedTx`.  `none` when `txv.vin[i]` is read past the end of a variant. -/
def signrawtransaction_merge (E : Externals) (prevPubKey : CScript) (i : Nat) :
    List CMutableTransaction → CMutableTransaction → Option CMutableTransaction
  | [], mergedTx => some mergedTx
  | txv :: rest, mergedTx =>
    match mergedTx.vin.get? i, txv.vin.get? i with
    | some txin, some txvin =>
      signrawtransaction_merge E prevPubKey i rest
        (setScriptSig mergedTx i
          (E.CombineSignatures prevPubKey mergedTx i txin.scriptSig txvin.scriptSig))
    | _, _ => none

/-- Lines 756-759: the `scriptSig` of input `i` is cleared, then the input is signed unless
the hash type is SINGLE and there is no output `i`. -/
def signrawtransaction_sign (E : Externals) (keystore : CKeyStore) (prevPubKey : CScript)
    (nHashType : Nat) (mergedTx : CMutableTransaction) (i : Nat) : CMutableTransaction :=
  let cleared := setScriptSig mergedTx i []
  if !fHashSingle nHashType ∨ i < cleared.vout.length then
    setScriptSig cleared i (E.SignSignature keystore prevPubKey cleared i nHashType)
  else cleared

/-- Lines 748-768: the body of the signing loop for input `i`.  The state is `mergedTx` and
`vErrors`; `none` when a vector is read past its end. -/
def signrawtransaction_input (E : Externals) (view : CCoinsMap) (keystore : CKeyStore)
    (txVariants : List CMutableTransaction) (nHashType : Nat)
    (st : CMutableTransaction × List UniValue) (i : Nat) :
    Option (CMutableTransaction × List UniValue) :=
  match st.1.vin.get? i with
  | none => none
  | some txin =>
    match view txin.prevout.hash with
    | none => some (st.1, TxInErrorToJSON E txin st.2 "Input not found or already spent")
    | some coins =>
      if !coins.IsAvailable txin.prevout.n then
        some (st.1, TxInErrorToJSON E txin st.2 "Input not found or already spent")
      else
        let prevPubKey := (coins.vout.getD txin.prevout.n CTxOut.null).scriptPubKey
        match signrawtransaction_merge E prevPubKey i txVariants
            (signrawtransaction_sign E keystore prevPubKey nHashType st.1 i) with
        | none => none
        | some mergedTx =>
          match mergedTx.vin.get? i with
          | none => none
          | some txin' =>
            let res := E.VerifyScript txin'.scriptSig prevPubKey E.STANDARD_SCRIPT_VERIFY_FLAGS
              mergedTx i
            if !res.1 then
              some (mergedTx, TxInErrorToJSON E txin' st.2 (E.ScriptErrorString res.2))
            else some (mergedTx, st.2)

/-- Lines 747-769: the signing loop, over the input indices in the given list. -/
def signrawtransaction_loop (E : Externals) (view : CCoinsMap) (keystore : CKeyStore)
    (txVariants : List CMutableTransaction) (nHashType : Nat) :
    List Nat → CMutableTransaction × List UniValue →
    Option (CMutableTransaction × List UniValue)
  | [], st => some st
  | i :: rest, st =>
    match signrawtransaction_input E view keystore txVariants nHashType st i with
    | none => none
    | some st' => signrawtransaction_loop E view keystore txVariants nHashType rest st'

/-- Lines 770-779: the result object built from `mergedTx` and `vErrors`. -/
def signrawtransaction_result (E : Externals) (mergedTx : CMutableTransaction)
    (vErrors : List UniValue) : UniValue :=
  let fComplete := vErrors.isEmpty
  VOBJ ([("hex", VSTR (E.EncodeHexTx mergedTx)), ("complete", VBOOL fComplete)] ++
    (if !vErrors.isEmpty then [("errors", VARR vErrors)] else []))

/-- The arguments of the signing loop, as decoded from the call by lines 542-741. -/
structure SignArgs where
  txVariants : List CMutableTransaction
  mergedTx : CMutableTransaction
  view : CCoinsMap
  keystore : CKeyStore
  nHashType : Nat

/-- Lines 542-741 of `signrawtransaction`: argument decoding.  `viewMempool` is the lookup of
the mempool-over-chain view, `pwalletMain` the wallet (absent also when the build has none). -/
def signrawtransaction_decode (E : Externals) (viewMempool : uint256 → Option CCoins)
    (pwalletMain : Option CWallet) (params : List UniValue) (fHelp : Bool) :
    Except Exn SignArgs :=
  if fHelp ∨ params.length < 1 ∨ params.length > 4 then
    .error (.runtime_error "signrawtransaction hexstring ( prevtxs privatekeys sighashtype )")
  else
    match E.RPCTypeCheck params [.VSTR, .VARR, .VARR, .VSTR] true with
    | .error e => .error e
    | .ok _ =>
      match E.ParseHexV (paramAt params 0) "argument 1" with
      | .error e => .error e
      | .ok txData =>
        match signrawtransaction_txVariants E txData.length txData [] with
        | .error e => .error e
        | .ok [] => .error (.JSONRPCError .RPC_DESERIALIZATION_ERROR "Missing transaction")
        | .ok (tx0 :: txs) =>
          let view := signrawtransaction_view viewMempool tx0.vin
          match signrawtransaction_keys E pwalletMain params with
          | .error e => .error e
          | .ok (fGivenKeys, tempKeystore) =>
            match signrawtransaction_prevTxs E fGivenKeys params (view, tempKeystore) with
            | .error e => .error e
            | .ok (view', tempKeystore') =>
              let keystore := match fGivenKeys, pwalletMain with
                | false, some wallet => wallet.keystore
                | _, _ => tempKeystore'
              match signrawtransaction_hashType params with
              | .error e => .error e
              | .ok nHashType =>
                .ok { txVariants := tx0 :: txs, mergedTx := tx0, view := view',
                      keystore := keystore, nHashType := nHashType }

/-- The handler `signrawtransaction(params, fHelp)`.  `.ok none` stands for a run that reads a
vector past its end, where C++ defines no behaviour. -/
def signrawtransaction (E : Externals) (viewMempool : uint256 → Option CCoins)
    (pwalletMain : Option CWallet) (params : List UniValue) (fHelp : Bool) :
    Except Exn (Option UniValue) :=
  match signrawtransaction_decode E viewMempool pwalletMain params fHelp with
  | .error e => .error e
  | .ok a =>
    match signrawtransaction_loop E a.view a.keystore a.txVariants a.nHashType
        (List.range a.mergedTx.vin.length) (a.mergedTx, []) with
    | none => .ok none
    | some (mergedTx, vErrors) => .ok (some (signrawtransaction_result E mergedTx vErrors))

/-! ## A concrete instantiation of the externals

For evaluating the handlers on concrete calls.  Hexadecimal text and the transaction wire
format follow section 4.A of the specification; base58 addresses, private keys and the script
engine are replaced by small stand-ins. -/

namespace Reference

def hexDigitValue (c : Char) : Option Nat :=
  let n := c.toNat
  if 48 ≤ n ∧ n ≤ 57 then some (n - 48)
  else if 97 ≤ n ∧ n ≤ 102 then some (n - 87)
  else if 65 ≤ n ∧ n ≤ 70 then some (n - 55)
  else none

def parseHexDigits : List Char → Option (List Nat)
  | [] => some []
  | [_] => none
  | a :: b :: rest =>
    match hexDigitValue a, hexDigitValue b, parseHexDigits rest with
    | some x, some y, some bytes => some ((16 * x + y) :: bytes)
    | _, _, _ => none

def hexDigitChar (n : Nat) : Char :=
  if n < 10 then Char.ofNat (48 + n) else Char.ofNat (87 + n)

def HexStr (bytes : List Nat) : String :=
  String.mk (bytes.flatMap fun b => [hexDigitChar (b / 16 % 16), hexDigitChar (b % 16)])

def ParseHexV (v : UniValue) (strName : String) : Except Exn (List Nat) :=
  let strHex := match v with
    | VSTR s => s
    | _ => ""
  match strHex.data, parseHexDigits strHex.data with
  | _ :: _, some bytes => .ok bytes
  | _, _ => .error (.JSONRPCError .RPC_INVALID_PARAMETER
      (strName ++ " must be hexadecimal string (not \x27" ++ strHex ++ "\x27)"))

/-- The number written by a list of bytes, most significant byte first. -/
def bytesToNat (bytes : List Nat) : Nat :=
  bytes.foldl (fun acc b => 256 * acc + b) 0

/-- The `len` bytes of a number, least significant byte first. -/
def natToLE : Nat → Nat → List Nat
  | 0, _ => []
  | len + 1, n => n % 256 :: natToLE len (n / 256)

def ParseHashV (v : UniValue) (strName : String) : Except Exn uint256 :=
  match ParseHexV v strName with
  | .error e => .error e
  | .ok bytes => .ok (bytesToNat bytes % 2 ^ 256)

def hashToString (h : uint256) : String :=
  HexStr (natToLE 32 h).reverse

def RPCTypeCheck : List UniValue → List VType → Bool → Except Exn Unit
  | v :: params, t :: typesExpected, fAllowNull =>
    if v.type = t ∨ (fAllowNull ∧ v.isNull) then RPCTypeCheck params typesExpected fAllowNull
    else .error (.JSONRPCError .RPC_TYPE_ERROR "Unexpected type")
  | _, _, _ => .ok ()

def RPCTypeCheckObj (o : List (String × UniValue)) :
    List (String × VType) → Except Exn Unit
  | [] => .ok ()
  | (key, t) :: typesExpected =>
    if (lookupKey o key).isNull then
      .error (.JSONRPCError .RPC_TYPE_ERROR ("Missing " ++ key))
    else if (lookupKey o key).type = t then RPCTypeCheckObj o typesExpected
    else .error (.JSONRPCError .RPC_TYPE_ERROR ("Unexpected type for " ++ key))

/-- Stand-in for base58 decoding: surrounding blanks are skipped, the remaining characters
are the payload. -/
def decodeAddress (str : String) : CBitcoinAddress :=
  { vchVersion := [0],
    vchData := (((str.data.dropWhile (· = ' ')).reverse.dropWhile (· = ' ')).reverse).map
      Char.toNat }

/-- Stand-in for address validation: a payload of at least two characters that starts with
the digit 1. -/
def IsValid (address : CBitcoinAddress) : Bool :=
  match address.vchData with
  | 49 :: _ :: _ => true
  | _ => false

def GetScriptForDestination (address : CBitcoinAddress) : CScript :=
  [118, 169, address.vchData.length] ++ address.vchData ++ [136, 172]

/-- Stand-in for amount parsing: whole coins between 0 and 21000000. -/
def AmountFromValue : UniValue → Except Exn Int
  | VNUM n =>
    if 0 ≤ n ∧ n ≤ 21000000 then .ok (n * 100000000)
    else .error (.JSONRPCError .RPC_TYPE_ERROR "Amount out of range")
  | _ => .error (.JSONRPCError .RPC_TYPE_ERROR "Invalid amount")

def pushOpcode (script : CScript) (opcode : Nat) : CScript := script ++ [opcode]

def pushData (script : CScript) (b : List Nat) : CScript :=
  if b.length < 76 then script ++ [b.length] ++ b
  else if b.length ≤ 255 then script ++ [76, b.length] ++ b
  else if b.length ≤ 65535 then script ++ [77] ++ natToLE 2 b.length ++ b
  else script ++ [78] ++ natToLE 4 b.length ++ b

def compactSize (n : Nat) : List Nat :=
  if n < 253 then [n]
  else if n ≤ 65535 then 253 :: natToLE 2 n
  else if n ≤ 4294967295 then 254 :: natToLE 4 n
  else 255 :: natToLE 8 n

def serializeScript (script : CScript) : List Nat := compactSize script.length ++ script

def serializeTxIn (txin : CTxIn) : List Nat :=
  natToLE 32 txin.prevout.hash ++ natToLE 4 txin.prevout.n ++ serializeScript txin.scriptSig ++
    natToLE 4 txin.nSequence

def serializeTxOut (txout : CTxOut) : List Nat :=
  natToLE 8 (txout.nValue % 2 ^ 64).toNat ++ serializeScript txout.scriptPubKey

def serializeTx (tx : CMutableTransaction) : List Nat :=
  natToLE 4 (tx.nVersion % 2 ^ 32).toNat ++
    compactSize tx.vin.length ++ tx.vin.flatMap serializeTxIn ++
    compactSize tx.vout.length ++ tx.vout.flatMap serializeTxOut ++
    natToLE 4 tx.nLockTime

def EncodeHexTx (tx : CMutableTransaction) : String := HexStr (serializeTx tx)

/-- Reads `len` bytes as a number, least significant byte first. -/
def readLE (len : Nat) (bytes : List Nat) : Option (Nat × List Nat) :=
  if bytes.length < len then none
  else some (bytesToNat (bytes.take len).reverse, bytes.drop len)

def readCompactSize : List Nat → Option (Nat × List Nat)
  | [] => none
  | 253 :: rest => readLE 2 rest
  | 254 :: rest => readLE 4 rest
  | 255 :: rest => readLE 8 rest
  | n :: rest => some (n, rest)

def readScript (bytes : List Nat) : Option (CScript × List Nat) :=
  match readCompactSize bytes with
  | none => none
  | some (len, rest) => if rest.length < len then none else some (rest.take len, rest.drop len)

def readTxIn (bytes : List Nat) : Option (CTxIn × List Nat) :=
  match readLE 32 bytes with
  | none => none
  | some (hash, r1) =>
    match readLE 4 r1 with
    | none => none
    | some (n, r2) =>
      match readScript r2 with
      | none => none
      | some (scriptSig, r3) =>
        match readLE 4 r3 with
        | none => none
        | some (nSequence, r4) =>
          some ({ prevout := { hash := hash, n := n }, scriptSig := scriptSig,
                  nSequence := nSequence }, r4)

def readTxOut (bytes : List Nat) : Option (CTxOut × List Nat) :=
  match readLE 8 bytes with
  | none => none
  | some (value, r1) =>
    match readScript r1 with
    | none => none
    | some (scriptPubKey, r2) =>
      some ({ nValue := if value < 2 ^ 63 then (value : Int) else (value : Int) - 2 ^ 64,
              scriptPubKey := scriptPubKey }, r2)

def readMany {α : Type} (read : List Nat → Option (α × List Nat)) :
    Nat → List Nat → Option (List α × List Nat)
  | 0, bytes => some ([], bytes)
  | count + 1, bytes =>
    match read bytes with
    | none => none
    | some (a, rest) =>
      match readMany read count rest with
      | none => none
      | some (as, rest') => some (a :: as, rest')

def deserializeTx (bytes : List Nat) : Option (CMutableTransaction × Nat) :=
  match readLE 4 bytes with
  | none => none
  | some (version, r1) =>
    match readCompactSize r1 with
    | none => none
    | some (nIn, r2) =>
      match readMany readTxIn nIn r2 with
      | none => none
      | some (vin, r3) =>
        match readCompactSize r3 with
        | none => none
        | some (nOut, r4) =>
          match readMany readTxOut nOut r4 with
          | none => none
          | some (vout, r5) =>
            match readLE 4 r5 with
            | none => none
            | some (nLockTime, r6) =>
              some ({ nVersion := if version < 2 ^ 31 then (version : Int)
                                  else (version : Int) - 2 ^ 32,
                      vin := vin, vout := vout, nLockTime := nLockTime },
                    bytes.length - r6.length - 1)

/-- Stand-in for private key decoding: the characters of a non-empty string. -/
def decodeSecret (str : String) : Option CKey :=
  match str.data with
  | [] => none
  | cs => some (cs.map Char.toNat)

def EnsureWalletIsUnlocked (wallet : CWallet) : Except Exn Unit :=
  if wallet.fLocked then
    .error (.JSONRPCError .RPC_MISC_ERROR
      "Error: Please enter the wallet passphrase with walletpassphrase first.")
  else .ok ()

def IsPayToScriptHash (script : CScript) : Bool :=
  script.length == 23 && script.get? 0 == some 169 && script.get? 1 == some 20 &&
    script.get? 22 == some 135

/-- Stand-in for signing: an output is locked by the bytes of a key, and its signature is
that key when the key store holds it, followed by the hash type. -/
def SignSignature (keystore : CKeyStore) (fromPubKey : CScript) (_txTo : CMutableTransaction)
    (_nIn : Nat) (nHashType : Nat) : CScript :=
  if fromPubKey ∈ keystore.keys then fromPubKey ++ [nHashType] else []

/-- Stand-in for signature merging: the first non-empty script. -/
def CombineSignatures (_scriptPubKey : CScript) (_txTo : CMutableTransaction) (_nIn : Nat)
    (scriptSig1 scriptSig2 : CScript) : CScript :=
  if scriptSig1 = [] then scriptSig2 else scriptSig1

/-- Stand-in for script verification: the signature is the locking key followed by one
byte; the error otherwise is `SCRIPT_ERR_EVAL_FALSE`. -/
def VerifyScript (scriptSig scriptPubKey : CScript) (_flags : Nat)
    (_txTo : CMutableTransaction) (_nIn : Nat) : Bool × ScriptError :=
  if scriptSig.dropLast = scriptPubKey ∧ scriptSig ≠ [] then (true, 0) else (false, 2)

def ScriptErrorString (serror : ScriptError) : String :=
  if serror = 0 then "No error"
  else if serror = 2 then
    "Script evaluated without error but finished with a false/empty top stack element"
  else "unknown error"

/-- Stand-in for the mempool-over-chain view: the outputs of a mempool transaction at the
mempool height, otherwise the coins of the chain view unless all their outputs are spent. -/
def viewMempoolGetCoins (node : NodeState) (txid : uint256) : Option CCoins :=
  match node.mempool txid with
  | some tx =>
    some (CCoins.Cleanup { fCoinBase := false, vout := tx.vout, nHeight := 2147483647,
                           nVersion := tx.nVersion })
  | none =>
    match node.pcoinsTip txid with
    | some coins => if coins.vout.all CTxOut.IsNull then none else some coins
    | none => none

def DecodeHexTx (strHexTx : String) : Option CTransaction :=
  match parseHexDigits strHexTx.data with
  | none => none
  | some bytes =>
    match bytes, deserializeTx bytes with
    | _ :: _, some (tx, _) => some tx
    | _, _ => none

/-- Stand-in for the double SHA-256 of the serialization: the serialization read as a number,
modulo 2^256. -/
def GetHash (tx : CTransaction) : uint256 :=
  bytesToNat (serializeTx tx) % 2 ^ 256

/-- Stand-in for mempool admission: a transaction without inputs is invalid (reject code
16), one with an input unknown to mempool and chain misses inputs, any other is added to the
mempool. -/
def AcceptToMemoryPool (node : NodeState) (tx : CTransaction) (_fLimitFree : Bool)
    (_fOverrideMempoolLimit : Bool) (_fRejectAbsurdFee : Bool) : AcceptResult :=
  if tx.vin = [] then
    { fAccepted := false,
      state := { fInvalid := true, nRejectCode := 16, strRejectReason := "bad-txns-vin-empty" },
      fMissingInputs := false, node := node }
  else if tx.vin.any (fun txin => (viewMempoolGetCoins node txin.prevout.hash).isNone) then
    { fAccepted := false,
      state := { fInvalid := false, nRejectCode := 0, strRejectReason := "" },
      fMissingInputs := true, node := node }
  else
    { fAccepted := true,
      state := { fInvalid := false, nRejectCode := 0, strRejectReason := "" },
      fMissingInputs := false,
      node := { node with mempool := fun h => if h = GetHash tx then some tx
                                              else node.mempool h } }

def IsHex (str : String) : Bool :=
  match str.data, parseHexDigits str.data with
  | _ :: _, some _ => true
  | _, _ => false

def uint256S (str : String) : uint256 :=
  (str.data.takeWhile (fun c => (hexDigitValue c).isSome)).foldl
    (fun acc c => (16 * acc + (hexDigitValue c).getD 0) % 2 ^ 256) 0

/-- Stand-in for the transaction lookup: the mempool, with a null block hash. -/
def GetTransaction (node : NodeState) (hash : uint256) (_fAllowSlow : Bool) :
    Option (CTransaction × uint256) :=
  match node.mempool hash with
  | some tx => some (tx, 0)
  | none => none

/-- Stand-in for the hash of two tree nodes. -/
def hashPair (a b : uint256) : uint256 := (31 * a + 17 * b + 1) % 2 ^ 256

/-- Stand-in for the root of a partial Merkle branch that lists every leaf: the leaves are
folded from the left. -/
def foldRoot (hashes : List uint256) : uint256 :=
  match hashes with
  | [] => 0
  | h :: rest => rest.foldl hashPair h

/-- Stand-in for the partial Merkle branch: every transaction hash is listed, with one bit
that tells whether it is matched. -/
def buildMerkleBlock (block : CBlock) (txids : List uint256) : CMerkleBlock :=
  { header := block.header,
    txn := { nTransactions := block.vtx.length,
             vBits := block.vtx.map (fun tx => decide (GetHash tx ∈ txids)),
             vHash := block.vtx.map GetHash } }

def ExtractMatches (txn : CPartialMerkleTree) : uint256 × List uint256 :=
  if txn.nTransactions = 0 ∨ txn.vHash.length ≠ txn.nTransactions ∨
      txn.vBits.length ≠ txn.nTransactions then (0, [])
  else (foldRoot txn.vHash,
        ((txn.vHash.zip txn.vBits).filter (fun p => p.2)).map (fun p => p.1))

def serializeHeader (header : CBlockHeader) : List Nat :=
  natToLE 4 (header.nVersion % 2 ^ 32).toNat ++ natToLE 32 header.hashPrevBlock ++
    natToLE 32 header.hashMerkleRoot ++ natToLE 4 header.nTime ++ natToLE 4 header.nBits ++
    natToLE 4 header.nNonce

/-- Stand-in for the hash of a header: its fields folded with `hashPair`. -/
def headerGetHash (header : CBlockHeader) : uint256 :=
  hashPair (hashPair (hashPair (hashPair header.hashPrevBlock header.hashMerkleRoot)
    header.nTime) header.nBits) (header.nNonce + (header.nVersion % 2 ^ 32).toNat)

def serializeMerkleBlock (mb : CMerkleBlock) : List Nat :=
  serializeHeader mb.header ++ natToLE 4 mb.txn.nTransactions ++
    compactSize mb.txn.vHash.length ++ mb.txn.vHash.flatMap (natToLE 32) ++
    compactSize mb.txn.vBits.length ++ mb.txn.vBits.map (fun b => if b then 1 else 0)

def readBit (bytes : List Nat) : Option (Bool × List Nat) :=
  match bytes with
  | [] => none
  | b :: rest => some (decide (b ≠ 0), rest)

def deserializeMerkleBlock (bytes : List Nat) : Option CMerkleBlock :=
  match readLE 4 bytes with
  | none => none
  | some (version, r1) =>
  match readLE 32 r1 with
  | none => none
  | some (hashPrev, r2) =>
  match readLE 32 r2 with
  | none => none
  | some (hashRoot, r3) =>
  match readLE 4 r3 with
  | none => none
  | some (nTime, r4) =>
  match readLE 4 r4 with
  | none => none
  | some (nBits, r5) =>
  match readLE 4 r5 with
  | none => none
  | some (nNonce, r6) =>
  match readLE 4 r6 with
  | none => none
  | some (nTransactions, r7) =>
  match readCompactSize r7 with
  | none => none
  | some (nHash, r8) =>
  match readMany (readLE 32) nHash r8 with
  | none => none
  | some (vHash, r9) =>
  match readCompactSize r9 with
  | none => none
  | some (nBit, r10) =>
  match readMany readBit nBit r10 with
  | none => none
  | some (vBits, _) =>
    some { header := { nVersion := if version < 2 ^ 31 then (version : Int)
                                   else (version : Int) - 2 ^ 32,
                       hashPrevBlock := hashPrev, hashMerkleRoot := hashRoot,
                       nTime := nTime, nBits := nBits, nNonce := nNonce },
           txn := { nTransactions := nTransactions, vBits := vBits, vHash := vHash } }

/-- The amount as a decimal number with eight places after the point. -/
def ValueFromAmount (amount : Int) : UniValue :=
  let n_abs := amount.natAbs
  let remainder := toString (n_abs % 100000000)
  VREAL ((if amount < 0 then "-" else "") ++ toString (n_abs / 100000000) ++ "." ++
    String.mk (List.replicate (8 - remainder.length) '0') ++ remainder)

/-- A coinbase transaction has one input, whose previous output is null. -/
def IsCoinBase (tx : CTransaction) : Bool :=
  match tx.vin with
  | [txin] => txin.prevout.hash == 0 && txin.prevout.n == 4294967295
  | _ => false

/-- Stand-in for the classification of scripts: the scripts `GetScriptForDestination` makes
pay to one address and need one signature, every other script is not standard. -/
def ExtractDestinations (script : CScript) : DestinationsResult :=
  match script with
  | 118 :: 169 :: len :: rest =>
    if rest.length = len + 2 ∧ rest.drop len = [136, 172] then
      { fOk := true, typeRet := 2,
        addressRet := [{ vchVersion := [0], vchData := rest.take len }], nRequiredRet := 1 }
    else { fOk := false, typeRet := 0, addressRet := [], nRequiredRet := 0 }
  | _ => { fOk := false, typeRet := 0, addressRet := [], nRequiredRet := 0 }

def GetTxnOutputType (t : Nat) : String :=
  match t with
  | 0 => "nonstandard"
  | 1 => "pubkey"
  | 2 => "pubkeyhash"
  | 3 => "scripthash"
  | 4 => "multisig"
  | 5 => "nulldata"
  | _ => ""

/-- Stand-in for base58 encoding: the payload as characters. -/
def addressToString (address : CBitcoinAddress) : String :=
  String.mk (address.vchData.map Char.ofNat)

/-- Stand-in for the address of the hash of a script: version 5 and, for the hash, the
character 3 followed by the length of the script as a digit string. -/
def scriptIDAddress (script : CScript) : CBitcoinAddress :=
  { vchVersion := [5], vchData := 51 :: (toString script.length).data.map Char.toNat }

end Reference

/-- The concrete instantiation of the externals. -/
def Externals.reference : Externals where
  RPCTypeCheck := Reference.RPCTypeCheck
  ParseHashV := Reference.ParseHashV
  ParseHexV := Reference.ParseHexV
  decodeAddress := Reference.decodeAddress
  IsValid := Reference.IsValid
  GetScriptForDestination := Reference.GetScriptForDestination
  AmountFromValue := Reference.AmountFromValue
  OP_RETURN := 106
  pushOpcode := Reference.pushOpcode
  pushData := Reference.pushData
  EncodeHexTx := Reference.EncodeHexTx
  RPCTypeCheckObj := Reference.RPCTypeCheckObj
  deserializeTx := Reference.deserializeTx
  decodeSecret := Reference.decodeSecret
  keyIsValid := fun _ => true
  EnsureWalletIsUnlocked := Reference.EnsureWalletIsUnlocked
  IsPayToScriptHash := Reference.IsPayToScriptHash
  SignSignature := Reference.SignSignature
  CombineSignatures := Reference.CombineSignatures
  STANDARD_SCRIPT_VERIFY_FLAGS := 0
  VerifyScript := Reference.VerifyScript
  ScriptErrorString := Reference.ScriptErrorString
  ScriptToAsmStr := Reference.HexStr
  hashToString := Reference.hashToString
  HexStr := Reference.HexStr
  viewMempoolGetCoins := Reference.viewMempoolGetCoins
  DecodeHexTx := Reference.DecodeHexTx
  GetHash := Reference.GetHash
  AcceptToMemoryPool := Reference.AcceptToMemoryPool
  IsHex := Reference.IsHex
  uint256S := Reference.uint256S
  GetTransaction := Reference.GetTransaction
  buildMerkleBlock := Reference.buildMerkleBlock
  serializeMerkleBlock := Reference.serializeMerkleBlock
  deserializeMerkleBlock := Reference.deserializeMerkleBlock
  ExtractMatches := Reference.ExtractMatches
  headerGetHash := Reference.headerGetHash
  ScriptToAsmStrSighashDecode := Reference.HexStr
  GetSerializeSize := fun tx => (Reference.serializeTx tx).length
  ValueFromAmount := Reference.ValueFromAmount
  IsCoinBase := Reference.IsCoinBase
  ExtractDestinations := Reference.ExtractDestinations
  GetTxnOutputType := Reference.GetTxnOutputType
  addressToString := Reference.addressToString
  scriptIDAddress := Reference.scriptIDAddress

/-! ## Auxiliary definitions for the statements -/

/-- The call of scenario 2: one input, one data output, lock time 500. -/
def scenarioLocktimeParams : List UniValue :=
  [VARR [VOBJ [("txid", VSTR "aaaaaaaaaaaaaaaaaaaaaaaaaaaaaaaaaaaaaaaaaaaaaaaaaaaaaaaaaaaaaaaa"),
               ("vout", VNUM 0)]],
   VOBJ [("data", VSTR "00010203")],
   VNUM 500]

/-- A call with two inputs and two address outputs. -/
def scenarioOrderParams : List UniValue :=
  [VARR [VOBJ [("txid", VSTR "0b"), ("vout", VNUM 1)],
         VOBJ [("txid", VSTR "0a"), ("vout", VNUM 0)]],
   VOBJ [("1B", VNUM 2), ("1A", VNUM 1)]]

/-- The transaction created by the call `scenarioOrderParams`. -/
def scenarioOrderTx : CMutableTransaction :=
  { nVersion := 1,
    vin := [{ prevout := { hash := 11, n := 1 }, scriptSig := [], nSequence := 4294967295 },
            { prevout := { hash := 10, n := 0 }, scriptSig := [], nSequence := 4294967295 }],
    vout := [{ nValue := 200000000, scriptPubKey := [118, 169, 2, 49, 66, 136, 172] },
             { nValue := 100000000, scriptPubKey := [118, 169, 2, 49, 65, 136, 172] }],
    nLockTime := 0 }

/-- The output emitted for a key `data`: value 0 and the script
`CScript() << OP_RETURN << data`. -/
def opReturnOutput (E : Externals) (data : List Nat) : CTxOut :=
  { nValue := 0, scriptPubKey := E.pushData (E.pushOpcode [] E.OP_RETURN) data }

/-- The call of scenario 1: one input, one data output, no lock time. -/
def scenarioDataParams : List UniValue :=
  [VARR [VOBJ [("txid", VSTR "aaaaaaaaaaaaaaaaaaaaaaaaaaaaaaaaaaaaaaaaaaaaaaaaaaaaaaaaaaaaaaaa"),
               ("vout", VNUM 0)]],
   VOBJ [("data", VSTR "00010203")]]

/-- The transaction created by the call `scenarioDataParams`. -/
def scenarioDataTx : CMutableTransaction :=
  { nVersion := 1,
    vin := [{ prevout := { hash := 0xaaaaaaaaaaaaaaaaaaaaaaaaaaaaaaaaaaaaaaaaaaaaaaaaaaaaaaaaaaaaaaaa, n := 0 },
              scriptSig := [], nSequence := 0xFFFFFFFF }],
    vout := [{ nValue := 0, scriptPubKey := [0x6a, 4, 0, 1, 2, 3] }],
    nLockTime := 0 }

/-- The error raised by the duplicate check for the key `name_`. -/
def duplicatedAddress (name_ : String) : Exn :=
  .JSONRPCError .RPC_INVALID_PARAMETER ("Invalid parameter, duplicated address: " ++ name_)

/-- The transaction `tx'` differs from `tx` at most in input `i`: same outputs, same number
of inputs, and every other input unchanged. -/
def OnlyInput (i : Nat) (tx tx' : CMutableTransaction) : Prop :=
  tx'.vout = tx.vout ∧ tx'.vin.length = tx.vin.length ∧ tx'.nLockTime = tx.nLockTime ∧
    tx'.nVersion = tx.nVersion ∧ ∀ j, j ≠ i → tx'.vin[j]? = tx.vin[j]?

/-- The error entry recorded for an input whose previous output is not found in the view. -/
def notFoundEntry (E : Externals) (txin : CTxIn) : UniValue :=
  VOBJ [("txid", VSTR (E.hashToString txin.prevout.hash)),
        ("vout", VNUM txin.prevout.n),
        ("scriptSig", VSTR (E.HexStr txin.scriptSig)),
        ("sequence", VNUM txin.nSequence),
        ("error", VSTR "Input not found or already spent")]

/-- The error raised when a previous output given in the call carries a script other than
the one the view holds for that output. -/
def prevOutMismatch (E : Externals) (held given : CScript) : Exn :=
  .JSONRPCError .RPC_DESERIALIZATION_ERROR
    ("Previous output scriptPubKey mismatch:\n" ++ E.ScriptToAsmStr held ++ "\nvs:\n" ++
      E.ScriptToAsmStr given)

/-- A view that holds, for the transaction with hash 7, a spent output 0 and an available
output 1 with value 5 and script `01 02`. -/
def scenarioCoinsView : uint256 → Option CCoins :=
  fun h => if h = 7 then
    some { fCoinBase := false, vout := [CTxOut.null, { nValue := 5, scriptPubKey := [1, 2] }],
           nHeight := 3, nVersion := 1 }
  else none

/-- A previous output given in a call: output 1 of transaction 7 with script `6b 31`. -/
def scenarioPrevOut : UniValue :=
  VOBJ [("txid", VSTR "0000000000000000000000000000000000000000000000000000000000000007"),
        ("vout", VNUM 1), ("scriptPubKey", VSTR "6b31")]

/-- The encoding of a transaction with the single input `(7, 1)` and no output. -/
def scenarioOneInputHex : String :=
  "010000000107000000000000000000000000000000000000000000000000000000000000000100000000ffffffff0000000000"

/-- The encoding of a transaction with the inputs `(5, 0)` and `(7, 1)` and one output. -/
def scenarioTwoInputHex : String :=
  "010000000205000000000000000000000000000000000000000000000000000000000000000000000000ffffffff07000000000000000000000000000000000000000000000000000000000000000100000000ffffffff010100000000000000015100000000"

/-- A call that signs the two-input transaction with the key `k1`, which unlocks the given
previous output `(7, 1)`; the previous output `(5, 0)` is unknown. -/
def scenarioSignParams : List UniValue :=
  [VSTR scenarioTwoInputHex, VARR [scenarioPrevOut], VARR [VSTR "k1"]]

/-- The result of the call `scenarioSignParams` on an empty mempool and chain. -/
def scenarioSignResult : UniValue :=
  VOBJ [("hex", VSTR "010000000205000000000000000000000000000000000000000000000000000000000000000000000000ffffffff070000000000000000000000000000000000000000000000000000000000000001000000036b3101ffffffff010100000000000000015100000000"),
        ("complete", VBOOL false),
        ("errors", VARR [VOBJ [
          ("txid", VSTR "0000000000000000000000000000000000000000000000000000000000000005"),
          ("vout", VNUM 0), ("scriptSig", VSTR ""), ("sequence", VNUM 4294967295),
          ("error", VSTR "Input not found or already spent")]])]

/-- The transaction encoded by `scenarioTwoInputHex`. -/
def scenarioTwoInputTx : CMutableTransaction :=
  { nVersion := 1,
    vin := [{ prevout := { hash := 5, n := 0 }, scriptSig := [], nSequence := 4294967295 },
            { prevout := { hash := 7, n := 1 }, scriptSig := [], nSequence := 4294967295 }],
    vout := [{ nValue := 1, scriptPubKey := [81] }],
    nLockTime := 0 }

/-- The decoded arguments of the call `scenarioSignParams` on an empty mempool and chain. -/
def scenarioSignArgs : SignArgs :=
  { txVariants := [scenarioTwoInputTx],
    mergedTx := scenarioTwoInputTx,
    view := fun h => if h = 7 then
        some { fCoinBase := false,
               vout := [CTxOut.null, { nValue := 0, scriptPubKey := [107, 49] }],
               nHeight := 0, nVersion := 0 }
      else none,
    keystore := { keys := [[107, 49]], scripts := [] },
    nHashType := 1 }

/-- A view that holds, for transaction 7, an available output 1 locked by the key `k1`. -/
def scenarioKeyView : CCoinsMap :=
  fun h => if h = 7 then
    some { fCoinBase := false,
           vout := [CTxOut.null, { nValue := 0, scriptPubKey := [107, 49] }],
           nHeight := 0, nVersion := 0 }
  else none

/-! ## sendrawtransaction -/

/-- What a call of `sendrawtransaction` leaves behind: the value returned or the exception
thrown, the node state after the call, the calls of `AcceptToMemoryPool` made (the
transaction and the arguments `fLimitFree`, `fOverrideMempoolLimit`, `fRejectAbsurdFee`), and
the transactions handed to `RelayTransaction`. -/
structure SendOutcome where
  result : Except Exn UniValue
  node : NodeState
  admissions : List (CTransaction × Bool × Bool × Bool)
  relayed : List CTransaction

/-- Lines 814-841 of `sendrawtransaction`: the decoded transaction `tx` is submitted.
`pcoinsTip->AccessCoins(hashTx)` is the lookup `σ.pcoinsTip`, `mempool.exists(hashTx)` asks
whether `σ.mempool` holds the hash. -/
def sendrawtransaction_submit (E : Externals) (σ : NodeState) (tx : CTransaction)
    (fOverrideFees : Bool) : SendOutcome :=
  let hashTx := E.GetHash tx
  let existingCoins := σ.pcoinsTip hashTx
  let fHaveMempool := (σ.mempool hashTx).isSome
  let fHaveChain := match existingCoins with
    | some coins => decide (coins.nHeight < 1000000000)
    | none => false
  if !fHaveMempool ∧ !fHaveChain then
    let r := E.AcceptToMemoryPool σ tx false false (!fOverrideFees)
    let admissions := [(tx, false, false, !fOverrideFees)]
    if !r.fAccepted then
      if r.state.fInvalid then
        { result := .error (.JSONRPCError .RPC_TRANSACTION_REJECTED
            (toString r.state.nRejectCode ++ ": " ++ r.state.strRejectReason)),
          node := r.node, admissions := admissions, relayed := [] }
      else if r.fMissingInputs then
        { result := .error (.JSONRPCError .RPC_TRANSACTION_ERROR "Missing inputs"),
          node := r.node, admissions := admissions, relayed := [] }
      else
        { result := .error (.JSONRPCError .RPC_TRANSACTION_ERROR r.state.strRejectReason),
          node := r.node, admissions := admissions, relayed := [] }
    else
      { result := .ok (VSTR (E.hashToString hashTx)),
        node := r.node, admissions := admissions, relayed := [tx] }
  else if fHaveChain then
    { result := .error (.JSONRPCError .RPC_TRANSACTION_ALREADY_IN_CHAIN
        "transaction already in block chain"),
      node := σ, admissions := [], relayed := [] }
  else
    { result := .ok (VSTR (E.hashToString hashTx)), node := σ, admissions := [], relayed := [tx] }

/-- The handler `sendrawtransaction(params, fHelp)` on the node state `σ`. -/
def sendrawtransaction (E : Externals) (σ : NodeState) (params : List UniValue) (fHelp : Bool) :
    SendOutcome :=
  let fail (e : Exn) : SendOutcome :=
    { result := .error e, node := σ, admissions := [], relayed := [] }
  if fHelp ∨ params.length < 1 ∨ params.length > 2 then
    fail (.runtime_error "sendrawtransaction \"hexstring\" ( allowhighfees )")
  else
    match E.RPCTypeCheck params [.VSTR, .VBOOL] false with
    | .error e => fail e
    | .ok _ =>
      match (paramAt params 0).get_str with
      | .error e => fail e
      | .ok strHexTx =>
        match E.DecodeHexTx strHexTx with
        | none => fail (.JSONRPCError .RPC_DESERIALIZATION_ERROR "TX decode failed")
        | some tx =>
          if params.length > 1 then
            match (paramAt params 1).get_bool with
            | .error e => fail e
            | .ok fOverrideFees => sendrawtransaction_submit E σ tx fOverrideFees
          else sendrawtransaction_submit E σ tx false

/-! ## gettxoutproof -/

/-- Lines 227-239 of `gettxoutproof`: the loop over the array of txids.  The state is the
set `setTxids`, as the list of its elements in the order of insertion (only membership and
size are read from it), and `oneTxid`. -/
def gettxoutproof_txids (E : Externals) :
    List UniValue → List uint256 × uint256 → Except Exn (List uint256 × uint256)
  | [], st => .ok st
  | txid :: rest, st =>
    match txid.get_str with
    | .error e => .error e
    | .ok str =>
      if str.utf8ByteSize ≠ 64 ∨ !E.IsHex str then
        .error (.JSONRPCError .RPC_INVALID_PARAMETER ("Invalid txid " ++ str))
      else
        let hash := E.uint256S str
        if hash ∈ st.1 then
          .error (.JSONRPCError .RPC_INVALID_PARAMETER
            ("Invalid parameter, duplicated txid: " ++ str))
        else gettxoutproof_txids E rest (st.1 ++ [hash], hash)

/-- Lines 243-255 of `gettxoutproof`: `pblockindex` after the first selection, `none` for
`NULL`, together with `hashBlock`. -/
def gettxoutproof_select (E : Externals) (σ : NodeState) (params : List UniValue)
    (oneTxid : uint256) : Except Exn (Option CBlockIndex × uint256) :=
  if params.length > 1 then
    match (paramAt params 1).get_str with
    | .error e => .error e
    | .ok str =>
      let hashBlock := E.uint256S str
      match σ.mapBlockIndex hashBlock with
      | none => .error (.JSONRPCError .RPC_INVALID_ADDRESS_OR_KEY "Block not found")
      | some pblockindex => .ok (some pblockindex, hashBlock)
  else
    match σ.pcoinsTip oneTxid with
    | some coins =>
      if coins.nHeight > 0 ∧ coins.nHeight ≤ σ.chainActive.Height then
        .ok (σ.chainActive.atHeight coins.nHeight, 0)
      else .ok (none, 0)
    | none => .ok (none, 0)

/-- Lines 257-265 of `gettxoutproof`: the lookup of the transaction when no block was
selected. -/
def gettxoutproof_lookup (E : Externals) (σ : NodeState) (oneTxid : uint256) :
    Except Exn CBlockIndex :=
  match E.GetTransaction σ oneTxid false with
  | none => .error (.JSONRPCError .RPC_INVALID_ADDRESS_OR_KEY "Transaction not yet in block")
  | some (_, hashBlock) =>
    if hashBlock = 0 then
      .error (.JSONRPCError .RPC_INVALID_ADDRESS_OR_KEY "Transaction not yet in block")
    else
      match σ.mapBlockIndex hashBlock with
      | none => .error (.JSONRPCError .RPC_INTERNAL_ERROR "Transaction index corrupt")
      | some pblockindex => .ok pblockindex

/-- Lines 241-265 of `gettxoutproof`: the block index entry of the block to read. -/
def gettxoutproof_blockindex (E : Externals) (σ : NodeState) (params : List UniValue)
    (oneTxid : uint256) : Except Exn CBlockIndex :=
  match gettxoutproof_select E σ params oneTxid with
  | .error e => .error e
  | .ok (some pblockindex, _) => .ok pblockindex
  | .ok (none, _) => gettxoutproof_lookup E σ oneTxid

/-- The number `ntxFound` of lines 271-274: an `unsigned int` that counts the transactions
of the block whose hash is in the set. -/
def gettxoutproof_ntxFound (E : Externals) (block : CBlock) (setTxids : List uint256) : Nat :=
  (block.vtx.filter (fun tx => decide (E.GetHash tx ∈ setTxids))).length % 4294967296

/-- Lines 271-283 of `gettxoutproof`: the count of the requested transactions in the block,
and the proof. -/
def gettxoutproof_proof (E : Externals) (block : CBlock) (setTxids : List uint256) :
    Except Exn UniValue :=
  if gettxoutproof_ntxFound E block setTxids ≠ setTxids.length then
    .error (.JSONRPCError .RPC_INVALID_ADDRESS_OR_KEY
      "(Not all) transactions not found in specified block")
  else
    .ok (VSTR (E.HexStr (E.serializeMerkleBlock (E.buildMerkleBlock block setTxids))))

/-- The handler `gettxoutproof(params, fHelp)` on the node state `σ`. -/
def gettxoutproof (E : Externals) (σ : NodeState) (params : List UniValue) (fHelp : Bool) :
    Except Exn UniValue :=
  if fHelp ∨ (params.length ≠ 1 ∧ params.length ≠ 2) then
    .error (.runtime_error "gettxoutproof [\"txid\",...] ( blockhash )")
  else
    match (paramAt params 0).get_array with
    | .error e => .error e
    | .ok txids =>
      match gettxoutproof_txids E txids ([], 0) with
      | .error e => .error e
      | .ok (setTxids, oneTxid) =>
        match gettxoutproof_blockindex E σ params oneTxid with
        | .error e => .error e
        | .ok pblockindex =>
          match σ.blockFiles pblockindex with
          | none => .error (.JSONRPCError .RPC_INTERNAL_ERROR "Can\x27t read block from disk")
          | some block => gettxoutproof_proof E block setTxids

/-! ## verifytxoutproof -/

/-- The handler `verifytxoutproof(params, fHelp)` on the node state `σ`. -/
def verifytxoutproof (E : Externals) (σ : NodeState) (params : List UniValue) (fHelp : Bool) :
    Except Exn UniValue :=
  if fHelp ∨ params.length ≠ 1 then
    .error (.runtime_error "verifytxoutproof \"proof\"")
  else
    match E.ParseHexV (paramAt params 0) "proof" with
    | .error e => .error e
    | .ok proof =>
      match E.deserializeMerkleBlock proof with
      | none => .error (.ios_base_failure "CDataStream::read(): end of data")
      | some merkleBlock =>
        let extracted := E.ExtractMatches merkleBlock.txn
        if extracted.1 ≠ merkleBlock.header.hashMerkleRoot then .ok (VARR [])
        else
          match σ.mapBlockIndex (E.headerGetHash merkleBlock.header) with
          | none =>
            .error (.JSONRPCError .RPC_INVALID_ADDRESS_OR_KEY "Block not found in chain")
          | some pblockindex =>
            if !σ.chainActive.Contains pblockindex then
              .error (.JSONRPCError .RPC_INVALID_ADDRESS_OR_KEY "Block not found in chain")
            else .ok (VARR (extracted.2.map (fun hash => VSTR (E.hashToString hash))))

/-! ## signrawtransaction on the node state -/

/-- Modelled from the spec: the chain UTXO view `pcoinsTip`, a cache layer stacked on the
persistent coin database (coins.h and coins.cpp are not among the sources).  `base` is the
lookup of the database; `cacheCoins` holds the entries of the layer, among them the CLEAN
ones, which are cached copies of entries of the database. -/
structure CoinsTip where
  base : uint256 → Option CCoins
  cacheCoins : CCoinsMap

namespace CoinsTip

/-- Modelled from the spec: the lookup of the layer.  An entry of the layer answers it;
otherwise the database is asked, and of what is found there the layer keeps a CLEAN copy.
The result is the coins found and the layer after the call. -/
def GetCoins (tip : CoinsTip) (txid : uint256) : Option CCoins × CoinsTip :=
  let cacheCoins := FetchCoins tip.base tip.cacheCoins txid
  (cacheCoins txid, { tip with cacheCoins := cacheCoins })

/-- What the layer answers when asked for the coins of `txid`. -/
def lookup (tip : CoinsTip) (txid : uint256) : Option CCoins :=
  (tip.GetCoins txid).1

end CoinsTip

/-- Modelled from the spec: the shared state with the chain UTXO view as a cache layer over
the coin database; the other fields are those of `NodeState`. -/
structure NodeStore where
  mempool : uint256 → Option CTransaction
  pcoinsTip : CoinsTip
  mapBlockIndex : uint256 → Option CBlockIndex
  chainActive : CChain
  blockFiles : CBlockIndex → Option CBlock

namespace NodeStore

/-- The node state that the store presents: the chain view is what the layer `pcoinsTip`
answers. -/
def state (σ : NodeStore) : NodeState :=
  { mempool := σ.mempool,
    pcoinsTip := σ.pcoinsTip.lookup,
    mapBlockIndex := σ.mapBlockIndex,
    chainActive := σ.chainActive,
    blockFiles := σ.blockFiles }

/-- Modelled from the spec: `CCoinsViewMemPool::GetCoins(txid, coins)` of the view that
stacks the mempool on the chain view (txmempool.cpp is not among the sources).  The lookup
walks the stack top-down: a transaction of the mempool answers it, otherwise the chain view
is asked, which may keep a copy of what its database holds.  The coins returned are those of
`E.viewMempoolGetCoins` on the state the store presents.  The result is the coins and the
store after the call. -/
def viewMempoolGetCoins (E : Externals) (σ : NodeStore) (txid : uint256) :
    Option CCoins × NodeStore :=
  (E.viewMempoolGetCoins σ.state txid,
   match σ.mempool txid with
   | some _ => σ
   | none => { σ with pcoinsTip := (σ.pcoinsTip.GetCoins txid).2 })

end NodeStore

/-- The two backends the request-local view of `signrawtransaction` is switched between:
the empty view `viewDummy` and the view `viewMempool` of the mempool over the chain. -/
inductive CoinsBackend where
  | viewDummy
  | viewMempool
  deriving DecidableEq, Repr

/-- Modelled from the spec: a layer of the UTXO cache stacked on a backend
(`CCoinsViewCache`; coins.h and coins.cpp are not among the sources): the coins held by the
layer itself and the backend consulted on a miss. -/
structure CCoinsViewCache where
  base : CoinsBackend
  cacheCoins : CCoinsMap

namespace CCoinsViewCache

/-- The lookup of the backend of the layer: the coins found and the store after the call.
The view `viewDummy` holds nothing and touches nothing. -/
def GetBackendCoins (E : Externals) (σ : NodeStore) (view : CCoinsViewCache) (txid : uint256) :
    Option CCoins × NodeStore :=
  match view.base with
  | .viewDummy => (none, σ)
  | .viewMempool => σ.viewMempoolGetCoins E txid

/-- Modelled from the spec: `AccessCoins(txid)` walks the layers top-down.  An entry of this
layer answers it without a call of the backend; otherwise the backend is asked and what it
finds is copied into this layer.  The result is the store and the layer after the call; the
coins the call yields are the entry of `txid` in that layer. -/
def AccessCoins (E : Externals) (σ : NodeStore) (view : CCoinsViewCache) (txid : uint256) :
    NodeStore × CCoinsViewCache :=
  match view.cacheCoins txid with
  | some _ => (σ, view)
  | none =>
    let found := view.GetBackendCoins E σ txid
    match found.1 with
    | none => (found.2, view)
    | some coins =>
      (found.2,
       { view with cacheCoins := fun h => if h = txid then some coins else view.cacheCoins h })

/-- Modelled from the spec: `ModifyCoins(txid)` yields a mutable entry of this layer,
allocating a copy from the backend on first touch.  The result is the store and the layer
after the call; where neither the layer nor the backend has coins of `txid`, the fresh empty
entry is the absent one, read as `CCoins.empty` by `signrawtransaction_prevCoins`. -/
def ModifyCoins (E : Externals) (σ : NodeStore) (view : CCoinsViewCache) (txid : uint256) :
    NodeStore × CCoinsViewCache :=
  match view.cacheCoins txid with
  | some _ => (σ, view)
  | none =>
    let found := view.GetBackendCoins E σ txid
    match found.1 with
    | none => (found.2, view)
    | some coins =>
      (found.2,
       { view with cacheCoins := fun h => if h = txid then some coins else view.cacheCoins h })

/-- The member `SetBackend`: only the backend of the layer changes. -/
def SetBackend (view : CCoinsViewCache) (base : CoinsBackend) : CCoinsViewCache :=
  { view with base := base }

end CCoinsViewCache

/-- Lines 628-644 of `signrawtransaction` on the store: a view on the dummy backend is
created, switched to the mempool view, asked for the previous transaction of every input, and
switched back. -/
def signrawtransaction_fetch (E : Externals) (σ : NodeStore) (vin : List CTxIn) :
    NodeStore × CCoinsViewCache :=
  let view : CCoinsViewCache := { base := .viewDummy, cacheCoins := fun _ => none }
  let view := view.SetBackend .viewMempool
  let st := vin.foldl
    (fun st txin => CCoinsViewCache.AccessCoins E st.1 st.2 txin.prevout.hash) (σ, view)
  (st.1, st.2.SetBackend .viewDummy)

/-- Lines 689-701 on the store: `view.ModifyCoins(txid)`, then the block
`signrawtransaction_prevCoins` on the entries of the layer.  The result is the layer after
the block, or the exception thrown, and the store at that point. -/
def signrawtransaction_prevCoins_node (E : Externals) (σ : NodeStore) (view : CCoinsViewCache)
    (txid : uint256) (nOut : Nat) (scriptPubKey : CScript) :
    Except Exn CCoinsViewCache × NodeStore :=
  let st := view.ModifyCoins E σ txid
  match signrawtransaction_prevCoins E st.2.cacheCoins txid nOut scriptPubKey with
  | .error e => (.error e, st.1)
  | .ok cacheCoins => (.ok { st.2 with cacheCoins := cacheCoins }, st.1)

/-- Lines 672-713 on the store: the body of the loop over the previous outputs given in the
call.  The state is the view and the temporary key store; the second component is the store
when the body ends or throws. -/
def signrawtransaction_prevTx_node (E : Externals) (fGivenKeys : Bool) (σ : NodeStore)
    (st : CCoinsViewCache × CKeyStore) (p : UniValue) :
    Except Exn (CCoinsViewCache × CKeyStore) × NodeStore :=
  if !p.isObject then
    (.error (.JSONRPCError .RPC_DESERIALIZATION_ERROR
      "expected object with \x7b\"txid\x27\",\"vout\",\"scriptPubKey\"\x7d"), σ)
  else
    match p.get_obj with
    | .error e => (.error e, σ)
    | .ok prevOut =>
      match E.RPCTypeCheckObj prevOut
          [("txid", .VSTR), ("vout", .VNUM), ("scriptPubKey", .VSTR)] with
      | .error e => (.error e, σ)
      | .ok _ =>
        match E.ParseHashV (find_value prevOut "txid") "txid" with
        | .error e => (.error e, σ)
        | .ok txid =>
          match (find_value prevOut "vout").get_int with
          | .error e => (.error e, σ)
          | .ok nOut =>
            if nOut < 0 then
              (.error (.JSONRPCError .RPC_DESERIALIZATION_ERROR "vout must be positive"), σ)
            else
              match E.ParseHexV (find_value prevOut "scriptPubKey") "scriptPubKey" with
              | .error e => (.error e, σ)
              | .ok scriptPubKey =>
                match signrawtransaction_prevCoins_node E σ st.1 txid nOut.toNat
                    scriptPubKey with
                | (.error e, σ') => (.error e, σ')
                | (.ok view, σ') =>
                  if fGivenKeys ∧ E.IsPayToScriptHash scriptPubKey then
                    match E.RPCTypeCheckObj prevOut
                        [("txid", .VSTR), ("vout", .VNUM), ("scriptPubKey", .VSTR),
                         ("redeemScript", .VSTR)] with
                    | .error e => (.error e, σ')
                    | .ok _ =>
                      let v := find_value prevOut "redeemScript"
                      if !v.isNull then
                        match E.ParseHexV v "redeemScript" with
                        | .error e => (.error e, σ')
                        | .ok redeemScript =>
                          (.ok (view, { st.2 with scripts := st.2.scripts ++ [redeemScript] }),
                           σ')
                      else (.ok (view, st.2), σ')
                  else (.ok (view, st.2), σ')

/-- Lines 671-714 on the store: the loop over the previous outputs given in the call. -/
def signrawtransaction_prevTxsLoop_node (E : Externals) (fGivenKeys : Bool) :
    List UniValue → NodeStore → CCoinsViewCache × CKeyStore →
    Except Exn (CCoinsViewCache × CKeyStore) × NodeStore
  | [], σ, st => (.ok st, σ)
  | p :: rest, σ, st =>
    match signrawtransaction_prevTx_node E fGivenKeys σ st p with
    | (.error e, σ') => (.error e, σ')
    | (.ok st', σ') => signrawtransaction_prevTxsLoop_node E fGivenKeys rest σ' st'

/-- Lines 668-715 on the store: the previous outputs given in the call are entered into the
view. -/
def signrawtransaction_prevTxs_node (E : Externals) (fGivenKeys : Bool)
    (params : List UniValue) (σ : NodeStore) (st : CCoinsViewCache × CKeyStore) :
    Except Exn (CCoinsViewCache × CKeyStore) × NodeStore :=
  if params.length > 1 ∧ !(paramAt params 1).isNull then
    match (paramAt params 1).get_array with
    | .error e => (.error e, σ)
    | .ok prevTxs => signrawtransaction_prevTxsLoop_node E fGivenKeys prevTxs σ st
  else (.ok st, σ)

/-- Lines 748-768 on the store: `view.AccessCoins(txin.prevout.hash)` of line 749, then the
body `signrawtransaction_input` on the entries of the layer.  The result is the state of the
loop after the body (`none` as in `signrawtransaction_input`), and the store and the layer
after it. -/
def signrawtransaction_input_node (E : Externals) (keystore : CKeyStore)
    (txVariants : List CMutableTransaction) (nHashType : Nat) (σ : NodeStore)
    (view : CCoinsViewCache) (st : CMutableTransaction × List UniValue) (i : Nat) :
    Option (CMutableTransaction × List UniValue) × NodeStore × CCoinsViewCache :=
  match st.1.vin.get? i with
  | none => (none, σ, view)
  | some txin =>
    let fetched := view.AccessCoins E σ txin.prevout.hash
    (signrawtransaction_input E fetched.2.cacheCoins keystore txVariants nHashType st i,
     fetched.1, fetched.2)

/-- Lines 747-769 on the store: the signing loop, over the input indices in the given
list. -/
def signrawtransaction_loop_node (E : Externals) (keystore : CKeyStore)
    (txVariants : List CMutableTransaction) (nHashType : Nat) :
    List Nat → NodeStore → CCoinsViewCache → CMutableTransaction × List UniValue →
    Option (CMutableTransaction × List UniValue) × NodeStore
  | [], σ, _, st => (some st, σ)
  | i :: rest, σ, view, st =>
    match signrawtransaction_input_node E keystore txVariants nHashType σ view st i with
    | (none, σ', _) => (none, σ')
    | (some st', σ', view') =>
      signrawtransaction_loop_node E keystore txVariants nHashType rest σ' view' st'

/-- Lines 646-779 of `signrawtransaction` on the store: the keys, the previous outputs given
in the call, the hash type and the signing loop, from the store and the view that the
lookups of lines 628-644 left. -/
def signrawtransaction_local (E : Externals) (σ : NodeStore) (view : CCoinsViewCache)
    (pwalletMain : Option CWallet) (params : List UniValue)
    (txVariants : List CMutableTransaction) (mergedTx : CMutableTransaction) :
    Except Exn (Option UniValue) × NodeStore :=
  match signrawtransaction_keys E pwalletMain params with
  | .error e => (.error e, σ)
  | .ok (fGivenKeys, tempKeystore) =>
    match signrawtransaction_prevTxs_node E fGivenKeys params σ (view, tempKeystore) with
    | (.error e, σ') => (.error e, σ')
    | (.ok (view', tempKeystore'), σ') =>
      let keystore := match fGivenKeys, pwalletMain with
        | false, some wallet => wallet.keystore
        | _, _ => tempKeystore'
      match signrawtransaction_hashType params with
      | .error e => (.error e, σ')
      | .ok nHashType =>
        match signrawtransaction_loop_node E keystore txVariants nHashType
            (List.range mergedTx.vin.length) σ' view' (mergedTx, []) with
        | (none, σ'') => (.ok none, σ'')
        | (some (mergedTx', vErrors), σ'') =>
          (.ok (some (signrawtransaction_result E mergedTx' vErrors)), σ'')

/-- The handler `signrawtransaction(params, fHelp)` on the store `σ`: what it returns or
throws (`.ok none` as in `signrawtransaction`), and the store after the call. -/
def signrawtransaction_node (E : Externals) (σ : NodeStore) (pwalletMain : Option CWallet)
    (params : List UniValue) (fHelp : Bool) : Except Exn (Option UniValue) × NodeStore :=
  if fHelp ∨ params.length < 1 ∨ params.length > 4 then
    (.error (.runtime_error "signrawtransaction hexstring ( prevtxs privatekeys sighashtype )"),
     σ)
  else
    match E.RPCTypeCheck params [.VSTR, .VARR, .VARR, .VSTR] true with
    | .error e => (.error e, σ)
    | .ok _ =>
      match E.ParseHexV (paramAt params 0) "argument 1" with
      | .error e => (.error e, σ)
      | .ok txData =>
        match signrawtransaction_txVariants E txData.length txData [] with
        | .error e => (.error e, σ)
        | .ok [] => (.error (.JSONRPCError .RPC_DESERIALIZATION_ERROR "Missing transaction"), σ)
        | .ok (tx0 :: txs) =>
          let fetched := signrawtransaction_fetch E σ tx0.vin
          signrawtransaction_local E fetched.1 fetched.2 pwalletMain params (tx0 :: txs) tx0

/-- The request-local view on the dummy backend with the entries `cacheCoins`. -/
def dummyView (cacheCoins : CCoinsMap) : CCoinsViewCache :=
  { base := .viewDummy, cacheCoins := cacheCoins }

/-- The outcome of entering previous outputs, with the entries as a view on the dummy
backend. -/
def onDummyView (r : Except Exn (CCoinsMap × CKeyStore)) :
    Except Exn (CCoinsViewCache × CKeyStore) :=
  match r with
  | .error e => .error e
  | .ok st => .ok (dummyView st.1, st.2)

/-- What a call may do to the chain view of the store: the mempool, the coin database, the
block index, the chain and the block files are the same, and the entry of the layer of the
chain view for a transaction id is the same unless the id is in `ids`, the mempool has no
such transaction, the layer had no entry and now has the copy of the entry of the
database. -/
def CacheFilled (ids : List uint256) (σ σ' : NodeStore) : Prop :=
  σ'.mempool = σ.mempool ∧ σ'.pcoinsTip.base = σ.pcoinsTip.base ∧
  σ'.mapBlockIndex = σ.mapBlockIndex ∧ σ'.chainActive = σ.chainActive ∧
  σ'.blockFiles = σ.blockFiles ∧
  ∀ txid, σ'.pcoinsTip.cacheCoins txid = σ.pcoinsTip.cacheCoins txid ∨
    (txid ∈ ids ∧ σ.mempool txid = none ∧ σ.pcoinsTip.cacheCoins txid = none ∧
      σ'.pcoinsTip.cacheCoins txid = σ.pcoinsTip.base txid)

/-- A store whose coin database holds coins of transaction 7, with nothing in the mempool
and in the layer of the chain view. -/
def scenarioStore : NodeStore :=
  { mempool := fun _ => none,
    pcoinsTip :=
      { base := fun h =>
          if h = 7 then
            some { fCoinBase := false,
                   vout := [CTxOut.null, { nValue := 1, scriptPubKey := [107, 49] }],
                   nHeight := 1, nVersion := 1 }
          else none,
        cacheCoins := fun _ => none },
    mapBlockIndex := fun _ => none,
    chainActive := [],
    blockFiles := fun _ => none }

/-- Every coins entry of the view is as `Cleanup` leaves it: it has no null output at the
end of its output list. -/
def CleanView (view : CCoinsMap) : Prop :=
  ∀ txid coins, view txid = some coins → coins.Cleanup = coins

/-- A previous output given in a call: output 3 of transaction 7 with script `6b 31`. -/
def scenarioHint : UniValue :=
  VOBJ [("txid", VSTR "0000000000000000000000000000000000000000000000000000000000000007"),
        ("vout", VNUM 3), ("scriptPubKey", VSTR "6b31")]

/-- The view `scenarioCoinsView` after the previous output `scenarioHint` was entered. -/
def scenarioHintView : CCoinsMap :=
  fun h => if h = 7 then
    some { fCoinBase := false,
           vout := [CTxOut.null, { nValue := 5, scriptPubKey := [1, 2] }, CTxOut.null,
                    { nValue := 0, scriptPubKey := [107, 49] }],
           nHeight := 3, nVersion := 1 }
  else scenarioCoinsView h

/-- The output list written by lines 695-698: it is padded with null outputs up to index
`n`, and output `n` is set. -/
def prevCoinsVout (v : List CTxOut) (n : Nat) (s : CScript) : List CTxOut :=
  (if n ≥ v.length then v ++ List.replicate (n + 1 - v.length) CTxOut.null else v).set n
    { nValue := 0, scriptPubKey := s }

/-- The transaction encoded by `scenarioOneInputHex`: the single input `(7, 1)`, no output. -/
def scenarioOneInputTx : CTransaction :=
  { nVersion := 1,
    vin := [{ prevout := { hash := 7, n := 1 }, scriptSig := [], nSequence := 4294967295 }],
    vout := [],
    nLockTime := 0 }

/-- A node with nothing in the mempool, the chain view, the block index and the chain. -/
def scenarioEmptyNode : NodeState :=
  { mempool := fun _ => none,
    pcoinsTip := fun _ => none,
    mapBlockIndex := fun _ => none,
    chainActive := [],
    blockFiles := fun _ => none }

/-- A node whose mempool holds the transaction `scenarioOneInputTx`. -/
def scenarioMempoolNode : NodeState :=
  { scenarioEmptyNode with
    mempool := fun h =>
      if h = Externals.reference.GetHash scenarioOneInputTx then some scenarioOneInputTx
      else none }

/-- A node whose mempool holds the transaction `scenarioOneInputTx` and whose chain view
holds coins of that transaction at height 100. -/
def scenarioChainNode : NodeState :=
  { scenarioMempoolNode with
    pcoinsTip := fun h =>
      if h = Externals.reference.GetHash scenarioOneInputTx then
        some { fCoinBase := false, vout := [{ nValue := 1, scriptPubKey := [81] }],
               nHeight := 100, nVersion := 1 }
      else none }

/-- The error `sendrawtransaction` raises after a failed admission that left the validation
state `state` and the flag `fMissingInputs`. -/
def admissionError (state : CValidationState) (fMissingInputs : Bool) : Exn :=
  if state.fInvalid then
    .JSONRPCError .RPC_TRANSACTION_REJECTED
      (toString state.nRejectCode ++ ": " ++ state.strRejectReason)
  else if fMissingInputs then .JSONRPCError .RPC_TRANSACTION_ERROR "Missing inputs"
  else .JSONRPCError .RPC_TRANSACTION_ERROR state.strRejectReason

/-- The encoding of a transaction without inputs and outputs. -/
def scenarioNoInputHex : String := "01000000000000000000"

/-- The transaction encoded by `scenarioNoInputHex`. -/
def scenarioNoInputTx : CTransaction :=
  { nVersion := 1, vin := [], vout := [], nLockTime := 0 }

/-- A transaction id in lower-case hexadecimal. -/
def scenarioTxidLower : String :=
  "aaaaaaaaaaaaaaaaaaaaaaaaaaaaaaaaaaaaaaaaaaaaaaaaaaaaaaaaaaaaaaaa"

/-- The transaction id `scenarioTxidLower` in upper-case hexadecimal. -/
def scenarioTxidUpper : String :=
  "AAAAAAAAAAAAAAAAAAAAAAAAAAAAAAAAAAAAAAAAAAAAAAAAAAAAAAAAAAAAAAAA"

/-- The block index entry of the scenario block: height 1. -/
def scenarioBlockIndex : CBlockIndex := { hashBlock := 11, nHeight := 1, nTime := 0 }

/-- The block index entry of a genesis block. -/
def scenarioGenesisIndex : CBlockIndex := { hashBlock := 10, nHeight := 0, nTime := 0 }

/-- A block with the transactions `scenarioNoInputTx` and `scenarioOneInputTx`. -/
def scenarioBlock : CBlock :=
  { header := { nVersion := 1, hashPrevBlock := 10,
                hashMerkleRoot := Reference.foldRoot
                  [Reference.GetHash scenarioNoInputTx, Reference.GetHash scenarioOneInputTx],
                nTime := 0, nBits := 0, nNonce := 0 },
    vtx := [scenarioNoInputTx, scenarioOneInputTx] }

/-- A node that stores the block `block` for the block index entry `scenarioBlockIndex`,
known to the block index under the hash of the header of `block` and on the active chain at
height 1; the chain view holds coins of the two scenario transactions at height 1. -/
def scenarioBlockNode (block : CBlock) : NodeState :=
  { mempool := fun _ => none,
    pcoinsTip := fun h =>
      if h = Reference.GetHash scenarioNoInputTx ∨ h = Reference.GetHash scenarioOneInputTx then
        some { fCoinBase := false, vout := [{ nValue := 1, scriptPubKey := [81] }],
               nHeight := 1, nVersion := 1 }
      else none,
    mapBlockIndex := fun h =>
      if h = Reference.headerGetHash block.header then some scenarioBlockIndex else none,
    chainActive := [scenarioGenesisIndex, scenarioBlockIndex],
    blockFiles := fun pindex => if pindex = scenarioBlockIndex then some block else none }

/-- The transaction id of `scenarioNoInputTx` on the reference instance. -/
def scenarioNoInputTxid : String :=
  "0000000000000000000000000000000000000000000001000000000000000000"

/-- The transaction id of `scenarioOneInputTx` on the reference instance. -/
def scenarioOneInputTxid : String :=
  "0000000000000000000000000000000000000100000000ffffffff0000000000"

/-- The hash of the header of `scenarioBlock` on the reference instance, in hexadecimal. -/
def scenarioBlockHashHex : String :=
  "00000000000000000000000000000000835f3f0172eecfff7ca0c10000951daa"

/-- The proof that `scenarioOneInputTx` is in `scenarioBlock`, on the reference instance. -/
def scenarioProofHex : String :=
  "010000000a000000000000000000000000000000000000000000000000000000000000000100000000efffffff2f00000011000000000000000000000000000000000000000000000000000000000000020000000200000000000000000001000000000000000000000000000000000000000000000000000000ffffffff0000000001000000000000000000000000000000000000020001"

/-- The coins the chain view of `scenarioBlockNode` holds for the scenario transactions. -/
def scenarioChainCoins : CCoins :=
  { fCoinBase := false, vout := [{ nValue := 1, scriptPubKey := [81] }],
    nHeight := 1, nVersion := 1 }

/-- The proof `scenarioProofHex` with the first byte of its first hash changed. -/
def scenarioBadProofHex : String :=
  "010000000a000000000000000000000000000000000000000000000000000000000000000100000000efffffff2f000000110000000000000000000000000000000000000000000000000000000000000200000002ff000000000000000001000000000000000000000000000000000000000000000000000000ffffffff0000000001000000000000000000000000000000000000020001"

/-- The Merkle block that `scenarioProofHex` encodes, on the reference instance. -/
def scenarioMerkleBlock : CMerkleBlock :=
  Reference.buildMerkleBlock scenarioBlock [Reference.GetHash scenarioOneInputTx]

/-- The condition under which `verifytxoutproof` reports a block as not found in the chain:
the hash is unknown to the block index, or its entry is not on the active chain. -/
def blockNotInChain (σ : NodeState) (hash : uint256) : Prop :=
  σ.mapBlockIndex hash = none ∨
    ∃ pblockindex, σ.mapBlockIndex hash = some pblockindex ∧
      σ.chainActive.Contains pblockindex = false

/-- A previous output given in a call: output 2147483647 of transaction 7 with script
`6b 31`. -/
def scenarioLastOut : UniValue :=
  VOBJ [("txid", VSTR "0000000000000000000000000000000000000000000000000000000000000007"),
        ("vout", VNUM 2147483647), ("scriptPubKey", VSTR "6b31")]

/-- The transaction `scenarioTwoInputTx` with input 1 signed by the key `k1` with hash type
ALL. -/
def scenarioSignedVariant : CMutableTransaction :=
  { scenarioTwoInputTx with
    vin := [{ prevout := { hash := 5, n := 0 }, scriptSig := [], nSequence := 4294967295 },
            { prevout := { hash := 7, n := 1 }, scriptSig := [107, 49, 1],
              nSequence := 4294967295 }] }

/-- A coinbase transaction: one input with the null previous output, one output. -/
def scenarioCoinbaseTx : CTransaction :=
  { nVersion := 1,
    vin := [{ prevout := { hash := 0, n := 4294967295 }, scriptSig := [1, 1],
              nSequence := 4294967295 }],
    vout := [{ nValue := 5000000000, scriptPubKey := [81] }],
    nLockTime := 0 }

/-- A transaction that spends output 1 of transaction 7 into one output. -/
def scenarioSpendA : CTransaction :=
  { nVersion := 1,
    vin := [{ prevout := { hash := 7, n := 1 }, scriptSig := [107, 49, 1],
              nSequence := 4294967295 }],
    vout := [{ nValue := 1, scriptPubKey := [81] }],
    nLockTime := 0 }

/-- A transaction that spends output 0 of transaction 5 into one output. -/
def scenarioSpendB : CTransaction :=
  { nVersion := 1,
    vin := [{ prevout := { hash := 5, n := 0 }, scriptSig := [107, 50, 1],
              nSequence := 4294967295 }],
    vout := [{ nValue := 2, scriptPubKey := [82] }],
    nLockTime := 0 }

/-- A block with four transactions, the second and the fourth of which are the same
transaction `scenarioSpendA`.  The two copies are not neighbours in the transaction list, so
the Merkle root of the block is that of no shorter list; the block spends output 1 of
transaction 7 twice and cannot be connected to a chain. -/
def scenarioRepeatBlock : CBlock :=
  { header := { nVersion := 1, hashPrevBlock := 10,
                hashMerkleRoot := Reference.foldRoot
                  [Reference.GetHash scenarioCoinbaseTx, Reference.GetHash scenarioSpendA,
                   Reference.GetHash scenarioSpendB, Reference.GetHash scenarioSpendA],
                nTime := 0, nBits := 0, nNonce := 0 },
    vtx := [scenarioCoinbaseTx, scenarioSpendA, scenarioSpendB, scenarioSpendA] }

/-- The block index entry of `scenarioRepeatBlock`: height 1. -/
def scenarioRepeatIndex : CBlockIndex :=
  { hashBlock := Reference.headerGetHash scenarioRepeatBlock.header, nHeight := 1, nTime := 0 }

/-- A node whose active chain is the genesis block and the block 11, and which has received
and stored the block `scenarioRepeatBlock` as well: the block index knows it under the hash
of its header, it is not on the active chain, and the chain view holds no coins of its
transactions. -/
def scenarioRepeatNode : NodeState :=
  { mempool := fun _ => none,
    pcoinsTip := fun _ => none,
    mapBlockIndex := fun h =>
      if h = Reference.headerGetHash scenarioRepeatBlock.header then some scenarioRepeatIndex
      else if h = 11 then some scenarioBlockIndex
      else none,
    chainActive := [scenarioGenesisIndex, scenarioBlockIndex],
    blockFiles := fun pindex =>
      if pindex = scenarioRepeatIndex then some scenarioRepeatBlock else none }

/-- The transaction id of `scenarioSpendA` on the reference instance. -/
def scenarioSpendATxid : String :=
  "000000000001000000036b3101ffffffff010100000000000000015100000000"

/-- The hash of the header of `scenarioRepeatBlock` on the reference instance, in
hexadecimal. -/
def scenarioRepeatBlockHashHex : String :=
  "000570f5da1251dc3281a0e65a84a7db5db439e32239583eb4a872511e870fca"

/-! ## The JSON views of scripts and transactions -/

/-- The function `ScriptPubKeyToJSON(scriptPubKey, out, fIncludeHex)`: the entries of the
object `out` after the call. -/
def ScriptPubKeyToJSON (E : Externals) (scriptPubKey : CScript)
    (out : List (String × UniValue)) (fIncludeHex : Bool) : List (String × UniValue) :=
  let out := out ++ [("asm", VSTR (E.ScriptToAsmStr scriptPubKey))]
  let out := if fIncludeHex then out ++ [("hex", VSTR (E.HexStr scriptPubKey))] else out
  let r := E.ExtractDestinations scriptPubKey
  if !r.fOk then
    out ++ [("type", VSTR (E.GetTxnOutputType r.typeRet))]
  else
    out ++ [("reqSigs", VNUM r.nRequiredRet),
            ("type", VSTR (E.GetTxnOutputType r.typeRet)),
            ("addresses", VARR (r.addressRet.map (fun addr => VSTR (E.addressToString addr))))]

/-- Lines 68-83 of `TxToJSON`: the object pushed for the input `txin` of `tx`. -/
def TxToJSON_in (E : Externals) (tx : CTransaction) (txin : CTxIn) : UniValue :=
  VOBJ ((if E.IsCoinBase tx then
      [("coinbase", VSTR (E.HexStr txin.scriptSig))]
    else
      [("txid", VSTR (E.hashToString txin.prevout.hash)),
       ("vout", VNUM txin.prevout.n),
       ("scriptSig", VOBJ [("asm", VSTR (E.ScriptToAsmStrSighashDecode txin.scriptSig)),
                           ("hex", VSTR (E.HexStr txin.scriptSig))])]) ++
    [("sequence", VNUM txin.nSequence)])

/-- Lines 86-95 of `TxToJSON`: the object pushed for output number `i`. -/
def TxToJSON_out (E : Externals) (i : Nat) (txout : CTxOut) : UniValue :=
  VOBJ [("value", E.ValueFromAmount txout.nValue),
        ("n", VNUM i),
        ("scriptPubKey", VOBJ (ScriptPubKeyToJSON E txout.scriptPubKey [] true))]

/-- Lines 64-96 of `TxToJSON`: the entries that describe the transaction itself. -/
def TxToJSON_tx (E : Externals) (tx : CTransaction) : List (String × UniValue) :=
  [("txid", VSTR (E.hashToString (E.GetHash tx))),
   ("size", VNUM (toInt32 (E.GetSerializeSize tx))),
   ("version", VNUM tx.nVersion),
   ("locktime", VNUM tx.nLockTime),
   ("vin", VARR (tx.vin.map (TxToJSON_in E tx))),
   ("vout", VARR ((List.range tx.vout.length).zipWith (TxToJSON_out E) tx.vout))]

/-- Lines 98-111 of `TxToJSON`: the entries that describe the block `hashBlock`.  The null
hash is 0; the heights are C++ `int`s, and for an entry on the active chain
`0 ≤ nHeight ≤ Height()`, so the arithmetic is exact unless the chain has 2^31 blocks. -/
def TxToJSON_block (E : Externals) (σ : NodeState) (hashBlock : uint256) :
    List (String × UniValue) :=
  if hashBlock ≠ 0 then
    [("blockhash", VSTR (E.hashToString hashBlock))] ++
      (match σ.mapBlockIndex hashBlock with
       | some pindex =>
         if σ.chainActive.Contains pindex then
           [("confirmations", VNUM (1 + σ.chainActive.Height - pindex.nHeight)),
            ("time", VNUM pindex.nTime),
            ("blocktime", VNUM pindex.nTime)]
         else [("confirmations", VNUM 0)]
       | none => [])
  else []

/-- The function `TxToJSON(tx, hashBlock, entry)` on the node state `σ`: the entries of the
object `entry` after the call. -/
def TxToJSON (E : Externals) (σ : NodeState) (tx : CTransaction) (hashBlock : uint256)
    (entry : List (String × UniValue)) : List (String × UniValue) :=
  entry ++ TxToJSON_tx E tx ++ TxToJSON_block E σ hashBlock

/-! ## decodescript -/

/-- The handler `decodescript(params, fHelp)`. -/
def decodescript (E : Externals) (params : List UniValue) (fHelp : Bool) :
    Except Exn UniValue :=
  if fHelp ∨ params.length ≠ 1 then
    .error (.runtime_error "decodescript \"hex\"")
  else
    match E.RPCTypeCheck params [.VSTR] false with
    | .error e => .error e
    | .ok _ =>
      match (paramAt params 0).get_str with
      | .error e => .error e
      | .ok str =>
        match (if str.utf8ByteSize > 0 then E.ParseHexV (paramAt params 0) "argument"
               else .ok []) with
        | .error e => .error e
        | .ok script =>
          .ok (VOBJ (ScriptPubKeyToJSON E script [] false ++
            [("p2sh", VSTR (E.addressToString (E.scriptIDAddress script)))]))

/-! ## util.cpp: logging and program options

A `std::string` is a Lean string here.  The code tests single bytes against the characters
`-`, `n`, `o`, `=` and the newline only, which are bytes of no other character in UTF-8, so
reading by characters and reading by bytes agree. -/

/-- The function `LogTimestampStr(str, fStartedNewLine)`: the string returned and the flag
after the call.  `fLogTimestamps` and `fLogTimeMicros` are the globals of that name,
`nTimeMicros` is what `GetLogTimeMicros()` returns when it is called; `DateTimeStrFormat`
(utiltime.cpp) and `formatMicros`, the call `strprintf(".%06d", n)`, are taken as given. -/
def LogTimestampStr (DateTimeStrFormat : String → Int → String) (formatMicros : Int → String)
    (fLogTimestamps fLogTimeMicros : Bool) (nTimeMicros : Int) (str : String)
    (fStartedNewLine : Bool) : String × Bool :=
  if !fLogTimestamps then (str, fStartedNewLine)
  else
    let strStamped :=
      if fStartedNewLine then
        let strStamped := DateTimeStrFormat "%Y-%m-%d %H:%M:%S" (nTimeMicros.tdiv 1000000)
        let strStamped :=
          if fLogTimeMicros then strStamped ++ formatMicros (nTimeMicros.tmod 1000000)
          else strStamped
        strStamped ++ (" " ++ str)
      else str
    if str ≠ "" ∧ str.data.getLast? = some '\n' then (strStamped, true)
    else (strStamped, false)

/-- The function `InterpretBool(strValue)`; `atoi` is the function of that name of
utilstrencodings.cpp. -/
def InterpretBool (atoi : String → Int) (strValue : String) : Bool :=
  if strValue = "" then true
  else atoi strValue != 0

/-- The function `InterpretNegativeSetting(strKey, strValue)`: the key and the value after
the call. -/
def InterpretNegativeSetting (atoi : String → Int) (strKey strValue : String) :
    String × String :=
  if strKey.utf8ByteSize > 3 ∧ strKey.data[0]? = some '-' ∧ strKey.data[1]? = some 'n' ∧
      strKey.data[2]? = some 'o' then
    ("-" ++ String.mk (strKey.data.drop 3), if InterpretBool atoi strValue then "0" else "1")
  else (strKey, strValue)

/-- The maps `mapArgs` and `mapMultiArgs`: for each key the value, or the values, or nothing
when the map has no entry for the key. -/
structure ArgsMaps where
  mapArgs : String → Option String
  mapMultiArgs : String → Option (List String)

namespace ArgsMaps

/-- The maps after `mapArgs.clear(); mapMultiArgs.clear()`. -/
def clear : ArgsMaps := { mapArgs := fun _ => none, mapMultiArgs := fun _ => none }

/-- The statement `mapMultiArgs[str].push_back(strValue)`. -/
def push_back (m : ArgsMaps) (str strValue : String) : ArgsMaps :=
  { m with mapMultiArgs := fun k =>
      if k = str then some ((m.mapMultiArgs str).getD [] ++ [strValue]) else m.mapMultiArgs k }

/-- The statements `mapArgs[str] = strValue; mapMultiArgs[str].push_back(strValue)`. -/
def assign (m : ArgsMaps) (str strValue : String) : ArgsMaps :=
  ({ m with mapArgs := fun k => if k = str then some strValue else m.mapArgs k } :
    ArgsMaps).push_back str strValue

end ArgsMaps

/-- Lines 353-360 of `ParseParameters`: the argument is split at its first `=` into the
name `str` and the value `strValue`; without `=` the value is empty. -/
def splitArg (arg : String) : String × String :=
  if '=' ∈ arg.data then
    (String.mk (arg.data.takeWhile (· ≠ '=')),
     String.mk ((arg.data.dropWhile (· ≠ '=')).drop 1))
  else (arg, "")

/-- Lines 353-376 of `ParseParameters`, the body of the loop for the argument `arg`: the key
and the value that are entered into the maps, `none` when the loop is left by `break`.  The
branch under `WIN32` is not part of this build.  An empty name does not start with `-`. -/
def ParseParameters_arg (atoi : String → Int) (arg : String) : Option (String × String) :=
  let split := splitArg arg
  let str := split.1
  if str.data[0]? ≠ some '-' then none
  else
    let str :=
      if str.utf8ByteSize > 1 ∧ str.data[1]? = some '-' then String.mk (str.data.drop 1)
      else str
    some (InterpretNegativeSetting atoi str split.2)

/-- Lines 350-377 of `ParseParameters`: the loop over the arguments. -/
def ParseParameters_loop (atoi : String → Int) : List String → ArgsMaps → ArgsMaps
  | [], m => m
  | arg :: rest, m =>
    match ParseParameters_arg atoi arg with
    | none => m
    | some (str, strValue) => ParseParameters_loop atoi rest (m.assign str strValue)

/-- The function `ParseParameters(argc, argv)` on the maps `maps`: the maps after the call.
`argv` holds the `argc` arguments, the program name first. -/
def ParseParameters (atoi : String → Int) (argv : List String) (_maps : ArgsMaps) : ArgsMaps :=
  ParseParameters_loop atoi (argv.drop 1) ArgsMaps.clear

/-- Lines 545-551 of `ReadConfigFile`: the body of the loop for an entry of the file with
the key `string_key` and the value `value`. -/
def ReadConfigFile_entry (atoi : String → Int) (m : ArgsMaps) (string_key value : String) :
    ArgsMaps :=
  let kv := InterpretNegativeSetting atoi ("-" ++ string_key) value
  ({ m with mapArgs := fun k =>
      if k = kv.1 ∧ m.mapArgs kv.1 = none then some kv.2 else m.mapArgs k } :
    ArgsMaps).push_back kv.1 kv.2

/-- The function `ReadConfigFile(mapSettingsRet, mapMultiSettingsRet)` on the two maps: the
maps after the call.  `streamConfig` is `none` when the file cannot be read, and else the
entries the configuration file iterator of the program options library yields, in the order
of the file, each with the key it reports and its first value.  (The cache of the data
directory, cleared at the end, is not part of the maps.) -/
def ReadConfigFile (atoi : String → Int) (streamConfig : Option (List (String × String)))
    (m : ArgsMaps) : ArgsMaps :=
  match streamConfig with
  | none => m
  | some entries => entries.foldl (fun m it => ReadConfigFile_entry atoi m it.1 it.2) m

/-- The keys and values a list of arguments yields, up to the first argument at which the
loop of `ParseParameters` is left. -/
def parsedOptions (atoi : String → Int) : List String → List (String × String)
  | [] => []
  | arg :: rest =>
    match ParseParameters_arg atoi arg with
    | none => []
    | some kv => kv :: parsedOptions atoi rest

/-- The values entered under the key `k`, in order. -/
def valuesOf (entries : List (String × String)) (k : String) : List String :=
  (entries.filter (fun kv => kv.1 = k)).map (fun kv => kv.2)

namespace Reference

/-- The digits at the head of a list of characters, read as a decimal number. -/
def readDigits : List Char → Nat → Nat
  | [], acc => acc
  | c :: rest, acc => if c.isDigit then readDigits rest (10 * acc + (c.toNat - 48)) else acc

/-- The C function `atoi` on a string: white space is skipped, then an optional sign and
the decimal digits that follow are read (values beyond `int` are not represented). -/
def atoi (str : String) : Int :=
  match str.data.dropWhile Char.isWhitespace with
  | '-' :: rest => - (readDigits rest 0 : Int)
  | '+' :: rest => (readDigits rest 0 : Int)
  | rest => (readDigits rest 0 : Int)

/-- Stand-in for the date format: the seconds as a decimal number. -/
def DateTimeStrFormat (_pszFormat : String) (nTime : Int) : String := toString nTime

/-- The format `.%06d` for a number from 0 to 999999. -/
def formatMicros (n : Int) : String :=
  "." ++ String.mk (List.replicate (6 - (toString n).length) '0') ++ toString n

end Reference

/-- A log line that ends with a newline. -/
def scenarioLogLine : String := "init message\n"

/-- A command line: the option `-foo` three times, once written `--foo`, a negated option,
then an argument that is not an option, and `-foo` once more after it. -/
def scenarioArgv : List String :=
  ["bitcoind", "-foo=1", "--foo=2", "-nobar", "-foo=3", "stop", "-foo=4"]

/-- Maps that hold an entry for the key `-old`. -/
def scenarioOldMaps : ArgsMaps :=
  { mapArgs := fun k => if k = "-old" then some "1" else none,
    mapMultiArgs := fun k => if k = "-old" then some ["1"] else none }

/-- The keys and values the entries of a configuration file yield: the key with `-` put in
front, and `InterpretNegativeSetting` applied. -/
def configOptions (atoi : String → Int) (entries : List (String × String)) :
    List (String × String) :=
  entries.map (fun it => InterpretNegativeSetting atoi ("-" ++ it.1) it.2)

/-- The entries of a configuration file: `foo` twice, `old`, and `nobar`. -/
def scenarioConfig : List (String × String) :=
  [("foo", "1"), ("old", "7"), ("foo", "2"), ("nobar", "1")]

/-- The entries `TxToJSON` pushes for a block `hashBlock` whose block index entry `pindex`
is on the active chain. -/
def confirmedEntries (E : Externals) (σ : NodeState) (hashBlock : uint256)
    (pindex : CBlockIndex) : List (String × UniValue) :=
  [("blockhash", VSTR (E.hashToString hashBlock)),
   ("confirmations", VNUM (σ.chainActive.Height - pindex.nHeight + 1)),
   ("time", VNUM pindex.nTime),
   ("blocktime", VNUM pindex.nTime)]

/-- A node with a chain of three blocks; the block index knows the block 11 at height 1,
which is on the chain, and the block 12 at height 1, which is not. -/
def scenarioForkNode : NodeState :=
  { mempool := fun _ => none,
    pcoinsTip := fun _ => none,
    mapBlockIndex := fun h =>
      if h = 11 then some scenarioBlockIndex
      else if h = 12 then some { hashBlock := 12, nHeight := 1, nTime := 5 }
      else none,
    chainActive := [scenarioGenesisIndex, scenarioBlockIndex,
                    { hashBlock := 13, nHeight := 2, nTime := 9 }],
    blockFiles := fun _ => none }

/-! # Theorems -/

set_option maxRecDepth 100000



/-! ## createrawtransaction: auxiliary lemmas -/

theorem toUInt32_of_int32 {z : Int} (h0 : 0 ≤ z) (h1 : z ≤ 2147483647) :
    toUInt32 z = z.toNat := by
  unfold toUInt32
  rw [Int.emod_eq_of_lt h0 (by omega)]

theorem get_int_range {v : UniValue} {n : Int} (h : v.get_int = .ok n) :
    -2147483648 ≤ n ∧ n ≤ 2147483647 := by
  cases v <;> simp only [get_int] at h <;> try cases h
  split at h
  · cases h; assumption
  · cases h

theorem createrawtransaction_input_ok {E : Externals} {nLockTime : Nat} {vin vin' : List CTxIn}
    {input : UniValue} (h : createrawtransaction_input E nLockTime vin input = .ok vin') :
    ∃ txin, InputOf E nLockTime input txin ∧ vin' = vin ++ [txin] := by
  unfold createrawtransaction_input at h
  split at h
  · cases h
  · rename_i o ho
    split at h
    · cases h
    · rename_i txid htx
      simp only at h
      split at h
      · cases h
      · split at h
        · cases h
        · rename_i nOutput hn
          split at h
          · cases h
          · rename_i hneg
            have hr := get_int_range hn
            refine ⟨_, ⟨o, txid, nOutput, ho, htx, hn, by omega, hr.2, rfl⟩, ?_⟩
            cases h
            rw [toUInt32_of_int32 (by omega) hr.2]
            rfl

theorem createrawtransaction_vin_ok {E : Externals} {nLockTime : Nat} :
    ∀ (inputs : List UniValue) (vin0 vin : List CTxIn),
      createrawtransaction_vin E nLockTime inputs vin0 = .ok vin →
      ∃ added, vin = vin0 ++ added ∧ List.Forall₂ (InputOf E nLockTime) inputs added := by
  intro inputs
  induction inputs with
  | nil =>
    intro vin0 vin h
    simp only [createrawtransaction_vin] at h
    cases h
    exact ⟨[], by simp, List.Forall₂.nil⟩
  | cons input rest ih =>
    intro vin0 vin h
    simp only [createrawtransaction_vin] at h
    split at h
    · cases h
    · rename_i vin1 h1
      obtain ⟨txin, htxin, rfl⟩ := createrawtransaction_input_ok h1
      obtain ⟨added, rfl, hadd⟩ := ih _ _ h
      exact ⟨txin :: added, by simp, List.Forall₂.cons htxin hadd⟩

theorem createrawtransaction_output_ok {E : Externals} {sendTo : List (String × UniValue)}
    {st st' : List CBitcoinAddress × List CTxOut} {name_ : String}
    (h : createrawtransaction_output E sendTo st name_ = .ok st') :
    ∃ txout, OutputOf E sendTo name_ txout ∧ st'.2 = st.2 ++ [txout] ∧
      st'.1 = addressKeys E [name_] ++ st.1 ∧
      (name_ ≠ "data" → E.decodeAddress name_ ∉ st.1) := by
  unfold createrawtransaction_output at h
  split at h
  · rename_i hd
    split at h
    · cases h
    · rename_i data hdata
      cases h
      refine ⟨_, ?_, rfl, ?_, fun hne => absurd hd hne⟩
      · unfold OutputOf
        rw [if_pos hd]
        exact ⟨data, hdata, rfl⟩
      · simp [addressKeys, hd]
  · rename_i hd
    simp only at h
    split at h
    · cases h
    · rename_i hvalid
      split at h
      · cases h
      · rename_i hmem
        split at h
        · cases h
        · rename_i nAmount hamt
          cases h
          refine ⟨_, ?_, rfl, ?_, fun _ => hmem⟩
          · unfold OutputOf
            rw [if_neg hd]
            refine ⟨by simpa using hvalid, nAmount, hamt, rfl⟩
          · simp [addressKeys, hd]

theorem addressKeys_cons (E : Externals) (name_ : String) (keys : List String) :
    addressKeys E (name_ :: keys) = addressKeys E [name_] ++ addressKeys E keys := by
  by_cases h : name_ = "data" <;> simp [addressKeys, h]

theorem createrawtransaction_vout_ok {E : Externals} {sendTo : List (String × UniValue)} :
    ∀ (keys : List String) (st st' : List CBitcoinAddress × List CTxOut),
      createrawtransaction_vout E sendTo keys st = .ok st' →
      ∃ added, st'.2 = st.2 ++ added ∧ List.Forall₂ (OutputOf E sendTo) keys added ∧
        st'.1 = (addressKeys E keys).reverse ++ st.1 ∧
        ((addressKeys E keys).Nodup ∧ ∀ a ∈ addressKeys E keys, a ∉ st.1) := by
  intro keys
  induction keys with
  | nil =>
    intro st st' h
    simp only [createrawtransaction_vout] at h
    cases h
    exact ⟨[], by simp, List.Forall₂.nil, by simp [addressKeys], by simp [addressKeys]⟩
  | cons name_ rest ih =>
    intro st st' h
    simp only [createrawtransaction_vout] at h
    split at h
    · cases h
    · rename_i st1 h1
      obtain ⟨txout, hout, h2, h3, h4⟩ := createrawtransaction_output_ok h1
      obtain ⟨added, h5, h6, h7, h8, h9⟩ := ih _ _ h
      refine ⟨txout :: added, ?_, List.Forall₂.cons hout h6, ?_, ?_, ?_⟩
      · rw [h5, h2]; simp
      · rw [h7, h3]
        by_cases hd : name_ = "data" <;> simp [addressKeys, hd]
      · rw [addressKeys_cons]
        by_cases hd : name_ = "data"
        · simpa [addressKeys, hd] using h8
        · have : addressKeys E [name_] = [E.decodeAddress name_] := by simp [addressKeys, hd]
          rw [this]
          simp only [List.singleton_append, List.nodup_cons]
          refine ⟨fun hmem => ?_, h8⟩
          have := h9 _ hmem
          rw [h3] at this
          simp [addressKeys, hd] at this
      · intro a ha
        rw [addressKeys_cons] at ha
        rcases List.mem_append.1 ha with ha | ha
        · by_cases hd : name_ = "data"
          · simp [addressKeys, hd] at ha
          · simp [addressKeys, hd] at ha
            subst ha
            exact h4 hd
        · have := h9 _ ha
          rw [h3] at this
          exact fun hmem => this (List.mem_append_right _ hmem)

theorem createrawtransaction_rawTx_ok {E : Externals} {params : List UniValue} {fHelp : Bool}
    {tx : CMutableTransaction} (h : createrawtransaction_rawTx E params fHelp = .ok tx) :
    ∃ inputs sendTo st, fHelp = false ∧ 2 ≤ params.length ∧ params.length ≤ 3 ∧
      E.RPCTypeCheck params [.VARR, .VOBJ, .VNUM] true = .ok () ∧
      (paramAt params 0).get_array = .ok inputs ∧ (paramAt params 1).get_obj = .ok sendTo ∧
      createrawtransaction_locktime params = .ok tx.nLockTime ∧
      createrawtransaction_vin E tx.nLockTime inputs [] = .ok tx.vin ∧
      createrawtransaction_vout E sendTo (getKeys sendTo) ([], []) = .ok st ∧
      tx.vout = st.2 ∧ tx.nVersion = 1 := by
  unfold createrawtransaction_rawTx at h
  split at h
  · cases h
  · rename_i hcond
    split at h
    · cases h
    · rename_i u hT
      split at h
      · cases h
      · split at h
        · cases h
        · rename_i inputs hin
          split at h
          · cases h
          · rename_i sendTo hs
            split at h
            · cases h
            · rename_i nLockTime hl
              split at h
              · cases h
              · rename_i vin hv
                split at h
                · cases h
                · rename_i st hst
                  cases h
                  refine ⟨inputs, sendTo, st, ?_, ?_, ?_, hT, hin, hs, hl, hv, hst, rfl, rfl⟩
                  · cases fHelp <;> simp_all
                  · simp only [not_or, not_lt] at hcond; omega
                  · simp only [not_or, not_lt] at hcond; omega

theorem createrawtransaction_locktime_omitted (params : List UniValue)
    (h : params.length ≤ 2 ∨ (paramAt params 2).isNull = true) :
    createrawtransaction_locktime params = .ok 0 := by
  unfold createrawtransaction_locktime
  rw [if_neg]
  · rfl
  · rintro ⟨h1, h2⟩
    rcases h with h | h
    · omega
    · rw [h] at h2
      simp at h2

/-- C1: every input of the transaction created by a successful `createrawtransaction` call
has sequence number 0xFFFFFFFE when the lock time of the transaction is not zero, and
0xFFFFFFFF when it is zero; it is zero, and the sequence number 0xFFFFFFFF, when the lock
time argument is omitted or null. -/
theorem createrawtransaction_sequence (E : Externals) (params : List UniValue) (fHelp : Bool)
    (r : UniValue) (h : createrawtransaction E params fHelp = .ok r) :
    ∃ rawTx, createrawtransaction_rawTx E params fHelp = .ok rawTx ∧
      r = VSTR (E.EncodeHexTx rawTx) ∧
      (∀ txin ∈ rawTx.vin,
        txin.nSequence = if rawTx.nLockTime ≠ 0 then 0xFFFFFFFE else 0xFFFFFFFF) ∧
      (params.length ≤ 2 ∨ (paramAt params 2).isNull = true →
        rawTx.nLockTime = 0 ∧ ∀ txin ∈ rawTx.vin, txin.nSequence = 0xFFFFFFFF) := by
  unfold createrawtransaction at h
  split at h
  · cases h
  · rename_i rawTx hraw
    cases h
    obtain ⟨inputs, sendTo, st, -, -, -, -, -, -, hl, hv, -, -, -⟩ :=
      createrawtransaction_rawTx_ok hraw
    obtain ⟨added, hadd, hall⟩ := createrawtransaction_vin_ok _ _ _ hv
    simp only [List.nil_append] at hadd
    have hseq : ∀ txin ∈ rawTx.vin,
        txin.nSequence = if rawTx.nLockTime ≠ 0 then 0xFFFFFFFE else 0xFFFFFFFF := by
      rw [hadd]
      intro txin hmem
      obtain ⟨i, hi, rfl⟩ := List.getElem_of_mem hmem
      have hlen := hall.length_eq
      obtain ⟨o, txid, nOutput, -, -, -, -, -, heq⟩ :=
        (List.forall₂_iff_get.1 hall).2 i (by omega) hi
      simp only [List.get_eq_getElem] at heq
      rw [heq]
    refine ⟨rawTx, hraw, rfl, hseq, ?_⟩
    intro hom
    rw [createrawtransaction_locktime_omitted params hom] at hl
    have h0 : rawTx.nLockTime = 0 := (Except.ok.inj hl).symm
    refine ⟨h0, fun txin hmem => ?_⟩
    rw [hseq txin hmem, h0]
    rfl

theorem createrawtransaction_sequence_witness :
    createrawtransaction_rawTx Externals.reference scenarioLocktimeParams false =
      .ok { nVersion := 1,
            vin := [{ prevout := { hash := 0xaaaaaaaaaaaaaaaaaaaaaaaaaaaaaaaaaaaaaaaaaaaaaaaaaaaaaaaaaaaaaaaa, n := 0 },
                      scriptSig := [], nSequence := 0xFFFFFFFE }],
            vout := [{ nValue := 0, scriptPubKey := [0x6a, 4, 0, 1, 2, 3] }],
            nLockTime := 500 } ∧
    ∃ rawTx, createrawtransaction_rawTx Externals.reference scenarioLocktimeParams false
        = .ok rawTx ∧
      VSTR "0100000001aaaaaaaaaaaaaaaaaaaaaaaaaaaaaaaaaaaaaaaaaaaaaaaaaaaaaaaaaaaaaaaa0000000000feffffff010000000000000000066a0400010203f4010000"
        = VSTR (Externals.reference.EncodeHexTx rawTx) ∧
      (∀ txin ∈ rawTx.vin,
        txin.nSequence = if rawTx.nLockTime ≠ 0 then 0xFFFFFFFE else 0xFFFFFFFF) ∧
      (scenarioLocktimeParams.length ≤ 2 ∨ (paramAt scenarioLocktimeParams 2).isNull = true →
        rawTx.nLockTime = 0 ∧ ∀ txin ∈ rawTx.vin, txin.nSequence = 0xFFFFFFFF) :=
  ⟨by rfl, createrawtransaction_sequence Externals.reference scenarioLocktimeParams false _
    (by rfl)⟩

/-- C2 (amended): a lock time argument that fits a signed 64-bit integer and is below 0 or
above 4294967295 makes `createrawtransaction` fail with `RPC_INVALID_PARAMETER`; an integer
argument outside the signed 64-bit range makes it fail with the `std::runtime_error` of
`get_int64`; a lock time argument in the range 0 to 4294967295 is the lock time of the
created transaction; when the argument is omitted or null the lock time is 0. -/
theorem createrawtransaction_locktime_range (E : Externals) (p0 p1 : UniValue) (fHelp : Bool) :
    (∀ inputs sendTo n, p0 = VARR inputs → p1 = VOBJ sendTo →
      E.RPCTypeCheck [p0, p1, VNUM n] [.VARR, .VOBJ, .VNUM] true = .ok () →
      -9223372036854775808 ≤ n → n ≤ 9223372036854775807 →
      n < 0 ∨ 4294967295 < n →
      createrawtransaction E [p0, p1, VNUM n] false =
        .error (.JSONRPCError .RPC_INVALID_PARAMETER
          "Invalid parameter, locktime out of range")) ∧
    (∀ inputs sendTo n, p0 = VARR inputs → p1 = VOBJ sendTo →
      E.RPCTypeCheck [p0, p1, VNUM n] [.VARR, .VOBJ, .VNUM] true = .ok () →
      n < -9223372036854775808 ∨ 9223372036854775807 < n →
      createrawtransaction E [p0, p1, VNUM n] false =
        .error (.runtime_error "JSON integer out of range")) ∧
    (∀ n tx, 0 ≤ n → n ≤ 4294967295 →
      createrawtransaction_rawTx E [p0, p1, VNUM n] fHelp = .ok tx → (tx.nLockTime : Int) = n) ∧
    (∀ tx, createrawtransaction_rawTx E [p0, p1] fHelp = .ok tx → tx.nLockTime = 0) ∧
    (∀ tx, createrawtransaction_rawTx E [p0, p1, VNULL] fHelp = .ok tx → tx.nLockTime = 0) := by
  refine ⟨?_, ?_, ?_, ?_, ?_⟩
  · rintro inputs sendTo n rfl rfl hT hlo hhi hn
    have hn' : n < 0 ∨ n > (UINT32_MAX : Int) := by
      simpa [UINT32_MAX] using hn
    have h64 : (-9223372036854775808 ≤ n ∧ n ≤ 9223372036854775807) := ⟨hlo, hhi⟩
    simp [createrawtransaction, createrawtransaction_rawTx, hT, paramAt, isNull, get_array,
      get_obj, createrawtransaction_locktime, get_int64, hn', h64]
  · rintro inputs sendTo n rfl rfl hT hn
    have h64 : ¬ (-9223372036854775808 ≤ n ∧ n ≤ 9223372036854775807) := by omega
    simp [createrawtransaction, createrawtransaction_rawTx, hT, paramAt, isNull, get_array,
      get_obj, createrawtransaction_locktime, get_int64, h64]
  · intro n tx h0 h1 h
    obtain ⟨_, _, _, -, -, -, -, -, -, hl, -, -, -, -⟩ := createrawtransaction_rawTx_ok h
    have hn' : ¬ (n < 0 ∨ n > (UINT32_MAX : Int)) := by
      simp only [UINT32_MAX]; push_cast; omega
    have h64 : (-9223372036854775808 ≤ n ∧ n ≤ 9223372036854775807) := by omega
    simp only [createrawtransaction_locktime, paramAt, List.length_cons, List.length_nil,
      List.getD_cons_succ, List.getD_cons_zero, isNull, get_int64, if_pos h64, if_neg hn']
      at hl
    simp only [toUInt32] at hl
    simp at hl
    rw [← hl, Int.emod_eq_of_lt h0 (by omega)]
    omega
  · intro tx h
    obtain ⟨_, _, _, -, -, -, -, -, -, hl, -, -, -, -⟩ := createrawtransaction_rawTx_ok h
    simp [createrawtransaction_locktime, CMutableTransaction.new] at hl
    exact hl.symm
  · intro tx h
    obtain ⟨_, _, _, -, -, -, -, -, -, hl, -, -, -, -⟩ := createrawtransaction_rawTx_ok h
    simp [createrawtransaction_locktime, CMutableTransaction.new, paramAt, isNull] at hl
    exact hl.symm

theorem createrawtransaction_locktime_range_witness :
    createrawtransaction Externals.reference [VARR [], VOBJ [], VNUM 4294967296] false =
      .error (.JSONRPCError .RPC_INVALID_PARAMETER "Invalid parameter, locktime out of range") ∧
    createrawtransaction Externals.reference [VARR [], VOBJ [], VNUM (-1)] false =
      .error (.JSONRPCError .RPC_INVALID_PARAMETER "Invalid parameter, locktime out of range") ∧
    createrawtransaction Externals.reference [VARR [], VOBJ [], VNUM 9223372036854775807]
        false =
      .error (.JSONRPCError .RPC_INVALID_PARAMETER "Invalid parameter, locktime out of range") ∧
    createrawtransaction Externals.reference [VARR [], VOBJ [], VNUM (-9223372036854775809)]
        false = .error (.runtime_error "JSON integer out of range") ∧
    createrawtransaction_rawTx Externals.reference [VARR [], VOBJ [], VNUM 4294967295] false =
      .ok { nVersion := 1, vin := [], vout := [], nLockTime := 4294967295 } ∧
    (∀ tx, createrawtransaction_rawTx Externals.reference [VARR [], VOBJ [], VNUM 4294967295]
      false = .ok tx → (tx.nLockTime : Int) = 4294967295) :=
  ⟨(createrawtransaction_locktime_range Externals.reference (VARR []) (VOBJ []) false).1
      [] [] 4294967296 rfl rfl rfl (by decide) (by decide) (Or.inr (by decide)),
   (createrawtransaction_locktime_range Externals.reference (VARR []) (VOBJ []) false).1
      [] [] (-1) rfl rfl rfl (by decide) (by decide) (Or.inl (by decide)),
   (createrawtransaction_locktime_range Externals.reference (VARR []) (VOBJ []) false).1
      [] [] 9223372036854775807 rfl rfl rfl (by decide) (by decide) (Or.inr (by decide)),
   (createrawtransaction_locktime_range Externals.reference (VARR []) (VOBJ []) false).2.1
      [] [] (-9223372036854775809) rfl rfl rfl (Or.inl (by decide)),
   by rfl,
   fun tx h => (createrawtransaction_locktime_range Externals.reference (VARR []) (VOBJ [])
      false).2.2.1 4294967295 tx (by decide) (by decide) h⟩

/-- C2 (as stated) fails: the lock time argument 9223372036854775808 is greater than
4294967295, and the call fails with the `std::runtime_error` that `get_int64` throws for an
integer outside the signed 64-bit range, not with `RPC_INVALID_PARAMETER`. -/
theorem createrawtransaction_locktime_range_counterexample :
    (4294967295 : Int) < 9223372036854775808 ∧
    createrawtransaction Externals.reference [VARR [], VOBJ [], VNUM 9223372036854775808]
        false = .error (.runtime_error "JSON integer out of range") ∧
    ∀ message, createrawtransaction Externals.reference
        [VARR [], VOBJ [], VNUM 9223372036854775808] false ≠
      .error (.JSONRPCError .RPC_INVALID_PARAMETER message) := by
  refine ⟨by decide, by rfl, ?_⟩
  intro message h
  have hr : createrawtransaction Externals.reference
      [VARR [], VOBJ [], VNUM 9223372036854775808] false =
      .error (.runtime_error "JSON integer out of range") := by rfl
  rw [hr] at h
  cases h

theorem createrawtransaction_rawTx_forall₂ {E : Externals} {params : List UniValue}
    {fHelp : Bool} {rawTx : CMutableTransaction}
    (h : createrawtransaction_rawTx E params fHelp = .ok rawTx) :
    ∃ inputs sendTo, (paramAt params 0).get_array = .ok inputs ∧
      (paramAt params 1).get_obj = .ok sendTo ∧
      List.Forall₂ (InputOf E rawTx.nLockTime) inputs rawTx.vin ∧
      List.Forall₂ (OutputOf E sendTo) (getKeys sendTo) rawTx.vout := by
  obtain ⟨inputs, sendTo, st, -, -, -, -, hin, hs, -, hv, hst, hvout, -⟩ :=
    createrawtransaction_rawTx_ok h
  obtain ⟨added, hadd, hall⟩ := createrawtransaction_vin_ok _ _ _ hv
  obtain ⟨added', hadd', hall', -, -⟩ := createrawtransaction_vout_ok _ _ _ hst
  simp only [List.nil_append] at hadd hadd'
  rw [hvout, hadd', hadd]
  exact ⟨inputs, sendTo, hin, hs, hall, hall'⟩

/-- C5: the transaction created by a successful `createrawtransaction` call has exactly one
input per element of the inputs array, in the same order, each with the outpoint
`(txid, vout)` of that element and an empty `scriptSig`, and exactly one output per key of the
outputs object, in the order of the keys. -/
theorem createrawtransaction_order (E : Externals) (params : List UniValue) (fHelp : Bool)
    (rawTx : CMutableTransaction)
    (h : createrawtransaction_rawTx E params fHelp = .ok rawTx) :
    ∃ inputs sendTo, (paramAt params 0).get_array = .ok inputs ∧
      (paramAt params 1).get_obj = .ok sendTo ∧
      rawTx.vin.length = inputs.length ∧ rawTx.vout.length = (getKeys sendTo).length ∧
      List.Forall₂ (InputOf E rawTx.nLockTime) inputs rawTx.vin ∧
      List.Forall₂ (OutputOf E sendTo) (getKeys sendTo) rawTx.vout := by
  obtain ⟨inputs, sendTo, hin, hs, hall, hall'⟩ := createrawtransaction_rawTx_forall₂ h
  exact ⟨inputs, sendTo, hin, hs, hall.length_eq.symm, hall'.length_eq.symm, hall, hall'⟩

theorem createrawtransaction_order_witness :
    createrawtransaction_rawTx Externals.reference scenarioOrderParams false =
      .ok scenarioOrderTx ∧
    ∃ inputs sendTo, (paramAt scenarioOrderParams 0).get_array = .ok inputs ∧
      (paramAt scenarioOrderParams 1).get_obj = .ok sendTo ∧
      scenarioOrderTx.vin.length = inputs.length ∧
      scenarioOrderTx.vout.length = (getKeys sendTo).length ∧
      List.Forall₂ (InputOf Externals.reference scenarioOrderTx.nLockTime) inputs
        scenarioOrderTx.vin ∧
      List.Forall₂ (OutputOf Externals.reference sendTo) (getKeys sendTo)
        scenarioOrderTx.vout :=
  ⟨by rfl, createrawtransaction_order Externals.reference scenarioOrderParams false
    scenarioOrderTx (by rfl)⟩

theorem lookupKey_first (pre post : List (String × UniValue)) (k : String) (v : UniValue)
    (hpre : k ∉ getKeys pre) : lookupKey (pre ++ (k, v) :: post) k = v := by
  induction pre with
  | nil => simp [lookupKey]
  | cons kv pre ih =>
    obtain ⟨k', v'⟩ := kv
    simp only [getKeys, List.map_cons, List.mem_cons, not_or] at hpre
    simp only [List.cons_append, lookupKey]
    rw [if_neg (fun h => hpre.1 h.symm)]
    exact ih hpre.2

theorem lookupKey_append_of_mem (pre rest : List (String × UniValue)) (k : String)
    (hk : k ∈ getKeys pre) : lookupKey (pre ++ rest) k = lookupKey pre k := by
  induction pre with
  | nil => simp [getKeys] at hk
  | cons kv pre ih =>
    obtain ⟨k', v'⟩ := kv
    simp only [List.cons_append, lookupKey]
    by_cases h : k' = k
    · simp [h]
    · rw [if_neg h, if_neg h]
      apply ih
      simp only [getKeys, List.map_cons, List.mem_cons] at hk
      rcases hk with hk | hk
      · exact absurd hk.symm h
      · exact hk

/-- When the first entry of the outputs object with the key `data` has the value `d`, a
successful `createrawtransaction` call emits, at the position of every key `data`, an output
with value 0 whose script is `OP_RETURN` followed by a push of the bytes of `d`; in
particular such an output stands at the position of that first entry. -/
theorem createrawtransaction_data_output (E : Externals) (params : List UniValue)
    (fHelp : Bool) (rawTx : CMutableTransaction) (pre post : List (String × UniValue))
    (d : String)
    (h : createrawtransaction_rawTx E params fHelp = .ok rawTx)
    (hs : (paramAt params 1).get_obj = .ok (pre ++ ("data", VSTR d) :: post))
    (hfirst : "data" ∉ getKeys pre) :
    ∃ data, E.ParseHexV (VSTR d) "Data" = .ok data ∧
      rawTx.vout[pre.length]? =
        some (opReturnOutput E data) ∧
      ∀ j : Nat, (getKeys (pre ++ ("data", VSTR d) :: post))[j]? = some "data" →
        rawTx.vout[j]? =
          some (opReturnOutput E data) := by
  obtain ⟨inputs, sendTo, hin, hs', -, hall⟩ := createrawtransaction_rawTx_forall₂ h
  rw [hs] at hs'
  cases hs'
  have key : ∀ j : Nat, (getKeys (pre ++ ("data", VSTR d) :: post))[j]? = some "data" →
      ∃ data, E.ParseHexV (VSTR d) "Data" = .ok data ∧ rawTx.vout[j]? =
        some (opReturnOutput E data) := by
    intro j hj
    have hlen := hall.length_eq
    obtain ⟨hj1, hj2⟩ := List.getElem?_eq_some.1 hj
    have := (List.forall₂_iff_get.1 hall).2 j hj1 (by omega)
    simp only [List.get_eq_getElem] at this hj2
    rw [hj2] at this
    unfold OutputOf at this
    rw [if_pos rfl, lookupKey_first pre post "data" (VSTR d) hfirst] at this
    obtain ⟨data, hdata, hout⟩ := this
    refine ⟨data, hdata, ?_⟩
    have hlt : j < rawTx.vout.length := by omega
    rw [List.getElem?_eq_getElem hlt, hout]
    rfl
  have h0 : (getKeys (pre ++ ("data", VSTR d) :: post))[pre.length]? = some "data" := by
    simp only [getKeys, List.map_append, List.map_cons]
    rw [List.getElem?_append_right (by simp)]
    simp
  obtain ⟨data, hdata, hout⟩ := key _ h0
  refine ⟨data, hdata, hout, ?_⟩
  intro j hj
  obtain ⟨data', hdata', hout'⟩ := key j hj
  rw [hdata] at hdata'
  cases hdata'
  exact hout'

theorem createrawtransaction_data_output_example :
    createrawtransaction_rawTx Externals.reference scenarioDataParams false =
      .ok scenarioDataTx ∧
    ∃ data, Externals.reference.ParseHexV (VSTR "00010203") "Data" = .ok data ∧
      scenarioDataTx.vout[([] : List (String × UniValue)).length]? =
        some (opReturnOutput Externals.reference data) ∧
      ∀ j : Nat, (getKeys ([] ++ ("data", VSTR "00010203") :: []))[j]? = some "data" →
        scenarioDataTx.vout[j]? =
          some (opReturnOutput Externals.reference data) :=
  ⟨by rfl, createrawtransaction_data_output Externals.reference scenarioDataParams false
    scenarioDataTx [] [] "00010203" (by rfl) (by rfl) (by simp [getKeys])⟩

/-- C4 does not hold of the code: line 397 reads the payload by key, `sendTo[name_]`, which
finds the first entry with that key, where the loop of line 394 walks the entries one by
one.  In the outputs object `data: 00, data: 01` the entry with value `01` has hex payload
`01`, the call succeeds, and no output of the created transaction has the script `OP_RETURN`
followed by a push of the byte 01; both outputs carry the byte 00.  An address given twice is
refused by lines 406-407; for the key `data` there is no such test. -/
theorem createrawtransaction_repeated_data_key :
    createrawtransaction_rawTx Externals.reference
        [VARR [], VOBJ [("data", VSTR "00"), ("data", VSTR "01")]] false =
      .ok { nVersion := 1, vin := [],
            vout := [{ nValue := 0, scriptPubKey := [0x6a, 1, 0] },
                     { nValue := 0, scriptPubKey := [0x6a, 1, 0] }],
            nLockTime := 0 } ∧
    Externals.reference.ParseHexV (VSTR "01") "Data" = .ok [1] ∧
    (opReturnOutput Externals.reference [1]).scriptPubKey = [0x6a, 1, 1] ∧
    ∀ out ∈ [({ nValue := 0, scriptPubKey := [0x6a, 1, 0] } : CTxOut),
             { nValue := 0, scriptPubKey := [0x6a, 1, 0] }],
      out.scriptPubKey ≠ [0x6a, 1, 1] := by
  refine ⟨by rfl, by rfl, by rfl, by decide⟩

theorem createrawtransaction_output_congr (E : Externals) (s1 s2 : List (String × UniValue))
    (st : List CBitcoinAddress × List CTxOut) (name_ : String)
    (h : lookupKey s1 name_ = lookupKey s2 name_) :
    createrawtransaction_output E s1 st name_ = createrawtransaction_output E s2 st name_ := by
  unfold createrawtransaction_output
  rw [h]

theorem createrawtransaction_vout_congr (E : Externals) (s1 s2 : List (String × UniValue)) :
    ∀ (keys : List String) (st : List CBitcoinAddress × List CTxOut),
      (∀ k ∈ keys, lookupKey s1 k = lookupKey s2 k) →
      createrawtransaction_vout E s1 keys st = createrawtransaction_vout E s2 keys st := by
  intro keys
  induction keys with
  | nil => intro st _; rfl
  | cons k rest ih =>
    intro st h
    simp only [createrawtransaction_vout]
    rw [createrawtransaction_output_congr E s1 s2 st k (h k (List.mem_cons_self _ _))]
    split
    · rfl
    · exact ih _ (fun k' hk' => h k' (List.mem_cons_of_mem _ hk'))

theorem createrawtransaction_vout_append (E : Externals) (sendTo : List (String × UniValue)) :
    ∀ (keys1 keys2 : List String) (st : List CBitcoinAddress × List CTxOut),
      createrawtransaction_vout E sendTo (keys1 ++ keys2) st =
        match createrawtransaction_vout E sendTo keys1 st with
        | .error e => .error e
        | .ok st' => createrawtransaction_vout E sendTo keys2 st' := by
  intro keys1
  induction keys1 with
  | nil => intro keys2 st; rfl
  | cons k rest ih =>
    intro keys2 st
    simp only [List.cons_append, createrawtransaction_vout]
    split
    · rfl
    · exact ih _ _

theorem createrawtransaction_vout_dup (E : Externals) (sendTo : List (String × UniValue))
    (keys1 keys2 : List String) (k : String) (hk : k ≠ "data")
    (hvalid : E.IsValid (E.decodeAddress k) = true)
    (hdup : ∃ k' ∈ keys1, k' ≠ "data" ∧ E.decodeAddress k' = E.decodeAddress k) :
    (∃ e, createrawtransaction_vout E sendTo keys1 ([], []) = .error e ∧
       createrawtransaction_vout E sendTo (keys1 ++ k :: keys2) ([], []) = .error e) ∨
    (∃ st, createrawtransaction_vout E sendTo keys1 ([], []) = .ok st ∧
       createrawtransaction_vout E sendTo (keys1 ++ k :: keys2) ([], []) =
         .error (duplicatedAddress k)) := by
  rw [createrawtransaction_vout_append]
  cases h1 : createrawtransaction_vout E sendTo keys1 ([], []) with
  | error e => exact Or.inl ⟨e, rfl, rfl⟩
  | ok st =>
    refine Or.inr ⟨st, rfl, ?_⟩
    obtain ⟨_, -, -, hset, -, -⟩ := createrawtransaction_vout_ok _ _ _ h1
    obtain ⟨k', hk'mem, hk'ne, hk'eq⟩ := hdup
    have hmem : E.decodeAddress k ∈ st.1 := by
      rw [hset]
      simp only [List.append_nil, List.mem_reverse, addressKeys, List.mem_map, List.mem_filter]
      exact ⟨k', ⟨hk'mem, by simpa using hk'ne⟩, hk'eq⟩
    simp only [createrawtransaction_vout, createrawtransaction_output, if_neg hk, hvalid,
      Bool.not_true, Bool.false_eq_true, if_false, if_pos hmem, duplicatedAddress]

theorem createrawtransaction_vout_total (E : Externals) (sendTo : List (String × UniValue)) :
    ∀ (keys : List String) (st : List CBitcoinAddress × List CTxOut),
      (∀ k ∈ keys, ∃ txout, OutputOf E sendTo k txout) →
      (addressKeys E keys).Nodup → (∀ a ∈ addressKeys E keys, a ∉ st.1) →
      ∃ st', createrawtransaction_vout E sendTo keys st = .ok st' := by
  intro keys
  induction keys with
  | nil => intro st _ _ _; exact ⟨st, rfl⟩
  | cons k rest ih =>
    intro st hall hnd hfresh
    obtain ⟨txout, hout⟩ := hall k (List.mem_cons_self _ _)
    have hall' : ∀ k' ∈ rest, ∃ txout, OutputOf E sendTo k' txout :=
      fun k' hk' => hall k' (List.mem_cons_of_mem _ hk')
    unfold OutputOf at hout
    by_cases hd : k = "data"
    · rw [if_pos hd] at hout
      obtain ⟨data, hdata, -⟩ := hout
      have hak : addressKeys E (k :: rest) = addressKeys E rest := by simp [addressKeys, hd]
      rw [hak] at hnd hfresh
      obtain ⟨st', hst'⟩ := ih (st.1, st.2 ++ [opReturnOutput E data]) hall' hnd hfresh
      refine ⟨st', ?_⟩
      simp only [createrawtransaction_vout, createrawtransaction_output, if_pos hd]
      rw [hdata]
      exact hst'
    · rw [if_neg hd] at hout
      obtain ⟨hvalid, nAmount, hamt, -⟩ := hout
      have hak : addressKeys E (k :: rest) = E.decodeAddress k :: addressKeys E rest := by
        simp [addressKeys, hd]
      rw [hak] at hnd hfresh
      have hnot : E.decodeAddress k ∉ st.1 := hfresh _ (List.mem_cons_self _ _)
      obtain ⟨st', hst'⟩ := ih (E.decodeAddress k :: st.1,
          st.2 ++ [{ nValue := nAmount,
                     scriptPubKey := E.GetScriptForDestination (E.decodeAddress k) }])
        hall' (List.nodup_cons.1 hnd).2 (by
          intro a ha hmem
          rcases List.mem_cons.1 hmem with h | h
          · subst h; exact (List.nodup_cons.1 hnd).1 ha
          · exact hfresh a (List.mem_cons_of_mem _ ha) h)
      refine ⟨st', ?_⟩
      simp only [createrawtransaction_vout, createrawtransaction_output, if_neg hd, hvalid,
        Bool.not_true, Bool.false_eq_true, if_false, if_neg hnot, hamt]
      exact hst'

theorem isNull_of_get_array {v : UniValue} {xs : List UniValue} (h : v.get_array = .ok xs) :
    v.isNull = false := by
  cases v <;> first | rfl | simp [get_array] at h

theorem isNull_of_get_obj {v : UniValue} {kvs : List (String × UniValue)}
    (h : v.get_obj = .ok kvs) : v.isNull = false := by
  cases v <;> first | rfl | simp [get_obj] at h

theorem createrawtransaction_rawTx_stages (E : Externals) (params : List UniValue)
    (inputs : List UniValue) (sendTo : List (String × UniValue)) (nLockTime : Nat)
    (vin : List CTxIn) (hlen : 2 ≤ params.length ∧ params.length ≤ 3)
    (hT : E.RPCTypeCheck params [.VARR, .VOBJ, .VNUM] true = .ok ())
    (h0 : (paramAt params 0).get_array = .ok inputs)
    (h1 : (paramAt params 1).get_obj = .ok sendTo)
    (hl : createrawtransaction_locktime params = .ok nLockTime)
    (hv : createrawtransaction_vin E nLockTime inputs [] = .ok vin) :
    createrawtransaction_rawTx E params false =
      match createrawtransaction_vout E sendTo (getKeys sendTo) ([], []) with
      | .error e => .error e
      | .ok st => .ok { CMutableTransaction.new with
                        nLockTime := nLockTime, vin := vin, vout := st.2 } := by
  unfold createrawtransaction_rawTx
  have hc : ¬ ((false : Bool) = true ∨ params.length < 2 ∨ params.length > 3) := by
    simp only [Bool.false_eq_true, false_or, not_or, not_lt]; omega
  rw [if_neg hc, hT]
  simp only [isNull_of_get_array h0, isNull_of_get_obj h1, Bool.false_eq_true, or_self,
    if_false, h0, h1, hl, hv]

theorem createrawtransaction_locktime_congr (p0 p1 p1' : UniValue) (rest : List UniValue) :
    createrawtransaction_locktime (p0 :: p1 :: rest) =
      createrawtransaction_locktime (p0 :: p1' :: rest) := by
  simp [createrawtransaction_locktime, paramAt]

/-- C3 (amended): when a key of the outputs object denotes the same valid address as an
earlier key, `createrawtransaction` returns no transaction, and it fails with
`RPC_INVALID_PARAMETER` (duplicated address) provided the type check passes and the call
with the outputs object cut off before that key succeeds, that is, unless an earlier check
fails with its own error; an outputs object whose address keys denote pairwise distinct
addresses and whose keys each pass their own checks is not rejected. -/
theorem createrawtransaction_duplicate_address (E : Externals) (p0 : UniValue)
    (rest : List UniValue) :
    (∀ pre k v post, k ≠ "data" → E.IsValid (E.decodeAddress k) = true →
      (∃ k' ∈ getKeys pre, k' ≠ "data" ∧ E.decodeAddress k' = E.decodeAddress k) →
      (∀ fHelp r,
        createrawtransaction E (p0 :: VOBJ (pre ++ (k, v) :: post) :: rest) fHelp ≠ .ok r) ∧
      (E.RPCTypeCheck (p0 :: VOBJ (pre ++ (k, v) :: post) :: rest) [.VARR, .VOBJ, .VNUM] true
          = .ok () →
        (∃ r, createrawtransaction E (p0 :: VOBJ pre :: rest) false = .ok r) →
        createrawtransaction E (p0 :: VOBJ (pre ++ (k, v) :: post) :: rest) false =
          .error (.JSONRPCError .RPC_INVALID_PARAMETER
            ("Invalid parameter, duplicated address: " ++ k)))) ∧
    (∀ sendTo,
      E.RPCTypeCheck (p0 :: VOBJ sendTo :: rest) [.VARR, .VOBJ, .VNUM] true = .ok () →
      (∃ r, createrawtransaction E (p0 :: VOBJ [] :: rest) false = .ok r) →
      (∀ k ∈ getKeys sendTo, ∃ txout, OutputOf E sendTo k txout) →
      (addressKeys E (getKeys sendTo)).Nodup →
      ∃ r, createrawtransaction E (p0 :: VOBJ sendTo :: rest) false = .ok r) := by
  refine ⟨?_, ?_⟩
  · intro pre k v post hk hvalid hdup
    have hkeys : getKeys (pre ++ (k, v) :: post) = getKeys pre ++ k :: getKeys post := by
      simp [getKeys]
    refine ⟨?_, ?_⟩
    · intro fHelp r hr
      unfold createrawtransaction at hr
      split at hr
      · cases hr
      · rename_i rawTx hraw
        obtain ⟨inputs, sendTo, st, -, -, -, -, -, hs, -, -, hst, -, -⟩ :=
          createrawtransaction_rawTx_ok hraw
        simp only [paramAt, List.getD_cons_succ, List.getD_cons_zero, get_obj,
          Except.ok.injEq] at hs
        subst hs
        rw [hkeys] at hst
        rcases createrawtransaction_vout_dup E (pre ++ (k, v) :: post) (getKeys pre)
          (getKeys post) k hk hvalid hdup with ⟨e, -, he⟩ | ⟨_, -, he⟩
        · rw [he] at hst; cases hst
        · rw [he] at hst; cases hst
    · rintro hT ⟨r, hr⟩
      unfold createrawtransaction at hr
      split at hr
      · cases hr
      · rename_i rawTx hraw
        obtain ⟨inputs, sendTo, st, -, hlen1, hlen2, -, hin, hs, hl, hv, hst, -, -⟩ :=
          createrawtransaction_rawTx_ok hraw
        simp only [paramAt, List.getD_cons_succ, List.getD_cons_zero, get_obj,
          Except.ok.injEq] at hs
        subst hs
        have hstages := createrawtransaction_rawTx_stages E
          (p0 :: VOBJ (pre ++ (k, v) :: post) :: rest) inputs (pre ++ (k, v) :: post)
          rawTx.nLockTime rawTx.vin (by simp only [List.length_cons] at hlen1 hlen2 ⊢; exact ⟨hlen1, hlen2⟩) hT hin rfl
          (by rw [createrawtransaction_locktime_congr p0 _ (VOBJ pre)]; exact hl) hv
        have hpre : createrawtransaction_vout E (pre ++ (k, v) :: post) (getKeys pre) ([], [])
            = .ok st := by
          rw [createrawtransaction_vout_congr E (pre ++ (k, v) :: post) pre (getKeys pre) _
            (fun k' hk' => lookupKey_append_of_mem pre _ k' hk')]
          exact hst
        rcases createrawtransaction_vout_dup E (pre ++ (k, v) :: post) (getKeys pre)
          (getKeys post) k hk hvalid hdup with ⟨e, he1, -⟩ | ⟨_, -, he⟩
        · rw [hpre] at he1; cases he1
        · rw [hkeys, he] at hstages
          unfold createrawtransaction
          rw [hstages]
          rfl
  · rintro sendTo hT ⟨r, hr⟩ hall hnd
    unfold createrawtransaction at hr
    split at hr
    · cases hr
    · rename_i rawTx hraw
      obtain ⟨inputs, s0, st, -, hlen1, hlen2, -, hin, hs, hl, hv, -, -, -⟩ :=
        createrawtransaction_rawTx_ok hraw
      have hstages := createrawtransaction_rawTx_stages E
        (p0 :: VOBJ sendTo :: rest) inputs sendTo
        rawTx.nLockTime rawTx.vin (by simp only [List.length_cons] at hlen1 hlen2 ⊢; exact ⟨hlen1, hlen2⟩) hT hin rfl
        (by rw [createrawtransaction_locktime_congr p0 _ (VOBJ [])]; exact hl) hv
      obtain ⟨st', hst'⟩ := createrawtransaction_vout_total E sendTo (getKeys sendTo) ([], [])
        hall hnd (fun _ _ => by simp)
      rw [hst'] at hstages
      unfold createrawtransaction
      rw [hstages]
      exact ⟨_, rfl⟩

theorem createrawtransaction_duplicate_address_witness :
    createrawtransaction Externals.reference
        [VARR [], VOBJ ([("1A", VNUM 1)] ++ ("1A", VNUM 2) :: [("1B", VNUM 3)])] false =
      .error (.JSONRPCError .RPC_INVALID_PARAMETER
        ("Invalid parameter, duplicated address: " ++ "1A")) ∧
    createrawtransaction Externals.reference
        [VARR [], VOBJ ([("1A", VNUM 1)] ++ (" 1A", VNUM 2) :: [])] false =
      .error (.JSONRPCError .RPC_INVALID_PARAMETER
        ("Invalid parameter, duplicated address: " ++ " 1A")) ∧
    ∃ r, createrawtransaction Externals.reference
        [VARR [], VOBJ [("1A", VNUM 1), ("data", VSTR "00"), ("1B", VNUM 3)]] false = .ok r :=
  ⟨((createrawtransaction_duplicate_address Externals.reference (VARR []) []).1
      [("1A", VNUM 1)] "1A" (VNUM 2) [("1B", VNUM 3)] (by decide) (by rfl)
      ⟨"1A", by simp [getKeys], by decide, rfl⟩).2 (by rfl) ⟨_, by rfl⟩,
   ((createrawtransaction_duplicate_address Externals.reference (VARR []) []).1
      [("1A", VNUM 1)] " 1A" (VNUM 2) [] (by decide) (by rfl)
      ⟨"1A", by simp [getKeys], by decide, by rfl⟩).2 (by rfl) ⟨_, by rfl⟩,
   (createrawtransaction_duplicate_address Externals.reference (VARR []) []).2
      [("1A", VNUM 1), ("data", VSTR "00"), ("1B", VNUM 3)] (by rfl) ⟨_, by rfl⟩
      (by
        intro k hk
        simp only [getKeys, List.map_cons, List.map_nil, List.mem_cons, List.mem_singleton,
          List.not_mem_nil, or_false] at hk
        rcases hk with rfl | rfl | rfl
        · exact ⟨_, by unfold OutputOf; rw [if_neg (by decide)]; exact ⟨rfl, _, rfl, rfl⟩⟩
        · exact ⟨_, by unfold OutputOf; rw [if_pos rfl]; exact ⟨_, rfl, rfl⟩⟩
        · exact ⟨_, by unfold OutputOf; rw [if_neg (by decide)]; exact ⟨rfl, _, rfl, rfl⟩⟩)
      (by decide)⟩

/-- C3 (as stated) fails: the keys `1A` and `1A` denote the same valid address, yet the call
fails with `RPC_INVALID_ADDRESS_OR_KEY`, raised for the earlier key `bogus`, and not with
`RPC_INVALID_PARAMETER`. -/
theorem createrawtransaction_duplicate_address_counterexample :
    Externals.reference.IsValid (Externals.reference.decodeAddress "1A") = true ∧
    Externals.reference.IsValid (Externals.reference.decodeAddress "bogus") = false ∧
    createrawtransaction Externals.reference
        [VARR [], VOBJ [("bogus", VNUM 1), ("1A", VNUM 1), ("1A", VNUM 1)]] false =
      .error (.JSONRPCError .RPC_INVALID_ADDRESS_OR_KEY "Invalid Bitcoin address: bogus") := by
  refine ⟨by rfl, by rfl, by rfl⟩

/-! ## signrawtransaction: auxiliary lemmas -/

theorem OnlyInput.refl (i : Nat) (tx : CMutableTransaction) : OnlyInput i tx tx :=
  ⟨rfl, rfl, rfl, rfl, fun _ _ => rfl⟩

theorem OnlyInput.trans {i : Nat} {tx1 tx2 tx3 : CMutableTransaction}
    (h12 : OnlyInput i tx1 tx2) (h23 : OnlyInput i tx2 tx3) : OnlyInput i tx1 tx3 :=
  ⟨h23.1.trans h12.1, h23.2.1.trans h12.2.1, h23.2.2.1.trans h12.2.2.1,
    h23.2.2.2.1.trans h12.2.2.2.1, fun j hj => (h23.2.2.2.2 j hj).trans (h12.2.2.2.2 j hj)⟩

theorem setScriptSig_onlyInput (tx : CMutableTransaction) (i : Nat) (s : CScript) :
    OnlyInput i tx (setScriptSig tx i s) := by
  unfold setScriptSig
  split
  · exact OnlyInput.refl i tx
  · refine ⟨rfl, by simp, rfl, rfl, fun j hj => ?_⟩
    simp only [List.getElem?_set]
    rw [if_neg (fun h => hj h.symm)]

theorem setScriptSig_get (tx : CMutableTransaction) (i : Nat) (s : CScript) (txin : CTxIn)
    (h : tx.vin[i]? = some txin) :
    (setScriptSig tx i s).vin[i]? = some { txin with scriptSig := s } := by
  have hlt : i < tx.vin.length := (List.getElem?_eq_some.1 h).1
  unfold setScriptSig
  rw [List.get?_eq_getElem?, h]
  simp [List.getElem?_set, hlt]

theorem signrawtransaction_merge_ok (E : Externals) (prevPubKey : CScript) (i : Nat) :
    ∀ (txVariants : List CMutableTransaction) (tx m : CMutableTransaction),
      signrawtransaction_merge E prevPubKey i txVariants tx = some m → OnlyInput i tx m := by
  intro txVariants
  induction txVariants with
  | nil =>
    intro tx m h
    simp only [signrawtransaction_merge, Option.some.injEq] at h
    subst h
    exact OnlyInput.refl i tx
  | cons txv rest ih =>
    intro tx m h
    simp only [signrawtransaction_merge] at h
    split at h
    · exact (setScriptSig_onlyInput tx i _).trans (ih _ _ h)
    · cases h

theorem signrawtransaction_merge_total (E : Externals) (prevPubKey : CScript) (i : Nat) :
    ∀ (txVariants : List CMutableTransaction) (tx : CMutableTransaction),
      i < tx.vin.length → (∀ txv ∈ txVariants, i < txv.vin.length) →
      ∃ m, signrawtransaction_merge E prevPubKey i txVariants tx = some m := by
  intro txVariants
  induction txVariants with
  | nil => intro tx _ _; exact ⟨tx, rfl⟩
  | cons txv rest ih =>
    intro tx hi hall
    have h1 : i < txv.vin.length := hall txv (List.mem_cons_self _ _)
    simp only [signrawtransaction_merge, List.get?_eq_getElem?, List.getElem?_eq_getElem hi,
      List.getElem?_eq_getElem h1]
    apply ih
    · rw [(setScriptSig_onlyInput tx i _).2.1]; exact hi
    · exact fun txv' h' => hall txv' (List.mem_cons_of_mem _ h')

theorem signrawtransaction_sign_onlyInput (E : Externals) (keystore : CKeyStore)
    (prevPubKey : CScript) (nHashType : Nat) (tx : CMutableTransaction) (i : Nat) :
    OnlyInput i tx (signrawtransaction_sign E keystore prevPubKey nHashType tx i) := by
  unfold signrawtransaction_sign
  simp only
  split
  · exact (setScriptSig_onlyInput tx i []).trans (setScriptSig_onlyInput _ i _)
  · exact setScriptSig_onlyInput tx i []

theorem signrawtransaction_input_ok (E : Externals) (view : CCoinsMap) (keystore : CKeyStore)
    (txVariants : List CMutableTransaction) (nHashType : Nat)
    (st st' : CMutableTransaction × List UniValue) (i : Nat)
    (h : signrawtransaction_input E view keystore txVariants nHashType st i = some st') :
    OnlyInput i st.1 st'.1 ∧ ∃ added, st'.2 = st.2 ++ added := by
  unfold signrawtransaction_input at h
  split at h
  · cases h
  · split at h
    · cases h; exact ⟨OnlyInput.refl _ _, _, rfl⟩
    · split at h
      · cases h; exact ⟨OnlyInput.refl _ _, _, rfl⟩
      · simp only at h
        split at h
        · cases h
        · rename_i m hm
          have hO := (signrawtransaction_sign_onlyInput E keystore _ nHashType st.1 i).trans
            (signrawtransaction_merge_ok E _ i _ _ _ hm)
          split at h
          · cases h
          · split at h
            · cases h; exact ⟨hO, _, rfl⟩
            · cases h; exact ⟨hO, [], by simp⟩

theorem signrawtransaction_loop_append (E : Externals) (view : CCoinsMap)
    (keystore : CKeyStore) (txVariants : List CMutableTransaction) (nHashType : Nat) :
    ∀ (is1 is2 : List Nat) (st : CMutableTransaction × List UniValue),
      signrawtransaction_loop E view keystore txVariants nHashType (is1 ++ is2) st =
        match signrawtransaction_loop E view keystore txVariants nHashType is1 st with
        | none => none
        | some st' => signrawtransaction_loop E view keystore txVariants nHashType is2 st' := by
  intro is1
  induction is1 with
  | nil => intro is2 st; rfl
  | cons i rest ih =>
    intro is2 st
    simp only [List.cons_append, signrawtransaction_loop]
    split
    · rfl
    · exact ih _ _

theorem signrawtransaction_loop_ok (E : Externals) (view : CCoinsMap)
    (keystore : CKeyStore) (txVariants : List CMutableTransaction) (nHashType : Nat) :
    ∀ (is : List Nat) (st st' : CMutableTransaction × List UniValue),
      signrawtransaction_loop E view keystore txVariants nHashType is st = some st' →
      st'.1.vout = st.1.vout ∧ st'.1.vin.length = st.1.vin.length ∧
        (∀ j, j ∉ is → st'.1.vin[j]? = st.1.vin[j]?) ∧ ∃ added, st'.2 = st.2 ++ added := by
  intro is
  induction is with
  | nil =>
    intro st st' h
    simp only [signrawtransaction_loop, Option.some.injEq] at h
    subst h
    exact ⟨rfl, rfl, fun _ _ => rfl, [], by simp⟩
  | cons i rest ih =>
    intro st st' h
    simp only [signrawtransaction_loop] at h
    split at h
    · cases h
    · rename_i st1 h1
      obtain ⟨hO, a1, ha1⟩ := signrawtransaction_input_ok E view keystore txVariants nHashType
        st st1 i h1
      obtain ⟨hv, hl, hj, a2, ha2⟩ := ih _ _ h
      refine ⟨hv.trans hO.1, hl.trans hO.2.1, ?_, a1 ++ a2, ?_⟩
      · intro j hjn
        simp only [List.mem_cons, not_or] at hjn
        rw [hj j hjn.2, hO.2.2.2.2 j hjn.1]
      · rw [ha2, ha1, List.append_assoc]

theorem signrawtransaction_input_total (E : Externals) (view : CCoinsMap)
    (keystore : CKeyStore) (txVariants : List CMutableTransaction) (nHashType : Nat)
    (st : CMutableTransaction × List UniValue) (i : Nat) (hi : i < st.1.vin.length)
    (hall : ∀ txv ∈ txVariants, i < txv.vin.length) :
    ∃ st', signrawtransaction_input E view keystore txVariants nHashType st i = some st' := by
  unfold signrawtransaction_input
  rw [List.get?_eq_getElem?, List.getElem?_eq_getElem hi]
  simp only
  split
  · exact ⟨_, rfl⟩
  · rename_i coins _
    split
    · exact ⟨_, rfl⟩
    · obtain ⟨m, hm⟩ := signrawtransaction_merge_total E
        (coins.vout.getD st.1.vin[i].prevout.n CTxOut.null).scriptPubKey i txVariants
        (signrawtransaction_sign E keystore
          (coins.vout.getD st.1.vin[i].prevout.n CTxOut.null).scriptPubKey nHashType st.1 i)
        (by rw [(signrawtransaction_sign_onlyInput E keystore _ nHashType st.1 i).2.1]; exact hi)
        hall
      rw [hm]
      simp only
      have hO := (signrawtransaction_sign_onlyInput E keystore _ nHashType st.1 i).trans
        (signrawtransaction_merge_ok E _ i _ _ _ hm)
      have hi' : i < m.vin.length := by rw [hO.2.1]; exact hi
      rw [List.get?_eq_getElem?, List.getElem?_eq_getElem hi']
      simp only
      split
      · exact ⟨_, rfl⟩
      · exact ⟨_, rfl⟩

theorem signrawtransaction_loop_total (E : Externals) (view : CCoinsMap)
    (keystore : CKeyStore) (txVariants : List CMutableTransaction) (nHashType : Nat) :
    ∀ (is : List Nat) (st : CMutableTransaction × List UniValue),
      (∀ i ∈ is, i < st.1.vin.length) →
      (∀ txv ∈ txVariants, st.1.vin.length ≤ txv.vin.length) →
      ∃ st', signrawtransaction_loop E view keystore txVariants nHashType is st = some st' := by
  intro is
  induction is with
  | nil => intro st _ _; exact ⟨st, rfl⟩
  | cons i rest ih =>
    intro st his hall
    have hi : i < st.1.vin.length := his i (List.mem_cons_self _ _)
    obtain ⟨st1, h1⟩ := signrawtransaction_input_total E view keystore txVariants nHashType
      st i hi (fun txv h => lt_of_lt_of_le hi (hall txv h))
    have hlen := (signrawtransaction_input_ok E view keystore txVariants nHashType st st1 i
      h1).1.2.1
    simp only [signrawtransaction_loop, h1]
    apply ih
    · intro j hj; rw [hlen]; exact his j (List.mem_cons_of_mem _ hj)
    · intro txv h; rw [hlen]; exact hall txv h

/-- The bound on the number of rounds in `signrawtransaction_txVariants` is immaterial once
it reaches the length of the stream: the equation for an exhausted bound is not reached. -/
theorem signrawtransaction_txVariants_fuel (E : Externals) :
    ∀ (fuel1 fuel2 : Nat) (bytes : List Nat) (txVariants : List CMutableTransaction),
      bytes.length ≤ fuel1 → bytes.length ≤ fuel2 →
      signrawtransaction_txVariants E fuel1 bytes txVariants =
        signrawtransaction_txVariants E fuel2 bytes txVariants := by
  intro fuel1
  induction fuel1 with
  | zero =>
    intro fuel2 bytes txVariants h1 _
    have : bytes = [] := List.length_eq_zero.1 (Nat.le_zero.1 h1)
    subst this
    cases fuel2 <;> rfl
  | succ f1 ih =>
    intro fuel2 bytes txVariants h1 h2
    cases bytes with
    | nil => cases fuel2 <;> rfl
    | cons b bs =>
      cases fuel2 with
      | zero => simp at h2
      | succ f2 =>
        simp only [signrawtransaction_txVariants]
        split
        · rfl
        · rename_i tx k _
          have hlen : (bs.drop k).length ≤ bs.length := by
            rw [List.length_drop]; omega
          simp only [List.length_cons] at h1 h2
          exact ih f2 _ _ (by omega) (by omega)

theorem signrawtransaction_decode_ok {E : Externals} {viewMempool : uint256 → Option CCoins}
    {pwalletMain : Option CWallet} {params : List UniValue} {fHelp : Bool} {a : SignArgs}
    (h : signrawtransaction_decode E viewMempool pwalletMain params fHelp = .ok a) :
    (∃ txs, a.txVariants = a.mergedTx :: txs) ∧
    signrawtransaction_hashType params = .ok a.nHashType ∧
    ∃ fGivenKeys tempKeystore tempKeystore',
      signrawtransaction_keys E pwalletMain params = .ok (fGivenKeys, tempKeystore) ∧
      signrawtransaction_prevTxs E fGivenKeys params
        (signrawtransaction_view viewMempool a.mergedTx.vin, tempKeystore) =
          .ok (a.view, tempKeystore') := by
  unfold signrawtransaction_decode at h
  split at h
  · cases h
  · split at h
    · cases h
    · split at h
      · cases h
      · split at h
        · cases h
        · cases h
        · rename_i tx0 txs hvar
          simp only at h
          split at h
          · cases h
          · rename_i fGivenKeys tempKeystore hkeys
            split at h
            · cases h
            · rename_i view' tempKeystore' hprev
              split at h
              · cases h
              · rename_i nHashType hhash
                cases h
                exact ⟨⟨txs, rfl⟩, hhash, fGivenKeys, tempKeystore, tempKeystore', hkeys, hprev⟩

/-- C9: `signrawtransaction` maps the sighash argument `ALL` to 0x01, `NONE` to 0x02,
`SINGLE` to 0x03, `ALL|ANYONECANPAY` to 0x81, `NONE|ANYONECANPAY` to 0x82 and
`SINGLE|ANYONECANPAY` to 0x83; an omitted or null argument gives 0x01; every other string
fails with `RPC_INVALID_PARAMETER`.  The hash type of a call that gets past argument decoding
is the one so determined, and a call whose sighash argument is rejected returns no result. -/
theorem signrawtransaction_sighash (p0 p1 p2 : UniValue) :
    signrawtransaction_hashType [p0, p1, p2, VSTR "ALL"] = .ok 0x01 ∧
    signrawtransaction_hashType [p0, p1, p2, VSTR "NONE"] = .ok 0x02 ∧
    signrawtransaction_hashType [p0, p1, p2, VSTR "SINGLE"] = .ok 0x03 ∧
    signrawtransaction_hashType [p0, p1, p2, VSTR "ALL|ANYONECANPAY"] = .ok 0x81 ∧
    signrawtransaction_hashType [p0, p1, p2, VSTR "NONE|ANYONECANPAY"] = .ok 0x82 ∧
    signrawtransaction_hashType [p0, p1, p2, VSTR "SINGLE|ANYONECANPAY"] = .ok 0x83 ∧
    signrawtransaction_hashType [p0, p1, p2, VNULL] = .ok 0x01 ∧
    signrawtransaction_hashType [p0, p1, p2] = .ok 0x01 ∧
    signrawtransaction_hashType [p0, p1] = .ok 0x01 ∧
    signrawtransaction_hashType [p0] = .ok 0x01 ∧
    (∀ s : String,
      s ∉ ["ALL", "NONE", "SINGLE", "ALL|ANYONECANPAY", "NONE|ANYONECANPAY",
           "SINGLE|ANYONECANPAY"] →
      signrawtransaction_hashType [p0, p1, p2, VSTR s] =
        .error (.JSONRPCError .RPC_INVALID_PARAMETER "Invalid sighash param")) ∧
    (∀ E viewMempool pwalletMain params fHelp a,
      signrawtransaction_decode E viewMempool pwalletMain params fHelp = .ok a →
      signrawtransaction_hashType params = .ok a.nHashType) ∧
    (∀ E viewMempool pwalletMain params fHelp e,
      signrawtransaction_hashType params = .error e →
      ∃ e', signrawtransaction E viewMempool pwalletMain params fHelp = .error e') := by
  refine ⟨by rfl, by rfl, by rfl, by rfl, by rfl, by rfl, by rfl, by rfl, by rfl, by rfl,
    ?_, ?_, ?_⟩
  · intro s hs
    simp only [List.mem_cons, List.mem_singleton, List.not_mem_nil, or_false, not_or] at hs
    obtain ⟨h1, h2, h3, h4, h5, h6⟩ := hs
    have e1 : (s == "ALL") = false := beq_false_of_ne h1
    have e2 : (s == "NONE") = false := beq_false_of_ne h2
    have e3 : (s == "SINGLE") = false := beq_false_of_ne h3
    have e4 : (s == "ALL|ANYONECANPAY") = false := beq_false_of_ne h4
    have e5 : (s == "NONE|ANYONECANPAY") = false := beq_false_of_ne h5
    have e6 : (s == "SINGLE|ANYONECANPAY") = false := beq_false_of_ne h6
    simp only [signrawtransaction_hashType, paramAt, List.length_cons, List.length_nil,
      List.getD_cons_succ, List.getD_cons_zero, isNull, get_str, mapSigHashValues,
      List.lookup, e1, e2, e3, e4, e5, e6]
    simp
  · intro E viewMempool pwalletMain params fHelp a h
    exact (signrawtransaction_decode_ok h).2.1
  · intro E viewMempool pwalletMain params fHelp e he
    unfold signrawtransaction
    cases hd : signrawtransaction_decode E viewMempool pwalletMain params fHelp with
    | error e' => exact ⟨e', rfl⟩
    | ok a =>
      have := (signrawtransaction_decode_ok hd).2.1
      rw [he] at this
      cases this

theorem signrawtransaction_sighash_witness :
    signrawtransaction_hashType [VSTR "00", VNULL, VNULL, VSTR "all"] =
      .error (.JSONRPCError .RPC_INVALID_PARAMETER "Invalid sighash param") ∧
    signrawtransaction_hashType [VSTR "00", VNULL, VNULL, VSTR "SINGLE|ANYONECANPAY"] =
      .ok 131 :=
  ⟨(signrawtransaction_sighash (VSTR "00") VNULL VNULL).2.2.2.2.2.2.2.2.2.2.1 "all"
      (by decide),
   (signrawtransaction_sighash (VSTR "00") VNULL VNULL).2.2.2.2.2.1⟩

theorem CCoins.isAvailable_iff (coins : CCoins) (n : Nat) :
    coins.IsAvailable n = true ↔ ∃ out, coins.vout[n]? = some out ∧ out.IsNull = false := by
  unfold CCoins.IsAvailable
  rw [List.get?_eq_getElem?]
  cases h : coins.vout[n]? with
  | none => simp
  | some out => simp

theorem getD_of_getElem? {α : Type} (xs : List α) (n : Nat) (d x : α) (h : xs[n]? = some x) :
    xs.getD n d = x := by
  simp [List.getD_eq_getElem?_getD, h]

theorem signrawtransaction_decode_prevTxs_error (E : Externals)
    (viewMempool : uint256 → Option CCoins) (pwalletMain : Option CWallet)
    (params : List UniValue) (txData : List Nat) (tx0 : CMutableTransaction)
    (txs : List CMutableTransaction) (fGivenKeys : Bool) (tempKeystore : CKeyStore) (e : Exn)
    (hlen : 1 ≤ params.length ∧ params.length ≤ 4)
    (hT : E.RPCTypeCheck params [.VSTR, .VARR, .VARR, .VSTR] true = .ok ())
    (hhex : E.ParseHexV (paramAt params 0) "argument 1" = .ok txData)
    (hvar : signrawtransaction_txVariants E txData.length txData [] = .ok (tx0 :: txs))
    (hkeys : signrawtransaction_keys E pwalletMain params = .ok (fGivenKeys, tempKeystore))
    (hprev : signrawtransaction_prevTxs E fGivenKeys params
      (signrawtransaction_view viewMempool tx0.vin, tempKeystore) = .error e) :
    signrawtransaction E viewMempool pwalletMain params false = .error e := by
  unfold signrawtransaction signrawtransaction_decode
  have hc : ¬ ((false : Bool) = true ∨ params.length < 1 ∨ params.length > 4) := by
    simp only [Bool.false_eq_true, false_or, not_or, not_lt]; omega
  rw [if_neg hc, hT]
  simp only [hhex, hvar, hkeys, hprev]

/-- The block that enters a previous output `(txid, n, s)` given in the call throws the
mismatch error exactly when the view already holds an available output `n` of `txid` whose
script differs from `s`, and that error aborts the loop over the given outputs and the whole
call.  For `n` below 2147483647 this is the only way the block fails: an output of a
transaction unknown to the view, an unavailable output, and an output whose script equals `s`
are accepted.  For `n = 2147483647` and coins with fewer outputs the size `n+1` of line 698
overflows and nothing is accepted. -/
theorem signrawtransaction_prevout_mismatch (E : Externals) (view : CCoinsMap) (txid : uint256)
    (n : Nat) (s : CScript) :
    ((∃ held, signrawtransaction_prevCoins E view txid n s =
        .error (prevOutMismatch E held s)) ↔
      ∃ coins out, view txid = some coins ∧ coins.IsAvailable n = true ∧
        coins.vout[n]? = some out ∧ out.scriptPubKey ≠ s) ∧
    (n < 2147483647 →
      ((∃ e, signrawtransaction_prevCoins E view txid n s = .error e) ↔
        ∃ coins out, view txid = some coins ∧ coins.IsAvailable n = true ∧
          coins.vout[n]? = some out ∧ out.scriptPubKey ≠ s)) ∧
    (n < 2147483647 → ∀ e, signrawtransaction_prevCoins E view txid n s = .error e →
      ∃ held, e = .JSONRPCError .RPC_DESERIALIZATION_ERROR
        ("Previous output scriptPubKey mismatch:\n" ++ E.ScriptToAsmStr held ++ "\nvs:\n" ++
          E.ScriptToAsmStr s)) ∧
    (n < 2147483647 → view txid = none →
      ∃ view', signrawtransaction_prevCoins E view txid n s = .ok view') ∧
    (n < 2147483647 → ∀ coins, view txid = some coins → coins.IsAvailable n = false →
      ∃ view', signrawtransaction_prevCoins E view txid n s = .ok view') ∧
    (∀ coins out, view txid = some coins → coins.vout[n]? = some out → out.scriptPubKey = s →
      ∃ view', signrawtransaction_prevCoins E view txid n s = .ok view') ∧
    (n = 2147483647 → ((view txid).getD CCoins.empty).vout.length ≤ n →
      ∀ view', signrawtransaction_prevCoins E view txid n s ≠ .ok view') ∧
    (∀ fGivenKeys keystore prevOut nOut rest e,
      E.RPCTypeCheckObj prevOut [("txid", .VSTR), ("vout", .VNUM), ("scriptPubKey", .VSTR)]
        = .ok () →
      E.ParseHashV (find_value prevOut "txid") "txid" = .ok txid →
      (find_value prevOut "vout").get_int = .ok nOut → 0 ≤ nOut → nOut.toNat = n →
      E.ParseHexV (find_value prevOut "scriptPubKey") "scriptPubKey" = .ok s →
      signrawtransaction_prevCoins E view txid n s = .error e →
      signrawtransaction_prevTxsLoop E fGivenKeys (VOBJ prevOut :: rest) (view, keystore)
        = .error e) ∧
    (∀ viewMempool pwalletMain params txData tx0 txs fGivenKeys tempKeystore prevTxs e,
      1 ≤ params.length ∧ params.length ≤ 4 →
      E.RPCTypeCheck params [.VSTR, .VARR, .VARR, .VSTR] true = .ok () →
      E.ParseHexV (paramAt params 0) "argument 1" = .ok txData →
      signrawtransaction_txVariants E txData.length txData [] = .ok (tx0 :: txs) →
      signrawtransaction_keys E pwalletMain params = .ok (fGivenKeys, tempKeystore) →
      paramAt params 1 = VARR prevTxs →
      view = signrawtransaction_view viewMempool tx0.vin →
      signrawtransaction_prevTxsLoop E fGivenKeys prevTxs (view, tempKeystore) = .error e →
      signrawtransaction E viewMempool pwalletMain params false = .error e) := by
  have hwrap : ∀ m : Nat, m < 2147483647 → ¬ toInt32 ((m : Int) + 1) < 0 := by
    intro m hm
    unfold toInt32
    omega
  have hwrap' : toInt32 ((2147483647 : Nat) + 1 : Int) < 0 := by decide
  have hcases : ∀ r, signrawtransaction_prevCoins E view txid n s = r →
      (((view txid).getD CCoins.empty).IsAvailable n = true ∧
        (((view txid).getD CCoins.empty).vout.getD n CTxOut.null).scriptPubKey ≠ s ∧
        r = .error (prevOutMismatch E
          (((view txid).getD CCoins.empty).vout.getD n CTxOut.null).scriptPubKey s)) ∨
      (¬ (((view txid).getD CCoins.empty).IsAvailable n = true ∧
        (((view txid).getD CCoins.empty).vout.getD n CTxOut.null).scriptPubKey ≠ s) ∧
        (n ≥ ((view txid).getD CCoins.empty).vout.length ∧ toInt32 ((n : Int) + 1) < 0) ∧
        r = .error (.length_error "vector::_M_default_append")) ∨
      (¬ (((view txid).getD CCoins.empty).IsAvailable n = true ∧
        (((view txid).getD CCoins.empty).vout.getD n CTxOut.null).scriptPubKey ≠ s) ∧
        ¬ (n ≥ ((view txid).getD CCoins.empty).vout.length ∧ toInt32 ((n : Int) + 1) < 0) ∧
        ∃ view', r = .ok view') := by
    intro r hr
    unfold signrawtransaction_prevCoins at hr
    simp only at hr
    split at hr
    · rename_i hc
      exact Or.inl ⟨hc.1, hc.2, hr.symm⟩
    · rename_i hc
      split at hr
      · rename_i ho
        exact Or.inr (Or.inl ⟨hc, by simpa using ho, hr.symm⟩)
      · rename_i ho
        exact Or.inr (Or.inr ⟨hc, by simpa using ho, _, hr.symm⟩)
  have hempty : CCoins.empty.IsAvailable n = false := by
    simp [CCoins.IsAvailable, CCoins.empty]
  have hcond : (((view txid).getD CCoins.empty).IsAvailable n = true ∧
        (((view txid).getD CCoins.empty).vout.getD n CTxOut.null).scriptPubKey ≠ s) ↔
      ∃ coins out, view txid = some coins ∧ coins.IsAvailable n = true ∧
        coins.vout[n]? = some out ∧ out.scriptPubKey ≠ s := by
    constructor
    · rintro ⟨hav, hne⟩
      cases hview : view txid with
      | none =>
        rw [hview] at hav
        simp only [Option.getD_none] at hav
        rw [hempty] at hav
        cases hav
      | some coins =>
        rw [hview] at hav hne
        simp only [Option.getD_some] at hav hne
        obtain ⟨out, hout, -⟩ := (CCoins.isAvailable_iff coins n).1 hav
        rw [getD_of_getElem? _ _ _ _ hout] at hne
        exact ⟨coins, out, rfl, hav, hout, hne⟩
    · rintro ⟨coins, out, hview, hav, hout, hne⟩
      rw [hview]
      simp only [Option.getD_some]
      rw [getD_of_getElem? _ _ _ _ hout]
      exact ⟨hav, hne⟩
  have hmis : (∃ held, signrawtransaction_prevCoins E view txid n s =
        .error (prevOutMismatch E held s)) ↔
      ∃ coins out, view txid = some coins ∧ coins.IsAvailable n = true ∧
        coins.vout[n]? = some out ∧ out.scriptPubKey ≠ s := by
    rw [← hcond]
    constructor
    · rintro ⟨held, he⟩
      rcases hcases _ he with ⟨hav, hne, -⟩ | ⟨-, -, hr⟩ | ⟨-, -, view', hv⟩
      · exact ⟨hav, hne⟩
      · unfold prevOutMismatch at hr
        cases hr
      · cases hv
    · intro hc
      rcases hcases _ rfl with ⟨-, -, hr⟩ | ⟨hno, -, -⟩ | ⟨hno, -, -⟩
      · exact ⟨_, hr⟩
      · exact absurd hc hno
      · exact absurd hc hno
  have hiff : n < 2147483647 →
      ((∃ e, signrawtransaction_prevCoins E view txid n s = .error e) ↔
        ∃ coins out, view txid = some coins ∧ coins.IsAvailable n = true ∧
          coins.vout[n]? = some out ∧ out.scriptPubKey ≠ s) := by
    intro hn
    constructor
    · rintro ⟨e, he⟩
      rcases hcases _ he with ⟨hav, hne, -⟩ | ⟨-, ho, -⟩ | ⟨-, -, view', hv⟩
      · exact hcond.1 ⟨hav, hne⟩
      · exact absurd ho.2 (hwrap n hn)
      · cases hv
    · intro hc
      obtain ⟨held, hh⟩ := hmis.2 hc
      exact ⟨_, hh⟩
  have hok : (¬ (n ≥ ((view txid).getD CCoins.empty).vout.length ∧
        toInt32 ((n : Int) + 1) < 0)) →
      (¬ ∃ coins out, view txid = some coins ∧ coins.IsAvailable n = true ∧
        coins.vout[n]? = some out ∧ out.scriptPubKey ≠ s) →
      ∃ view', signrawtransaction_prevCoins E view txid n s = .ok view' := by
    intro hnov hno
    rcases hcases _ rfl with ⟨hav, hne, -⟩ | ⟨-, ho, -⟩ | ⟨-, -, view', hr⟩
    · exact absurd (hcond.1 ⟨hav, hne⟩) hno
    · exact absurd ho hnov
    · exact ⟨view', hr⟩
  refine ⟨hmis, hiff, ?_, ?_, ?_, ?_, ?_, ?_, ?_⟩
  · intro hn e he
    rcases hcases _ he with ⟨-, -, hr⟩ | ⟨-, ho, -⟩ | ⟨-, -, view', hv⟩
    · cases hr; exact ⟨_, rfl⟩
    · exact absurd ho.2 (hwrap n hn)
    · cases hv
  · intro hn hnone
    apply hok (fun ho => hwrap n hn ho.2)
    rintro ⟨coins, out, hview, -⟩
    rw [hnone] at hview
    cases hview
  · intro hn coins hview hav
    apply hok (fun ho => hwrap n hn ho.2)
    rintro ⟨coins', out, hview', hav', -⟩
    rw [hview] at hview'
    cases hview'
    rw [hav] at hav'
    cases hav'
  · intro coins out hview hout heq
    apply hok
    · rintro ⟨hge, -⟩
      rw [hview] at hge
      simp only [Option.getD_some] at hge
      have := (List.getElem?_eq_some.1 hout).1
      omega
    · rintro ⟨coins', out', hview', -, hout', hne⟩
      rw [hview] at hview'
      cases hview'
      rw [hout] at hout'
      cases hout'
      exact hne heq
  · intro hn hlen view' hv
    rcases hcases _ hv with ⟨-, -, hr⟩ | ⟨-, -, hr⟩ | ⟨-, ho, -⟩
    · cases hr
    · cases hr
    · apply ho
      refine ⟨hlen, ?_⟩
      rw [hn]
      exact hwrap'
  · intro fGivenKeys keystore prevOut nOut rest e hT htx hn h0 hn' hs he
    subst hn'
    simp only [signrawtransaction_prevTxsLoop, signrawtransaction_prevTx, isObject, get_obj,
      Bool.not_true, Bool.false_eq_true, if_false, hT, htx, hn, not_lt.2 h0, hs, he]
  · intro viewMempool pwalletMain params txData tx0 txs fGivenKeys tempKeystore prevTxs e
      hlen hT hhex hvar hkeys hp1 hview hloop
    apply signrawtransaction_decode_prevTxs_error E viewMempool pwalletMain params txData tx0
      txs fGivenKeys tempKeystore e hlen hT hhex hvar hkeys
    have hlen2 : params.length > 1 := by
      by_contra hcon
      have : paramAt params 1 = VNULL := by
        unfold paramAt
        rw [List.getD_eq_default]
        omega
      rw [this] at hp1
      cases hp1
    unfold signrawtransaction_prevTxs
    rw [hp1]
    simp only [hlen2, isNull, get_array, Bool.not_false, and_self, if_true]
    rw [← hview]
    exact hloop
theorem signrawtransaction_prevout_mismatch_example :
    (∃ held, signrawtransaction_prevCoins Externals.reference scenarioCoinsView 7 1 [107, 49]
      = .error (prevOutMismatch Externals.reference held [107, 49])) ∧
    (∃ view', signrawtransaction_prevCoins Externals.reference scenarioCoinsView 8 1 [107, 49]
      = .ok view') ∧
    (∃ view', signrawtransaction_prevCoins Externals.reference scenarioCoinsView 7 0 [107, 49]
      = .ok view') ∧
    (∃ view', signrawtransaction_prevCoins Externals.reference scenarioCoinsView 7 1 [1, 2]
      = .ok view') ∧
    signrawtransaction Externals.reference scenarioCoinsView none
        [VSTR scenarioOneInputHex, VARR [scenarioPrevOut], VARR [VSTR "k1"]] false =
      .error (.JSONRPCError .RPC_DESERIALIZATION_ERROR
        "Previous output scriptPubKey mismatch:\n0102\nvs:\n6b31") :=
  ⟨(signrawtransaction_prevout_mismatch Externals.reference scenarioCoinsView 7 1
      [107, 49]).1.2 ⟨_, _, rfl, rfl, rfl, by decide⟩,
   (signrawtransaction_prevout_mismatch Externals.reference scenarioCoinsView 8 1
      [107, 49]).2.2.2.1 (by decide) rfl,
   (signrawtransaction_prevout_mismatch Externals.reference scenarioCoinsView 7 0
      [107, 49]).2.2.2.2.1 (by decide) _ rfl rfl,
   (signrawtransaction_prevout_mismatch Externals.reference scenarioCoinsView 7 1
      [1, 2]).2.2.2.2.2.1 _ _ rfl rfl rfl,
   (signrawtransaction_prevout_mismatch Externals.reference
      (signrawtransaction_view scenarioCoinsView
        [{ prevout := { hash := 7, n := 1 }, scriptSig := [], nSequence := 4294967295 }])
      7 1 [107, 49]).2.2.2.2.2.2.2.2 scenarioCoinsView none
      [VSTR scenarioOneInputHex, VARR [scenarioPrevOut], VARR [VSTR "k1"]]
      _ _ _ _ _ _ _ ⟨by decide, by decide⟩ (by rfl) (by rfl) (by rfl) (by rfl) (by rfl)
      (by rfl) (by rfl)⟩

/-- C10 does not hold of the code: a previous output `(txid, 2147483647, s)` for a
transaction unknown to the view conflicts with nothing, and still it is not accepted.  The
coins of `txid` have no output 2147483647, so line 698 resizes to `nOut+1`, a sum of `int`s
that overflows; with wrap-around the size is beyond the maximal size of a vector, `resize`
throws, and the call fails with that exception instead of the mismatch error. -/
theorem signrawtransaction_prevout_overflow :
    (fun _ => none : CCoinsMap) 7 = none ∧
    (find_value [("txid", VSTR
        "0000000000000000000000000000000000000000000000000000000000000007"),
      ("vout", VNUM 2147483647), ("scriptPubKey", VSTR "6b31")] "vout").get_int =
        .ok 2147483647 ∧
    toInt32 (2147483647 + 1) = -2147483648 ∧
    (∀ view', signrawtransaction_prevCoins Externals.reference (fun _ => none) 7 2147483647
      [107, 49] ≠ .ok view') ∧
    signrawtransaction_prevCoins Externals.reference (fun _ => none) 7 2147483647 [107, 49] =
      .error (.length_error "vector::_M_default_append") ∧
    signrawtransaction Externals.reference (fun _ => none) none
        [VSTR scenarioOneInputHex, VARR [scenarioLastOut]] false =
      .error (.length_error "vector::_M_default_append") := by
  refine ⟨rfl, by rfl, by decide, ?_, by rfl, by rfl⟩
  intro view' h
  have hr : signrawtransaction_prevCoins Externals.reference (fun _ => none) 7 2147483647
      [107, 49] = .error (.length_error "vector::_M_default_append") := by rfl
  rw [hr] at h
  cases h

theorem signrawtransaction_input_not_found (E : Externals) (view : CCoinsMap)
    (keystore : CKeyStore) (txVariants : List CMutableTransaction) (nHashType : Nat)
    (st : CMutableTransaction × List UniValue) (i : Nat) (txin : CTxIn)
    (hi : st.1.vin[i]? = some txin)
    (hun : ∀ coins, view txin.prevout.hash = some coins →
      coins.IsAvailable txin.prevout.n = false) :
    signrawtransaction_input E view keystore txVariants nHashType st i =
      some (st.1, st.2 ++ [notFoundEntry E txin]) := by
  unfold signrawtransaction_input
  rw [List.get?_eq_getElem?, hi]
  simp only
  cases hv : view txin.prevout.hash with
  | none => rfl
  | some coins =>
    simp only [hun coins hv, Bool.not_false, if_true]
    rfl

theorem signrawtransaction_ok {E : Externals} {viewMempool : uint256 → Option CCoins}
    {pwalletMain : Option CWallet} {params : List UniValue} {fHelp : Bool} {r : UniValue}
    (h : signrawtransaction E viewMempool pwalletMain params fHelp = .ok (some r)) :
    ∃ a mergedTx vErrors,
      signrawtransaction_decode E viewMempool pwalletMain params fHelp = .ok a ∧
      signrawtransaction_loop E a.view a.keystore a.txVariants a.nHashType
        (List.range a.mergedTx.vin.length) (a.mergedTx, []) = some (mergedTx, vErrors) ∧
      r = signrawtransaction_result E mergedTx vErrors := by
  unfold signrawtransaction at h
  split at h
  · cases h
  · rename_i a ha
    split at h
    · cases h
    · rename_i mergedTx vErrors hloop
      cases h
      exact ⟨a, mergedTx, vErrors, ha, hloop, rfl⟩

/-- C6: the result of a `signrawtransaction` call that gets past argument decoding holds
`hex`, the encoding of the merged transaction, and `complete`, which is true exactly when the
signing loop recorded no error; `errors` is present exactly when `complete` is false, and
then holds the recorded errors.  The call returns this result whenever argument decoding
succeeds and every variant has at least as many inputs as the first one. -/
theorem signrawtransaction_result_complete (E : Externals)
    (viewMempool : uint256 → Option CCoins) (pwalletMain : Option CWallet)
    (params : List UniValue) (fHelp : Bool) :
    (∀ r, signrawtransaction E viewMempool pwalletMain params fHelp = .ok (some r) →
      ∃ a mergedTx vErrors entries,
        signrawtransaction_decode E viewMempool pwalletMain params fHelp = .ok a ∧
        signrawtransaction_loop E a.view a.keystore a.txVariants a.nHashType
          (List.range a.mergedTx.vin.length) (a.mergedTx, []) = some (mergedTx, vErrors) ∧
        r = VOBJ entries ∧
        lookupKey entries "hex" = VSTR (E.EncodeHexTx mergedTx) ∧
        (lookupKey entries "complete" = VBOOL true ↔ vErrors = []) ∧
        (lookupKey entries "complete" = VBOOL false ↔ vErrors ≠ []) ∧
        ("errors" ∈ getKeys entries ↔ lookupKey entries "complete" = VBOOL false) ∧
        (vErrors ≠ [] → lookupKey entries "errors" = VARR vErrors)) ∧
    (∀ a, signrawtransaction_decode E viewMempool pwalletMain params fHelp = .ok a →
      (∀ txv ∈ a.txVariants, a.mergedTx.vin.length ≤ txv.vin.length) →
      ∃ r, signrawtransaction E viewMempool pwalletMain params fHelp = .ok (some r)) := by
  refine ⟨?_, ?_⟩
  · intro r hr
    obtain ⟨a, mergedTx, vErrors, ha, hloop, rfl⟩ := signrawtransaction_ok hr
    refine ⟨a, mergedTx, vErrors, _, ha, hloop, rfl, ?_⟩
    cases vErrors with
    | nil => simp [lookupKey, getKeys]
    | cons e es => simp [lookupKey, getKeys]
  · intro a ha hall
    obtain ⟨st', hst'⟩ := signrawtransaction_loop_total E a.view a.keystore a.txVariants
      a.nHashType (List.range a.mergedTx.vin.length) (a.mergedTx, [])
      (fun i hi => List.mem_range.1 hi) hall
    unfold signrawtransaction
    rw [ha]
    simp only [hst']
    exact ⟨_, rfl⟩

theorem signrawtransaction_result_complete_witness :
    signrawtransaction Externals.reference (fun _ => none) none scenarioSignParams false =
      .ok (some scenarioSignResult) ∧
    (∃ a mergedTx vErrors entries,
      signrawtransaction_decode Externals.reference (fun _ => none) none scenarioSignParams
        false = .ok a ∧
      signrawtransaction_loop Externals.reference a.view a.keystore a.txVariants a.nHashType
        (List.range a.mergedTx.vin.length) (a.mergedTx, []) = some (mergedTx, vErrors) ∧
      scenarioSignResult = VOBJ entries ∧
      lookupKey entries "hex" = VSTR (Externals.reference.EncodeHexTx mergedTx) ∧
      (lookupKey entries "complete" = VBOOL true ↔ vErrors = []) ∧
      (lookupKey entries "complete" = VBOOL false ↔ vErrors ≠ []) ∧
      ("errors" ∈ getKeys entries ↔ lookupKey entries "complete" = VBOOL false) ∧
      (vErrors ≠ [] → lookupKey entries "errors" = VARR vErrors)) ∧
    ∃ r, signrawtransaction Externals.reference (fun _ => none) none
      [VSTR scenarioOneInputHex, VARR [scenarioPrevOut], VARR [VSTR "k1"]] false
        = .ok (some r) :=
  ⟨by rfl,
   (signrawtransaction_result_complete Externals.reference (fun _ => none) none
      scenarioSignParams false).1 scenarioSignResult (by rfl),
   (signrawtransaction_result_complete Externals.reference (fun _ => none) none
      [VSTR scenarioOneInputHex, VARR [scenarioPrevOut], VARR [VSTR "k1"]] false).2 _
      (by rfl) (by
        intro txv htxv
        simp only [List.mem_singleton] at htxv
        subst htxv
        exact le_refl _)⟩

theorem range_split (n i : Nat) (hi : i < n) :
    List.range n = List.range i ++ i :: List.range' (i + 1) (n - (i + 1)) := by
  rw [List.range_eq_range', List.range_eq_range']
  have h0 : List.range' 0 n = List.range' 0 i ++ List.range' (0 + i) (n - i) := by
    rw [List.range'_append_1]
    congr 1
    omega
  have h2 : n - i = (n - (i + 1)) + 1 := by omega
  rw [h0, h2, List.range'_succ, Nat.zero_add]

/-- C7: in a `signrawtransaction` call that returns a result, an input whose previous output
is absent from the view or not available gets exactly one error entry, with the message
`Input not found or already spent`; its loop round leaves the transaction as it is (nothing
is signed, merged or verified), the loop goes on with the remaining inputs, and the input of
the returned transaction equals the input of the first decoded variant. -/
theorem signrawtransaction_unresolved_input (E : Externals)
    (viewMempool : uint256 → Option CCoins) (pwalletMain : Option CWallet)
    (params : List UniValue) (fHelp : Bool) (a : SignArgs) (r : UniValue) (i : Nat)
    (txin : CTxIn)
    (hdec : signrawtransaction_decode E viewMempool pwalletMain params fHelp = .ok a)
    (hres : signrawtransaction E viewMempool pwalletMain params fHelp = .ok (some r))
    (hi : a.mergedTx.vin[i]? = some txin)
    (hun : ∀ coins, a.view txin.prevout.hash = some coins →
      coins.IsAvailable txin.prevout.n = false) :
    ∃ mergedTx vErrors m before after,
      a.txVariants.head? = some a.mergedTx ∧
      r = signrawtransaction_result E mergedTx vErrors ∧
      signrawtransaction_loop E a.view a.keystore a.txVariants a.nHashType (List.range i)
        (a.mergedTx, []) = some (m, before) ∧
      signrawtransaction_input E a.view a.keystore a.txVariants a.nHashType (m, before) i =
        some (m, before ++ [notFoundEntry E txin]) ∧
      signrawtransaction_loop E a.view a.keystore a.txVariants a.nHashType
        (List.range' (i + 1) (a.mergedTx.vin.length - (i + 1)))
        (m, before ++ [notFoundEntry E txin]) = some (mergedTx, vErrors) ∧
      vErrors = before ++ notFoundEntry E txin :: after ∧
      mergedTx.vin[i]? = some txin := by
  obtain ⟨a', mergedTx, vErrors, ha', hloop, hr⟩ := signrawtransaction_ok hres
  rw [hdec] at ha'
  cases ha'
  obtain ⟨⟨txs, htxs⟩, -, -⟩ := signrawtransaction_decode_ok hdec
  have hlt : i < a.mergedTx.vin.length := (List.getElem?_eq_some.1 hi).1
  rw [range_split _ i hlt, signrawtransaction_loop_append] at hloop
  split at hloop
  · cases hloop
  · rename_i st1 h1
    obtain ⟨m, before⟩ := st1
    obtain ⟨-, -, hj1, -⟩ := signrawtransaction_loop_ok E a.view a.keystore a.txVariants
      a.nHashType _ _ _ h1
    have hmi : m.vin[i]? = some txin := by
      have := hj1 i (by simp)
      simp only at this
      rw [this, hi]
    have hstep := signrawtransaction_input_not_found E a.view a.keystore a.txVariants
      a.nHashType (m, before) i txin hmi hun
    simp only [signrawtransaction_loop, hstep] at hloop
    obtain ⟨-, -, hj2, added, hadd⟩ := signrawtransaction_loop_ok E a.view a.keystore
      a.txVariants a.nHashType _ _ _ hloop
    refine ⟨mergedTx, vErrors, m, before, added, ?_, hr, h1, hstep, hloop, ?_, ?_⟩
    · rw [htxs]; rfl
    · simp only at hadd
      rw [hadd, List.append_assoc]
      rfl
    · have := hj2 i (by
        intro hmem
        have := (List.mem_range'_1.1 hmem).1
        omega)
      simp only at this
      rw [this, hmi]

theorem signrawtransaction_unresolved_input_witness :
    signrawtransaction_decode Externals.reference (fun _ => none) none scenarioSignParams
      false = .ok scenarioSignArgs ∧
    ∃ mergedTx vErrors m before after,
      scenarioSignArgs.txVariants.head? = some scenarioSignArgs.mergedTx ∧
      scenarioSignResult = signrawtransaction_result Externals.reference mergedTx vErrors ∧
      signrawtransaction_loop Externals.reference scenarioSignArgs.view
        scenarioSignArgs.keystore scenarioSignArgs.txVariants scenarioSignArgs.nHashType
        (List.range 0) (scenarioSignArgs.mergedTx, []) = some (m, before) ∧
      signrawtransaction_input Externals.reference scenarioSignArgs.view
          scenarioSignArgs.keystore scenarioSignArgs.txVariants scenarioSignArgs.nHashType
          (m, before) 0 =
        some (m, before ++ [notFoundEntry Externals.reference
          { prevout := { hash := 5, n := 0 }, scriptSig := [], nSequence := 4294967295 }]) ∧
      signrawtransaction_loop Externals.reference scenarioSignArgs.view
        scenarioSignArgs.keystore scenarioSignArgs.txVariants scenarioSignArgs.nHashType
        (List.range' (0 + 1) (scenarioSignArgs.mergedTx.vin.length - (0 + 1)))
        (m, before ++ [notFoundEntry Externals.reference
          { prevout := { hash := 5, n := 0 }, scriptSig := [], nSequence := 4294967295 }])
          = some (mergedTx, vErrors) ∧
      vErrors = before ++ notFoundEntry Externals.reference
        { prevout := { hash := 5, n := 0 }, scriptSig := [], nSequence := 4294967295 }
          :: after ∧
      mergedTx.vin[0]? =
        some { prevout := { hash := 5, n := 0 }, scriptSig := [], nSequence := 4294967295 } :=
  ⟨by rfl,
   signrawtransaction_unresolved_input Externals.reference (fun _ => none) none
     scenarioSignParams false scenarioSignArgs scenarioSignResult 0
     { prevout := { hash := 5, n := 0 }, scriptSig := [], nSequence := 4294967295 }
     (by rfl) (by rfl) (by rfl) (by
       intro coins hc
       simp [scenarioSignArgs] at hc)⟩

/-- C8: for an input `i` whose previous output is found and available, the `scriptSig` is
cleared first; `SignSignature` is applied (to the cleared transaction) exactly when the hash
type with the ANYONECANPAY bit cleared is not SINGLE or `i` is below the number of outputs;
when it is SINGLE, with or without ANYONECANPAY, and there is no output `i`, the cleared
transaction goes unsigned into the merge with every variant and into script verification.
The merge calls `CombineSignatures` once per variant, on the `scriptSig` of input `i` merged
so far and the `scriptSig` of input `i` of the variant, and stores what it returns: in the
case without signing the first call gets the empty `scriptSig` and that of the first
variant.  `VerifyScript` is then applied to the merged `scriptSig`, and its error is
recorded.  The round completes whenever every variant has an input `i`. -/
theorem signrawtransaction_single_without_output (E : Externals) (view : CCoinsMap)
    (keystore : CKeyStore) (txVariants : List CMutableTransaction) (nHashType : Nat)
    (st : CMutableTransaction × List UniValue) (i : Nat) (txin : CTxIn) (coins : CCoins)
    (hi : st.1.vin[i]? = some txin) (hc : view txin.prevout.hash = some coins)
    (hav : coins.IsAvailable txin.prevout.n = true) :
    ∃ out, coins.vout[txin.prevout.n]? = some out ∧
      (setScriptSig st.1 i []).vin[i]? = some { txin with scriptSig := [] } ∧
      (nHashType &&& bitNot32 SIGHASH_ANYONECANPAY ≠ SIGHASH_SINGLE ∨ i < st.1.vout.length →
        signrawtransaction_sign E keystore out.scriptPubKey nHashType st.1 i =
          setScriptSig (setScriptSig st.1 i []) i
            (E.SignSignature keystore out.scriptPubKey (setScriptSig st.1 i []) i nHashType)) ∧
      (nHashType &&& bitNot32 SIGHASH_ANYONECANPAY = SIGHASH_SINGLE ∧ st.1.vout.length ≤ i →
        signrawtransaction_sign E keystore out.scriptPubKey nHashType st.1 i =
          setScriptSig st.1 i []) ∧
      signrawtransaction_input E view keystore txVariants nHashType st i =
        (match signrawtransaction_merge E out.scriptPubKey i txVariants
            (signrawtransaction_sign E keystore out.scriptPubKey nHashType st.1 i) with
        | none => none
        | some mergedTx =>
          match mergedTx.vin[i]? with
          | none => none
          | some txin' =>
            if (E.VerifyScript txin'.scriptSig out.scriptPubKey
                E.STANDARD_SCRIPT_VERIFY_FLAGS mergedTx i).1 = false then
              some (mergedTx, TxInErrorToJSON E txin' st.2
                (E.ScriptErrorString (E.VerifyScript txin'.scriptSig out.scriptPubKey
                  E.STANDARD_SCRIPT_VERIFY_FLAGS mergedTx i).2))
            else some (mergedTx, st.2)) ∧
      (∀ m, signrawtransaction_merge E out.scriptPubKey i [] m = some m) ∧
      (∀ txv rest m txin' txvin, m.vin[i]? = some txin' → txv.vin[i]? = some txvin →
        signrawtransaction_merge E out.scriptPubKey i (txv :: rest) m =
          signrawtransaction_merge E out.scriptPubKey i rest
            (setScriptSig m i
              (E.CombineSignatures out.scriptPubKey m i txin'.scriptSig txvin.scriptSig))) ∧
      (nHashType &&& bitNot32 SIGHASH_ANYONECANPAY = SIGHASH_SINGLE ∧ st.1.vout.length ≤ i →
        ∀ txv rest txvin, txv.vin[i]? = some txvin →
        signrawtransaction_merge E out.scriptPubKey i (txv :: rest)
            (signrawtransaction_sign E keystore out.scriptPubKey nHashType st.1 i) =
          signrawtransaction_merge E out.scriptPubKey i rest
            (setScriptSig (setScriptSig st.1 i []) i
              (E.CombineSignatures out.scriptPubKey (setScriptSig st.1 i []) i []
                txvin.scriptSig))) ∧
      ((∀ txv ∈ txVariants, i < txv.vin.length) →
        ∃ st', signrawtransaction_input E view keystore txVariants nHashType st i = some st') ∧
      (SIGHASH_SINGLE &&& bitNot32 SIGHASH_ANYONECANPAY = SIGHASH_SINGLE ∧
       (SIGHASH_SINGLE ||| SIGHASH_ANYONECANPAY) &&& bitNot32 SIGHASH_ANYONECANPAY
         = SIGHASH_SINGLE ∧
       SIGHASH_ALL &&& bitNot32 SIGHASH_ANYONECANPAY ≠ SIGHASH_SINGLE ∧
       SIGHASH_NONE &&& bitNot32 SIGHASH_ANYONECANPAY ≠ SIGHASH_SINGLE ∧
       (SIGHASH_ALL ||| SIGHASH_ANYONECANPAY) &&& bitNot32 SIGHASH_ANYONECANPAY
         ≠ SIGHASH_SINGLE ∧
       (SIGHASH_NONE ||| SIGHASH_ANYONECANPAY) &&& bitNot32 SIGHASH_ANYONECANPAY
         ≠ SIGHASH_SINGLE) := by
  obtain ⟨out, hout, -⟩ := (CCoins.isAvailable_iff coins _).1 hav
  have hget : (coins.vout.getD txin.prevout.n CTxOut.null) = out :=
    getD_of_getElem? _ _ _ _ hout
  have hlt : i < st.1.vin.length := (List.getElem?_eq_some.1 hi).1
  have hmerge : ∀ txv rest m txin' txvin, m.vin[i]? = some txin' → txv.vin[i]? = some txvin →
      signrawtransaction_merge E out.scriptPubKey i (txv :: rest) m =
        signrawtransaction_merge E out.scriptPubKey i rest
          (setScriptSig m i
            (E.CombineSignatures out.scriptPubKey m i txin'.scriptSig txvin.scriptSig)) := by
    intro txv rest m txin' txvin hm htxv
    conv_lhs => unfold signrawtransaction_merge
    rw [List.get?_eq_getElem?, List.get?_eq_getElem?, hm, htxv]
  have hsingle : nHashType &&& bitNot32 SIGHASH_ANYONECANPAY = SIGHASH_SINGLE ∧
      st.1.vout.length ≤ i →
      signrawtransaction_sign E keystore out.scriptPubKey nHashType st.1 i =
        setScriptSig st.1 i [] := by
    rintro ⟨h1, h2⟩
    unfold signrawtransaction_sign fHashSingle
    simp only [(setScriptSig_onlyInput st.1 i []).1]
    rw [if_neg]
    simp only [not_or, not_lt]
    exact ⟨by simpa using h1, h2⟩
  refine ⟨out, hout, setScriptSig_get st.1 i [] txin hi, ?_, hsingle, ?_, ?_, hmerge, ?_, ?_,
    ?_⟩
  · intro hcond
    unfold signrawtransaction_sign fHashSingle
    simp only [(setScriptSig_onlyInput st.1 i []).1]
    rw [if_pos]
    rcases hcond with h | h
    · left; simpa using h
    · right; exact h
  · unfold signrawtransaction_input
    rw [List.get?_eq_getElem?, hi]
    simp only [hc, hav, Bool.not_true, Bool.false_eq_true, if_false, hget]
    split
    · rfl
    · rename_i m hm
      rw [List.get?_eq_getElem?]
      split
      · rfl
      · rename_i t ht
        cases hv : (E.VerifyScript t.scriptSig out.scriptPubKey
          E.STANDARD_SCRIPT_VERIFY_FLAGS m i).1 <;> simp
  · intro m
    unfold signrawtransaction_merge
    rfl
  · intro hcond txv rest txvin htxv
    rw [hsingle hcond]
    exact hmerge txv rest _ _ txvin (setScriptSig_get st.1 i [] txin hi) htxv
  · intro hall
    exact signrawtransaction_input_total E view keystore txVariants nHashType st i hlt hall
  · decide

theorem signrawtransaction_single_without_output_witness :
    signrawtransaction_input Externals.reference scenarioKeyView
        { keys := [[107, 49]], scripts := [] } [scenarioTwoInputTx] 3
        (scenarioTwoInputTx, []) 1 =
      some ({ scenarioTwoInputTx with
              vin := [{ prevout := { hash := 5, n := 0 }, scriptSig := [],
                        nSequence := 4294967295 },
                      { prevout := { hash := 7, n := 1 }, scriptSig := [],
                        nSequence := 4294967295 }] },
            [VOBJ [("txid", VSTR
                     "0000000000000000000000000000000000000000000000000000000000000007"),
                   ("vout", VNUM 1), ("scriptSig", VSTR ""), ("sequence", VNUM 4294967295),
                   ("error", VSTR
                     "Script evaluated without error but finished with a false/empty top stack element")]]) ∧
    signrawtransaction_input Externals.reference scenarioKeyView
        { keys := [[107, 49]], scripts := [] } [scenarioTwoInputTx] 1
        (scenarioTwoInputTx, []) 1 =
      some ({ scenarioTwoInputTx with
              vin := [{ prevout := { hash := 5, n := 0 }, scriptSig := [],
                        nSequence := 4294967295 },
                      { prevout := { hash := 7, n := 1 }, scriptSig := [107, 49, 1],
                        nSequence := 4294967295 }] }, []) ∧
    signrawtransaction_input Externals.reference scenarioKeyView
        { keys := [[107, 49]], scripts := [] } [scenarioTwoInputTx, scenarioSignedVariant] 3
        (scenarioTwoInputTx, []) 1 = some (scenarioSignedVariant, []) ∧
    ∃ out, (CCoins.mk false [CTxOut.null, { nValue := 0, scriptPubKey := [107, 49] }] 0
        0).vout[1]? = some out ∧
      signrawtransaction_sign Externals.reference { keys := [[107, 49]], scripts := [] }
        out.scriptPubKey 3 scenarioTwoInputTx 1 = setScriptSig scenarioTwoInputTx 1 [] ∧
      signrawtransaction_merge Externals.reference out.scriptPubKey 1
          (scenarioSignedVariant :: [])
          (signrawtransaction_sign Externals.reference { keys := [[107, 49]], scripts := [] }
            out.scriptPubKey 3 scenarioTwoInputTx 1) =
        signrawtransaction_merge Externals.reference out.scriptPubKey 1 []
          (setScriptSig (setScriptSig scenarioTwoInputTx 1 []) 1
            (Externals.reference.CombineSignatures out.scriptPubKey
              (setScriptSig scenarioTwoInputTx 1 []) 1 [] [107, 49, 1])) :=
  ⟨by rfl, by rfl, by rfl,
   let ⟨out, h1, _, _, h4, _, _, _, h8, _⟩ :=
     signrawtransaction_single_without_output Externals.reference
       scenarioKeyView { keys := [[107, 49]], scripts := [] } [scenarioTwoInputTx] 3
       (scenarioTwoInputTx, []) 1
       { prevout := { hash := 7, n := 1 }, scriptSig := [], nSequence := 4294967295 }
       { fCoinBase := false, vout := [CTxOut.null, { nValue := 0, scriptPubKey := [107, 49] }],
         nHeight := 0, nVersion := 0 }
       (by rfl) (by rfl) (by rfl)
   ⟨out, h1, h4 ⟨by decide, by decide⟩,
    h8 ⟨by decide, by decide⟩ scenarioSignedVariant []
      { prevout := { hash := 7, n := 1 }, scriptSig := [107, 49, 1],
        nSequence := 4294967295 } (by rfl)⟩⟩

/-! ## Previous outputs entered into the request-local view -/

theorem CTxOut.isNull_zero (s : CScript) :
    CTxOut.IsNull { nValue := 0, scriptPubKey := s } = false := by
  simp [CTxOut.IsNull]

theorem CCoins.cleanup_eq_self_iff (coins : CCoins) :
    coins.Cleanup = coins ↔ coins.vout.rdropWhile CTxOut.IsNull = coins.vout := by
  cases coins with
  | mk fCoinBase vout nHeight nVersion => simp [CCoins.Cleanup]

theorem prevCoinsVout_length (v : List CTxOut) (n : Nat) (s : CScript) :
    (prevCoinsVout v n s).length = max v.length (n + 1) := by
  unfold prevCoinsVout
  by_cases h : n ≥ v.length
  · rw [if_pos h, List.length_set, List.length_append, List.length_replicate]
    omega
  · rw [if_neg h, List.length_set]
    omega

theorem prevCoinsVout_get (v : List CTxOut) (n : Nat) (s : CScript) :
    (prevCoinsVout v n s)[n]? = some { nValue := 0, scriptPubKey := s } := by
  have hlen := prevCoinsVout_length v n s
  unfold prevCoinsVout at hlen ⊢
  rw [List.length_set] at hlen
  rw [List.getElem?_set_self]
  omega

theorem prevCoinsVout_other (v : List CTxOut) (n : Nat) (s : CScript) (j : Nat) (hj : j ≠ n)
    (hlt : j < v.length) : (prevCoinsVout v n s)[j]? = v[j]? := by
  unfold prevCoinsVout
  rw [List.getElem?_set_ne (Ne.symm hj)]
  by_cases h : n ≥ v.length
  · rw [if_pos h, List.getElem?_append_left hlt]
  · rw [if_neg h]

theorem prevCoinsVout_clean (v : List CTxOut) (n : Nat) (s : CScript)
    (hv : v.rdropWhile CTxOut.IsNull = v) :
    (prevCoinsVout v n s).rdropWhile CTxOut.IsNull = prevCoinsVout v n s := by
  rw [List.rdropWhile_eq_self_iff]
  intro hne
  rw [List.getLast_eq_getElem]
  have hlen := prevCoinsVout_length v n s
  by_cases hn : (prevCoinsVout v n s).length - 1 = n
  · have hget := prevCoinsVout_get v n s
    have hlt : n < (prevCoinsVout v n s).length := by omega
    rw [List.getElem?_eq_getElem hlt] at hget
    simp only [hn]
    rw [Option.some.inj hget]
    simp [CTxOut.IsNull]
  · have hlt : (prevCoinsVout v n s).length - 1 < v.length := by omega
    have hlen' : (prevCoinsVout v n s).length = v.length := by omega
    have hget := prevCoinsVout_other v n s _ hn hlt
    have hlt' : (prevCoinsVout v n s).length - 1 < (prevCoinsVout v n s).length := by omega
    rw [List.getElem?_eq_getElem hlt', List.getElem?_eq_getElem hlt] at hget
    rw [Option.some.inj hget]
    have hvne : v ≠ [] := by
      intro h0
      rw [h0] at hlt
      simp at hlt
    have hlast := (List.rdropWhile_eq_self_iff.1 hv) hvne
    rw [List.getLast_eq_getElem] at hlast
    simpa [hlen'] using hlast

/-- An accepted call of `signrawtransaction_prevCoins` on a view whose entry for `txid` is
clean: the new entry of `txid`, and the other entries. -/
theorem signrawtransaction_prevCoins_ok (E : Externals) (view view' : CCoinsMap)
    (txid : uint256) (n : Nat) (s : CScript)
    (hclean : ∀ coins, view txid = some coins → coins.Cleanup = coins)
    (h : signrawtransaction_prevCoins E view txid n s = .ok view') :
    view' txid = some { (view txid).getD CCoins.empty with
        vout := prevCoinsVout ((view txid).getD CCoins.empty).vout n s } ∧
      ∀ h', h' ≠ txid → view' h' = view h' := by
  have hold : ((view txid).getD CCoins.empty).vout.rdropWhile CTxOut.IsNull =
      ((view txid).getD CCoins.empty).vout := by
    cases hv : view txid with
    | none => simp [CCoins.empty, List.rdropWhile]
    | some coins =>
      simpa using (CCoins.cleanup_eq_self_iff coins).1 (hclean coins hv)
  unfold signrawtransaction_prevCoins at h
  simp only at h
  split at h
  · cases h
  · split at h
    · cases h
    · have hv := (Except.ok.inj h).symm
      subst hv
      refine ⟨?_, ?_⟩
      · simp only [if_true]
        congr 1
        have := prevCoinsVout_clean ((view txid).getD CCoins.empty).vout n s hold
        unfold prevCoinsVout at this ⊢
        simp only [CCoins.Cleanup]
        rw [this]
      · intro h' hne
        simp [hne]

/-- An accepted previous output: the values parsed from it and the call of
`signrawtransaction_prevCoins` that entered it. -/
theorem signrawtransaction_prevTx_ok (E : Externals) (fGivenKeys : Bool)
    (st st' : CCoinsMap × CKeyStore) (p : UniValue)
    (h : signrawtransaction_prevTx E fGivenKeys st p = .ok st') :
    ∃ (prevOut : List (String × UniValue)) (txid : uint256) (nOut : Nat)
        (scriptPubKey : CScript),
      p.get_obj = .ok prevOut ∧
      E.ParseHashV (find_value prevOut "txid") "txid" = .ok txid ∧
      (find_value prevOut "vout").get_int = .ok (nOut : Int) ∧
      E.ParseHexV (find_value prevOut "scriptPubKey") "scriptPubKey" = .ok scriptPubKey ∧
      signrawtransaction_prevCoins E st.1 txid nOut scriptPubKey = .ok st'.1 := by
  unfold signrawtransaction_prevTx at h
  split at h
  · cases h
  · split at h
    · cases h
    · rename_i prevOut hobj
      split at h
      · cases h
      · split at h
        · cases h
        · rename_i txid htxid
          split at h
          · cases h
          · rename_i nOut hn
            split at h
            · cases h
            · rename_i hpos
              split at h
              · cases h
              · rename_i scriptPubKey hs
                split at h
                · cases h
                · rename_i view hview
                  have hnat : ((nOut.toNat : Nat) : Int) = nOut := Int.toNat_of_nonneg (by omega)
                  refine ⟨prevOut, txid, nOut.toNat, scriptPubKey, hobj, htxid, ?_, hs, ?_⟩
                  · rw [hnat]; exact hn
                  · have hst : st'.1 = view := by
                      split at h
                      · split at h
                        · cases h
                        · simp only at h
                          split at h
                          · split at h
                            · cases h
                            · cases h; rfl
                          · cases h; rfl
                      · cases h; rfl
                    rw [hst]; exact hview

/-- C11: When `signrawtransaction` accepts a previous output given in the call, with
transaction id `txid`, index `nOut` and script `scriptPubKey`, on a view whose entries are
clean, then in the view afterwards the coins of `txid` have output `nOut` equal to value 0
with that script, that output is available, the output list has length
`max (old length) (nOut + 1)`, every output that existed before at another index is
unchanged, the coins of every other transaction are unchanged, and the view is clean
again. -/
theorem signrawtransaction_hint_overlay (E : Externals) (fGivenKeys : Bool)
    (view view' : CCoinsMap) (keystore keystore' : CKeyStore) (p : UniValue)
    (hclean : CleanView view)
    (h : signrawtransaction_prevTx E fGivenKeys (view, keystore) p = .ok (view', keystore')) :
    ∃ (prevOut : List (String × UniValue)) (txid : uint256) (nOut : Nat)
        (scriptPubKey : CScript) (coins' : CCoins),
      p.get_obj = .ok prevOut ∧
      E.ParseHashV (find_value prevOut "txid") "txid" = .ok txid ∧
      (find_value prevOut "vout").get_int = .ok (nOut : Int) ∧
      E.ParseHexV (find_value prevOut "scriptPubKey") "scriptPubKey" = .ok scriptPubKey ∧
      view' txid = some coins' ∧
      coins'.vout[nOut]? = some { nValue := 0, scriptPubKey := scriptPubKey } ∧
      coins'.IsAvailable nOut = true ∧
      coins'.vout.length = max ((view txid).getD CCoins.empty).vout.length (nOut + 1) ∧
      (∀ j, j ≠ nOut → j < ((view txid).getD CCoins.empty).vout.length →
        coins'.vout[j]? = ((view txid).getD CCoins.empty).vout[j]?) ∧
      coins'.fCoinBase = ((view txid).getD CCoins.empty).fCoinBase ∧
      coins'.nHeight = ((view txid).getD CCoins.empty).nHeight ∧
      coins'.nVersion = ((view txid).getD CCoins.empty).nVersion ∧
      (∀ h', h' ≠ txid → view' h' = view h') ∧
      CleanView view' := by
  obtain ⟨prevOut, txid, nOut, s, hobj, htxid, hn, hs, hcoins⟩ :=
    signrawtransaction_prevTx_ok E fGivenKeys _ _ p h
  obtain ⟨hnew, hother⟩ :=
    signrawtransaction_prevCoins_ok E view view' txid nOut s (hclean txid) hcoins
  have hold : ((view txid).getD CCoins.empty).vout.rdropWhile CTxOut.IsNull =
      ((view txid).getD CCoins.empty).vout := by
    cases hv : view txid with
    | none => simp [CCoins.empty, List.rdropWhile]
    | some coins => simpa using (CCoins.cleanup_eq_self_iff coins).1 (hclean txid coins hv)
  refine ⟨prevOut, txid, nOut, s, _, hobj, htxid, hn, hs, hnew, ?_, ?_, ?_, ?_, rfl, rfl, rfl,
    hother, ?_⟩
  · exact prevCoinsVout_get _ nOut s
  · rw [CCoins.isAvailable_iff]
    exact ⟨_, prevCoinsVout_get _ nOut s, CTxOut.isNull_zero s⟩
  · exact prevCoinsVout_length _ nOut s
  · intro j hj hlt
    exact prevCoinsVout_other _ nOut s j hj hlt
  · intro h' coins hc
    by_cases hh : h' = txid
    · subst hh
      rw [hnew] at hc
      have hc' := (Option.some.inj hc).symm
      subst hc'
      rw [CCoins.cleanup_eq_self_iff]
      exact prevCoinsVout_clean _ nOut s hold
    · rw [hother h' hh] at hc
      exact hclean h' coins hc

theorem scenarioCoinsView_clean : CleanView scenarioCoinsView := by
  intro txid coins h
  unfold scenarioCoinsView at h
  split at h
  · have hc := (Option.some.inj h).symm
    subst hc
    rfl
  · cases h

theorem signrawtransaction_hint_overlay_witness :
    CleanView scenarioCoinsView ∧
    signrawtransaction_prevTx Externals.reference false
      (scenarioCoinsView, { keys := [], scripts := [] }) scenarioHint =
        .ok (scenarioHintView, { keys := [], scripts := [] }) ∧
    ∃ (prevOut : List (String × UniValue)) (txid : uint256) (nOut : Nat)
        (scriptPubKey : CScript) (coins' : CCoins),
      scenarioHint.get_obj = .ok prevOut ∧
      Externals.reference.ParseHashV (find_value prevOut "txid") "txid" = .ok txid ∧
      (find_value prevOut "vout").get_int = .ok (nOut : Int) ∧
      Externals.reference.ParseHexV (find_value prevOut "scriptPubKey") "scriptPubKey" =
        .ok scriptPubKey ∧
      scenarioHintView txid = some coins' ∧
      coins'.vout[nOut]? = some { nValue := 0, scriptPubKey := scriptPubKey } ∧
      coins'.IsAvailable nOut = true ∧
      coins'.vout.length = max ((scenarioCoinsView txid).getD CCoins.empty).vout.length
        (nOut + 1) ∧
      (∀ j, j ≠ nOut → j < ((scenarioCoinsView txid).getD CCoins.empty).vout.length →
        coins'.vout[j]? = ((scenarioCoinsView txid).getD CCoins.empty).vout[j]?) ∧
      coins'.fCoinBase = ((scenarioCoinsView txid).getD CCoins.empty).fCoinBase ∧
      coins'.nHeight = ((scenarioCoinsView txid).getD CCoins.empty).nHeight ∧
      coins'.nVersion = ((scenarioCoinsView txid).getD CCoins.empty).nVersion ∧
      (∀ h', h' ≠ txid → scenarioHintView h' = scenarioCoinsView h') ∧
      CleanView scenarioHintView :=
  ⟨scenarioCoinsView_clean, by rfl,
   signrawtransaction_hint_overlay Externals.reference false scenarioCoinsView scenarioHintView
     { keys := [], scripts := [] } { keys := [], scripts := [] } scenarioHint
     scenarioCoinsView_clean (by rfl)⟩

/-! ## signrawtransaction and the node state -/

theorem FetchCoins_clean (base : uint256 → Option CCoins) (cacheCoins : CCoinsMap)
    (txid : uint256) (hbase : CleanView base) (hcache : CleanView cacheCoins) :
    CleanView (FetchCoins base cacheCoins txid) := by
  unfold FetchCoins
  split
  · exact hcache
  · split
    · exact hcache
    · rename_i coins hc
      intro h' c hget
      simp only at hget
      split at hget
      · have hcc := (Option.some.inj hget).symm
        subst hcc
        exact hbase txid _ hc
      · exact hcache h' c hget

/-- The view built from a backend whose coins are clean is clean. -/
theorem signrawtransaction_view_clean (viewMempool : uint256 → Option CCoins)
    (vin : List CTxIn) (hbase : CleanView viewMempool) :
    CleanView (signrawtransaction_view viewMempool vin) := by
  unfold signrawtransaction_view
  have hgen : ∀ (l : List CTxIn) (c : CCoinsMap), CleanView c →
      CleanView (l.foldl (fun view txin => FetchCoins viewMempool view txin.prevout.hash) c) := by
    intro l
    induction l with
    | nil => intro c hc; exact hc
    | cons txin rest ih =>
      intro c hc
      rw [List.foldl_cons]
      exact ih _ (FetchCoins_clean viewMempool c _ hbase hc)
  exact hgen vin _ (fun _ _ h => by cases h)

/-- What the layer of the chain view answers: its own entry, else that of the database. -/
theorem CoinsTip_lookup_eq (tip : CoinsTip) (h : uint256) :
    tip.lookup h = match tip.cacheCoins h with
      | some c => some c
      | none => tip.base h := by
  unfold CoinsTip.lookup CoinsTip.GetCoins FetchCoins
  simp only
  cases hc : tip.cacheCoins h with
  | some c => simp [hc]
  | none =>
    cases hb : tip.base h with
    | none => simp [hc]
    | some c => simp

theorem CacheFilled_refl (ids : List uint256) (σ : NodeStore) : CacheFilled ids σ σ :=
  ⟨rfl, rfl, rfl, rfl, rfl, fun _ => Or.inl rfl⟩

theorem CacheFilled_mono {ids ids' : List uint256} {σ σ' : NodeStore}
    (hsub : ∀ x ∈ ids, x ∈ ids') (h : CacheFilled ids σ σ') : CacheFilled ids' σ σ' := by
  obtain ⟨hm, hb, hi, hc, hf, hcache⟩ := h
  refine ⟨hm, hb, hi, hc, hf, ?_⟩
  intro txid
  rcases hcache txid with h1 | ⟨h1, h2, h3, h4⟩
  · exact Or.inl h1
  · exact Or.inr ⟨hsub _ h1, h2, h3, h4⟩

theorem CacheFilled_trans {ids : List uint256} {σ σ' σ'' : NodeStore}
    (h1 : CacheFilled ids σ σ') (h2 : CacheFilled ids σ' σ'') : CacheFilled ids σ σ'' := by
  obtain ⟨hm, hb, hi, hc, hf, hcache⟩ := h1
  obtain ⟨hm', hb', hi', hc', hf', hcache'⟩ := h2
  refine ⟨hm'.trans hm, hb'.trans hb, hi'.trans hi, hc'.trans hc, hf'.trans hf, ?_⟩
  intro txid
  rcases hcache' txid with h | ⟨hmem, hmp, hnone, hfill⟩
  · rw [h]
    exact hcache txid
  · rw [hm] at hmp
    rw [hb] at hfill
    rcases hcache txid with h | ⟨_, _, h3, h4⟩
    · rw [h] at hnone
      exact Or.inr ⟨hmem, hmp, hnone, hfill⟩
    · refine Or.inr ⟨hmem, hmp, h3, hfill⟩

/-- A store whose chain view gained copies of entries of its database presents the same node
state. -/
theorem CacheFilled_state {ids : List uint256} {σ σ' : NodeStore}
    (h : CacheFilled ids σ σ') : σ'.state = σ.state := by
  obtain ⟨hm, hb, hi, hc, hf, hcache⟩ := h
  have hlook : σ'.pcoinsTip.lookup = σ.pcoinsTip.lookup := by
    funext txid
    rw [CoinsTip_lookup_eq, CoinsTip_lookup_eq, hb]
    rcases hcache txid with h1 | ⟨_, _, h3, h4⟩
    · rw [h1]
    · rw [h3, h4]
      cases σ.pcoinsTip.base txid <;> rfl
  unfold NodeStore.state
  rw [hm, hi, hc, hf, hlook]

/-- The lookup of the mempool view returns what the state presented answers, and leaves a
store whose chain view gained at most a copy of the database entry asked for. -/
theorem viewMempoolGetCoins_filled (E : Externals) (σ : NodeStore) (txid : uint256) :
    CacheFilled [txid] σ (σ.viewMempoolGetCoins E txid).2 ∧
    (σ.viewMempoolGetCoins E txid).1 = E.viewMempoolGetCoins σ.state txid := by
  refine ⟨?_, rfl⟩
  unfold NodeStore.viewMempoolGetCoins
  simp only
  cases hm : σ.mempool txid with
  | some tx => exact CacheFilled_refl _ _
  | none =>
    refine ⟨rfl, rfl, rfl, rfl, rfl, ?_⟩
    intro h
    simp only [CoinsTip.GetCoins, FetchCoins]
    cases hc : σ.pcoinsTip.cacheCoins txid with
    | some c => exact Or.inl rfl
    | none =>
      cases hb : σ.pcoinsTip.base txid with
      | none => exact Or.inl rfl
      | some c =>
        simp only
        by_cases hh : h = txid
        · subst hh
          exact Or.inr ⟨List.mem_singleton.2 rfl, hm, hc, by simp [hb]⟩
        · exact Or.inl (by simp [hh])

/-- A lookup through the view on the mempool backend: the view gains what the mempool view
answers, the chain view of the store at most a copy of the database entry. -/
theorem AccessCoins_viewMempool (E : Externals) (σ : NodeStore) (c : CCoinsMap)
    (txid : uint256) :
    CacheFilled [txid] σ
      (CCoinsViewCache.AccessCoins E σ { base := .viewMempool, cacheCoins := c } txid).1 ∧
    (CCoinsViewCache.AccessCoins E σ { base := .viewMempool, cacheCoins := c } txid).2 =
      { base := .viewMempool,
        cacheCoins := FetchCoins (E.viewMempoolGetCoins σ.state) c txid } := by
  unfold CCoinsViewCache.AccessCoins CCoinsViewCache.GetBackendCoins FetchCoins
  simp only
  cases hc : c txid with
  | some coins => exact ⟨CacheFilled_refl _ _, rfl⟩
  | none =>
    simp only [(viewMempoolGetCoins_filled E σ txid).2]
    cases hv : E.viewMempoolGetCoins σ.state txid with
    | none => exact ⟨(viewMempoolGetCoins_filled E σ txid).1, rfl⟩
    | some coins => exact ⟨(viewMempoolGetCoins_filled E σ txid).1, rfl⟩

/-- A lookup through the view on the dummy backend touches neither the store nor the
view. -/
theorem AccessCoins_viewDummy (E : Externals) (σ : NodeStore) (c : CCoinsMap)
    (txid : uint256) :
    CCoinsViewCache.AccessCoins E σ (dummyView c) txid = (σ, dummyView c) := by
  unfold CCoinsViewCache.AccessCoins CCoinsViewCache.GetBackendCoins dummyView
  simp only
  cases c txid <;> rfl

theorem ModifyCoins_viewDummy (E : Externals) (σ : NodeStore) (c : CCoinsMap)
    (txid : uint256) :
    CCoinsViewCache.ModifyCoins E σ (dummyView c) txid = (σ, dummyView c) := by
  unfold CCoinsViewCache.ModifyCoins CCoinsViewCache.GetBackendCoins dummyView
  simp only
  cases c txid <;> rfl

theorem signrawtransaction_fetch_foldl (E : Externals) (vin : List CTxIn) :
    ∀ (σ : NodeStore) (c : CCoinsMap),
      CacheFilled (vin.map fun txin => txin.prevout.hash) σ
        (vin.foldl (fun st txin => CCoinsViewCache.AccessCoins E st.1 st.2 txin.prevout.hash)
          (σ, { base := .viewMempool, cacheCoins := c })).1 ∧
      (vin.foldl (fun st txin => CCoinsViewCache.AccessCoins E st.1 st.2 txin.prevout.hash)
          (σ, { base := .viewMempool, cacheCoins := c })).2 =
        { base := .viewMempool,
          cacheCoins := vin.foldl
            (fun view txin => FetchCoins (E.viewMempoolGetCoins σ.state) view txin.prevout.hash)
            c } := by
  induction vin with
  | nil => intro σ c; exact ⟨CacheFilled_refl _ _, rfl⟩
  | cons txin rest ih =>
    intro σ c
    rw [List.foldl_cons, List.foldl_cons]
    obtain ⟨hfill, hview⟩ := AccessCoins_viewMempool E σ c txin.prevout.hash
    have hst : (CCoinsViewCache.AccessCoins E σ { base := .viewMempool, cacheCoins := c }
        txin.prevout.hash) =
        ((CCoinsViewCache.AccessCoins E σ { base := .viewMempool, cacheCoins := c }
          txin.prevout.hash).1,
         { base := .viewMempool,
           cacheCoins := FetchCoins (E.viewMempoolGetCoins σ.state) c txin.prevout.hash }) := by
      rw [← hview]
    rw [hst]
    obtain ⟨ih1, ih2⟩ := ih (CCoinsViewCache.AccessCoins E σ
      { base := .viewMempool, cacheCoins := c } txin.prevout.hash).1
      (FetchCoins (E.viewMempoolGetCoins σ.state) c txin.prevout.hash)
    rw [CacheFilled_state hfill] at ih2
    refine ⟨?_, ih2⟩
    refine CacheFilled_trans (CacheFilled_mono ?_ hfill) (CacheFilled_mono ?_ ih1)
    · intro x hx
      rw [List.mem_singleton] at hx
      subst hx
      simp
    · intro x hx
      rw [List.map_cons]
      exact List.mem_cons_of_mem _ hx

/-- The lookups of lines 628-644 leave a store whose chain view gained at most copies of
database entries of the previous transactions; the view they leave is on the dummy backend
and holds what the lookups through the mempool view found. -/
theorem signrawtransaction_fetch_eq (E : Externals) (σ : NodeStore) (vin : List CTxIn) :
    CacheFilled (vin.map fun txin => txin.prevout.hash) σ (signrawtransaction_fetch E σ vin).1 ∧
    (signrawtransaction_fetch E σ vin).2 =
      dummyView (signrawtransaction_view (E.viewMempoolGetCoins σ.state) vin) := by
  unfold signrawtransaction_fetch signrawtransaction_view CCoinsViewCache.SetBackend dummyView
  simp only
  obtain ⟨h1, h2⟩ := signrawtransaction_fetch_foldl E vin σ (fun _ => none)
  exact ⟨h1, by rw [h2]⟩

/-- On the dummy backend the block of lines 689-701 works on the entries of the view alone
and leaves the store as it was. -/
theorem signrawtransaction_prevCoins_node_dummy (E : Externals) (σ : NodeStore)
    (c : CCoinsMap) (txid : uint256) (nOut : Nat) (scriptPubKey : CScript) :
    signrawtransaction_prevCoins_node E σ (dummyView c) txid nOut scriptPubKey =
      (match signrawtransaction_prevCoins E c txid nOut scriptPubKey with
        | .error e => .error e
        | .ok c' => .ok (dummyView c'), σ) := by
  unfold signrawtransaction_prevCoins_node
  simp only [ModifyCoins_viewDummy]
  have hc : (dummyView c).cacheCoins = c := rfl
  rw [hc]
  cases signrawtransaction_prevCoins E c txid nOut scriptPubKey <;> rfl

theorem signrawtransaction_prevTx_node_dummy (E : Externals) (fGivenKeys : Bool)
    (σ : NodeStore) (c : CCoinsMap) (ks : CKeyStore) (p : UniValue) :
    signrawtransaction_prevTx_node E fGivenKeys σ (dummyView c, ks) p =
      (onDummyView (signrawtransaction_prevTx E fGivenKeys (c, ks) p), σ) := by
  unfold signrawtransaction_prevTx_node signrawtransaction_prevTx
  simp only [signrawtransaction_prevCoins_node_dummy]
  split
  · rfl
  · cases p.get_obj with
    | error e => rfl
    | ok prevOut =>
      simp only
      cases E.RPCTypeCheckObj prevOut
          [("txid", .VSTR), ("vout", .VNUM), ("scriptPubKey", .VSTR)] with
      | error e => rfl
      | ok u =>
        simp only
        cases E.ParseHashV (find_value prevOut "txid") "txid" with
        | error e => rfl
        | ok txid =>
          simp only
          cases (find_value prevOut "vout").get_int with
          | error e => rfl
          | ok nOut =>
            simp only
            split
            · rfl
            · cases E.ParseHexV (find_value prevOut "scriptPubKey") "scriptPubKey" with
              | error e => rfl
              | ok scriptPubKey =>
                simp only
                cases signrawtransaction_prevCoins E c txid nOut.toNat scriptPubKey with
                | error e => rfl
                | ok c' =>
                  simp only
                  split
                  · cases E.RPCTypeCheckObj prevOut
                        [("txid", .VSTR), ("vout", .VNUM), ("scriptPubKey", .VSTR),
                         ("redeemScript", .VSTR)] with
                    | error e => rfl
                    | ok u' =>
                      simp only
                      split
                      · cases E.ParseHexV (find_value prevOut "redeemScript")
                            "redeemScript" with
                        | error e => rfl
                        | ok redeemScript => rfl
                      · rfl
                  · rfl

theorem signrawtransaction_prevTxsLoop_node_dummy (E : Externals) (fGivenKeys : Bool)
    (prevTxs : List UniValue) :
    ∀ (σ : NodeStore) (c : CCoinsMap) (ks : CKeyStore),
      signrawtransaction_prevTxsLoop_node E fGivenKeys prevTxs σ (dummyView c, ks) =
        (onDummyView (signrawtransaction_prevTxsLoop E fGivenKeys prevTxs (c, ks)), σ) := by
  induction prevTxs with
  | nil => intro σ c ks; rfl
  | cons p rest ih =>
    intro σ c ks
    unfold signrawtransaction_prevTxsLoop_node signrawtransaction_prevTxsLoop
    rw [signrawtransaction_prevTx_node_dummy]
    cases signrawtransaction_prevTx E fGivenKeys (c, ks) p with
    | error e => rfl
    | ok st =>
      obtain ⟨c', ks'⟩ := st
      simp only [onDummyView]
      exact ih σ c' ks'

/-- On the dummy backend the previous outputs given in the call are entered into the view
alone, and the store is left as it was. -/
theorem signrawtransaction_prevTxs_node_dummy (E : Externals) (fGivenKeys : Bool)
    (params : List UniValue) (σ : NodeStore) (c : CCoinsMap) (ks : CKeyStore) :
    signrawtransaction_prevTxs_node E fGivenKeys params σ (dummyView c, ks) =
      (onDummyView (signrawtransaction_prevTxs E fGivenKeys params (c, ks)), σ) := by
  unfold signrawtransaction_prevTxs_node signrawtransaction_prevTxs
  split
  · cases (paramAt params 1).get_array with
    | error e => rfl
    | ok prevTxs => exact signrawtransaction_prevTxsLoop_node_dummy E fGivenKeys prevTxs σ c ks
  · rfl

theorem signrawtransaction_input_node_dummy (E : Externals) (keystore : CKeyStore)
    (txVariants : List CMutableTransaction) (nHashType : Nat) (σ : NodeStore)
    (c : CCoinsMap) (st : CMutableTransaction × List UniValue) (i : Nat) :
    signrawtransaction_input_node E keystore txVariants nHashType σ (dummyView c) st i =
      (signrawtransaction_input E c keystore txVariants nHashType st i, σ, dummyView c) := by
  unfold signrawtransaction_input_node
  cases hi : st.1.vin.get? i with
  | none =>
    simp only
    unfold signrawtransaction_input
    rw [hi]
  | some txin =>
    simp only [AccessCoins_viewDummy]
    rfl

/-- On the dummy backend the signing loop reads the entries of the view alone, and the store
is left as it was. -/
theorem signrawtransaction_loop_node_dummy (E : Externals) (keystore : CKeyStore)
    (txVariants : List CMutableTransaction) (nHashType : Nat) (is : List Nat) :
    ∀ (σ : NodeStore) (c : CCoinsMap) (st : CMutableTransaction × List UniValue),
      signrawtransaction_loop_node E keystore txVariants nHashType is σ (dummyView c) st =
        (signrawtransaction_loop E c keystore txVariants nHashType is st, σ) := by
  induction is with
  | nil => intro σ c st; rfl
  | cons i rest ih =>
    intro σ c st
    unfold signrawtransaction_loop_node signrawtransaction_loop
    rw [signrawtransaction_input_node_dummy]
    cases signrawtransaction_input E c keystore txVariants nHashType st i with
    | none => rfl
    | some st' => exact ih σ c st'

/-- From a view on the dummy backend, lines 646-779 leave the store as it was. -/
theorem signrawtransaction_local_dummy (E : Externals) (σ : NodeStore) (c : CCoinsMap)
    (pwalletMain : Option CWallet) (params : List UniValue)
    (txVariants : List CMutableTransaction) (mergedTx : CMutableTransaction) :
    (signrawtransaction_local E σ (dummyView c) pwalletMain params txVariants mergedTx).2 =
      σ := by
  unfold signrawtransaction_local
  cases signrawtransaction_keys E pwalletMain params with
  | error e => rfl
  | ok k =>
    obtain ⟨fGivenKeys, tempKeystore⟩ := k
    simp only [signrawtransaction_prevTxs_node_dummy]
    cases signrawtransaction_prevTxs E fGivenKeys params (c, tempKeystore) with
    | error e => rfl
    | ok st =>
      obtain ⟨c', ks'⟩ := st
      simp only [onDummyView]
      cases signrawtransaction_hashType params with
      | error e => rfl
      | ok nHashType =>
        simp only [signrawtransaction_loop_node_dummy]
        cases signrawtransaction_loop E c' _ txVariants nHashType
            (List.range mergedTx.vin.length) (mergedTx, []) with
        | none => rfl
        | some r => rfl

/-- The store after the call: the store before it when the call fails ahead of line 628,
else the store that the lookups of lines 628-644 left. -/
theorem signrawtransaction_node_store (E : Externals) (σ : NodeStore)
    (pwalletMain : Option CWallet) (params : List UniValue) (fHelp : Bool) :
    (signrawtransaction_node E σ pwalletMain params fHelp).2 = σ ∨
    ∃ txData tx0 txs, ¬ (fHelp ∨ params.length < 1 ∨ params.length > 4) ∧
      E.ParseHexV (paramAt params 0) "argument 1" = .ok txData ∧
      signrawtransaction_txVariants E txData.length txData [] = .ok (tx0 :: txs) ∧
      (signrawtransaction_node E σ pwalletMain params fHelp).2 =
        (signrawtransaction_fetch E σ tx0.vin).1 := by
  unfold signrawtransaction_node
  split
  · exact Or.inl rfl
  · rename_i hhelp
    cases E.RPCTypeCheck params [.VSTR, .VARR, .VARR, .VSTR] true with
    | error e => exact Or.inl rfl
    | ok u =>
      simp only
      cases hp : E.ParseHexV (paramAt params 0) "argument 1" with
      | error e => exact Or.inl rfl
      | ok txData =>
        simp only
        cases hv : signrawtransaction_txVariants E txData.length txData [] with
        | error e => exact Or.inl rfl
        | ok l =>
          cases l with
          | nil => exact Or.inl rfl
          | cons tx0 txs =>
            simp only
            refine Or.inr ⟨txData, tx0, txs, hhelp, rfl, hv, ?_⟩
            rw [(signrawtransaction_fetch_eq E σ tx0.vin).2]
            exact signrawtransaction_local_dummy E _ _ pwalletMain params (tx0 :: txs) tx0

/-- The handler on the store returns what the handler on the lookup of the mempool view
returns. -/
theorem signrawtransaction_node_result (E : Externals) (σ : NodeStore)
    (pwalletMain : Option CWallet) (params : List UniValue) (fHelp : Bool) :
    (signrawtransaction_node E σ pwalletMain params fHelp).1 =
      signrawtransaction E (E.viewMempoolGetCoins σ.state) pwalletMain params fHelp := by
  unfold signrawtransaction_node signrawtransaction signrawtransaction_decode
  split
  · rfl
  · cases E.RPCTypeCheck params [.VSTR, .VARR, .VARR, .VSTR] true with
    | error e => rfl
    | ok u =>
      simp only
      cases E.ParseHexV (paramAt params 0) "argument 1" with
      | error e => rfl
      | ok txData =>
        simp only
        cases signrawtransaction_txVariants E txData.length txData [] with
        | error e => rfl
        | ok l =>
          cases l with
          | nil => rfl
          | cons tx0 txs =>
            simp only
            rw [(signrawtransaction_fetch_eq E σ tx0.vin).2]
            unfold signrawtransaction_local
            cases signrawtransaction_keys E pwalletMain params with
            | error e => rfl
            | ok k =>
              obtain ⟨fGivenKeys, tempKeystore⟩ := k
              simp only [signrawtransaction_prevTxs_node_dummy]
              cases signrawtransaction_prevTxs E fGivenKeys params
                  (signrawtransaction_view (E.viewMempoolGetCoins σ.state) tx0.vin,
                    tempKeystore) with
              | error e => rfl
              | ok st =>
                obtain ⟨c', ks'⟩ := st
                simp only [onDummyView]
                cases signrawtransaction_hashType params with
                | error e => rfl
                | ok nHashType =>
                  simp only [signrawtransaction_loop_node_dummy]
                  cases signrawtransaction_loop E c' _ (tx0 :: txs) nHashType
                      (List.range tx0.vin.length) (tx0, []) with
                  | none => rfl
                  | some r => rfl

/-- C12 (amended): `signrawtransaction`, whatever it returns or throws, leaves the mempool,
the coin database, the block index, the chain and the block files as they were, and what the
chain UTXO view answers to a lookup is unchanged, so that the node state presented is the
same.  The layer of the chain view may gain entries: its entry for a transaction id after
the call is the entry before it, unless the mempool has no such transaction, the layer had no
entry, the id is the previous transaction of an input of the first transaction decoded, and
the layer now holds what the database holds for it.  The store after the call is the store
before it when the call fails ahead of line 628, and else the store that the lookups of
lines 628-644 left: these leave the request-local view on the dummy backend, on which the
previous outputs given in the call and the lookups of the signing loop work on the entries
of the view alone and leave every store as it is, whether they succeed or throw.  The value
returned or the exception thrown is that of the handler on the lookup of the mempool
view. -/
theorem signrawtransaction_store_frame (E : Externals) (σ : NodeStore)
    (pwalletMain : Option CWallet) (params : List UniValue) (fHelp : Bool) :
    (signrawtransaction_node E σ pwalletMain params fHelp).2.mempool = σ.mempool ∧
    (signrawtransaction_node E σ pwalletMain params fHelp).2.pcoinsTip.base =
      σ.pcoinsTip.base ∧
    (signrawtransaction_node E σ pwalletMain params fHelp).2.state = σ.state ∧
    (∀ txid, (signrawtransaction_node E σ pwalletMain params fHelp).2.pcoinsTip.lookup txid =
      σ.pcoinsTip.lookup txid) ∧
    (∀ txid,
      (signrawtransaction_node E σ pwalletMain params fHelp).2.pcoinsTip.cacheCoins txid =
        σ.pcoinsTip.cacheCoins txid ∨
      (σ.mempool txid = none ∧ σ.pcoinsTip.cacheCoins txid = none ∧
        (signrawtransaction_node E σ pwalletMain params fHelp).2.pcoinsTip.cacheCoins txid =
          σ.pcoinsTip.base txid ∧
        ∃ txData tx0 txs txin,
          E.ParseHexV (paramAt params 0) "argument 1" = .ok txData ∧
          signrawtransaction_txVariants E txData.length txData [] = .ok (tx0 :: txs) ∧
          txin ∈ tx0.vin ∧ txin.prevout.hash = txid)) ∧
    ((signrawtransaction_node E σ pwalletMain params fHelp).2 = σ ∨
      ∃ txData tx0 txs, ¬ (fHelp ∨ params.length < 1 ∨ params.length > 4) ∧
        E.ParseHexV (paramAt params 0) "argument 1" = .ok txData ∧
        signrawtransaction_txVariants E txData.length txData [] = .ok (tx0 :: txs) ∧
        (signrawtransaction_node E σ pwalletMain params fHelp).2 =
          (signrawtransaction_fetch E σ tx0.vin).1) ∧
    (∀ vin, (signrawtransaction_fetch E σ vin).2 =
      dummyView (signrawtransaction_view (E.viewMempoolGetCoins σ.state) vin)) ∧
    (∀ (fGivenKeys : Bool) (σ1 : NodeStore) (c : CCoinsMap) (ks : CKeyStore),
      signrawtransaction_prevTxs_node E fGivenKeys params σ1 (dummyView c, ks) =
        (onDummyView (signrawtransaction_prevTxs E fGivenKeys params (c, ks)), σ1)) ∧
    (∀ (keystore : CKeyStore) (txVariants : List CMutableTransaction) (nHashType : Nat)
        (is : List Nat) (σ1 : NodeStore) (c : CCoinsMap)
        (st : CMutableTransaction × List UniValue),
      signrawtransaction_loop_node E keystore txVariants nHashType is σ1 (dummyView c) st =
        (signrawtransaction_loop E c keystore txVariants nHashType is st, σ1)) ∧
    (signrawtransaction_node E σ pwalletMain params fHelp).1 =
      signrawtransaction E (E.viewMempoolGetCoins σ.state) pwalletMain params fHelp := by
  have hstore := signrawtransaction_node_store E σ pwalletMain params fHelp
  have hfill : ∃ ids, CacheFilled ids σ (signrawtransaction_node E σ pwalletMain params fHelp).2 ∧
      ∀ txid ∈ ids, ∃ txData tx0 txs txin,
        E.ParseHexV (paramAt params 0) "argument 1" = .ok txData ∧
        signrawtransaction_txVariants E txData.length txData [] = .ok (tx0 :: txs) ∧
        txin ∈ tx0.vin ∧ txin.prevout.hash = txid := by
    rcases hstore with h | ⟨txData, tx0, txs, _, hp, hv, h⟩
    · refine ⟨[], ?_, fun _ hx => absurd hx (List.not_mem_nil _)⟩
      rw [h]
      exact CacheFilled_refl _ _
    · refine ⟨tx0.vin.map fun txin => txin.prevout.hash, ?_, ?_⟩
      · rw [h]
        exact (signrawtransaction_fetch_eq E σ tx0.vin).1
      · intro txid hx
        obtain ⟨txin, hmem, heq⟩ := List.mem_map.1 hx
        exact ⟨txData, tx0, txs, txin, hp, hv, hmem, heq⟩
  obtain ⟨ids, hfilled, hids⟩ := hfill
  have hstate := CacheFilled_state hfilled
  refine ⟨hfilled.1, hfilled.2.1, hstate, ?_, ?_, hstore,
    fun vin => (signrawtransaction_fetch_eq E σ vin).2,
    fun fGivenKeys σ1 c ks => signrawtransaction_prevTxs_node_dummy E fGivenKeys params σ1 c ks,
    fun keystore txVariants nHashType is σ1 c st =>
      signrawtransaction_loop_node_dummy E keystore txVariants nHashType is σ1 c st,
    signrawtransaction_node_result E σ pwalletMain params fHelp⟩
  · intro txid
    have := congrArg (fun s : NodeState => s.pcoinsTip txid) hstate
    exact this
  · intro txid
    rcases hfilled.2.2.2.2.2 txid with h | ⟨hmem, hmp, hnone, hcopy⟩
    · exact Or.inl h
    · exact Or.inr ⟨hmp, hnone, hcopy, hids txid hmem⟩

theorem signrawtransaction_store_frame_witness :
    (signrawtransaction_node Externals.reference scenarioStore none scenarioSignParams
        false).1 = .ok (some scenarioSignResult) ∧
    (signrawtransaction_node Externals.reference scenarioStore none scenarioSignParams
        false).2.pcoinsTip.cacheCoins 5 = none ∧
    (signrawtransaction_node Externals.reference scenarioStore none scenarioSignParams
        false).2.pcoinsTip.cacheCoins 7 =
      some { fCoinBase := false,
             vout := [CTxOut.null, { nValue := 1, scriptPubKey := [107, 49] }],
             nHeight := 1, nVersion := 1 } ∧
    (signrawtransaction_node Externals.reference scenarioStore none scenarioSignParams
        false).2.state = scenarioStore.state ∧
    (∀ txid, (signrawtransaction_node Externals.reference scenarioStore none scenarioSignParams
        false).2.pcoinsTip.lookup txid = scenarioStore.pcoinsTip.lookup txid) ∧
    (signrawtransaction_node Externals.reference scenarioStore none scenarioSignParams
        false).1 =
      signrawtransaction Externals.reference
        (Externals.reference.viewMempoolGetCoins scenarioStore.state) none scenarioSignParams
        false :=
  ⟨by rfl, by rfl, by rfl,
   (signrawtransaction_store_frame Externals.reference scenarioStore none scenarioSignParams
     false).2.2.1,
   (signrawtransaction_store_frame Externals.reference scenarioStore none scenarioSignParams
     false).2.2.2.1,
   (signrawtransaction_store_frame Externals.reference scenarioStore none scenarioSignParams
     false).2.2.2.2.2.2.2.2.2⟩

/-- C12 (as stated) fails: on a store whose coin database holds coins of transaction 7 and
whose chain view holds no entry, the call for a transaction that spends output 1 of
transaction 7 returns a result, and afterwards the layer of the chain view holds the coins
of transaction 7: the result of the lookup of line 640 was written to the chain view as well
as to the request-local view, and the chain view is not as it was. -/
theorem signrawtransaction_store_counterexample :
    scenarioStore.pcoinsTip.cacheCoins 7 = none ∧
    (∃ result, (signrawtransaction_node Externals.reference scenarioStore none
        [VSTR scenarioOneInputHex] false).1 = .ok (some result)) ∧
    (signrawtransaction_node Externals.reference scenarioStore none
        [VSTR scenarioOneInputHex] false).2.pcoinsTip.cacheCoins 7 =
      some { fCoinBase := false,
             vout := [CTxOut.null, { nValue := 1, scriptPubKey := [107, 49] }],
             nHeight := 1, nVersion := 1 } ∧
    (signrawtransaction_fetch Externals.reference scenarioStore
        scenarioOneInputTx.vin).2.cacheCoins 7 =
      some { fCoinBase := false,
             vout := [CTxOut.null, { nValue := 1, scriptPubKey := [107, 49] }],
             nHeight := 1, nVersion := 1 } ∧
    (signrawtransaction_node Externals.reference scenarioStore none
        [VSTR scenarioOneInputHex] false).2.pcoinsTip.cacheCoins ≠
      scenarioStore.pcoinsTip.cacheCoins := by
  refine ⟨by rfl, ⟨_, by rfl⟩, by rfl, by rfl, ?_⟩
  intro h
  have h7 := congrFun h 7
  revert h7
  rw [show (signrawtransaction_node Externals.reference scenarioStore none
        [VSTR scenarioOneInputHex] false).2.pcoinsTip.cacheCoins 7 =
      some { fCoinBase := false,
             vout := [CTxOut.null, { nValue := 1, scriptPubKey := [107, 49] }],
             nHeight := 1, nVersion := 1 } from by rfl]
  rw [show scenarioStore.pcoinsTip.cacheCoins 7 = none from by rfl]
  exact fun h => Option.noConfusion h

/-! ## sendrawtransaction -/

/-- A call whose arguments decode to the transaction `tx` and the flag `fOverrideFees`
submits that transaction. -/
theorem sendrawtransaction_decoded (E : Externals) (σ : NodeState) (params : List UniValue)
    (strHexTx : String) (tx : CTransaction) (fOverrideFees : Bool)
    (hlen : 1 ≤ params.length ∧ params.length ≤ 2)
    (hT : E.RPCTypeCheck params [.VSTR, .VBOOL] false = .ok ())
    (hstr : (paramAt params 0).get_str = .ok strHexTx)
    (hdec : E.DecodeHexTx strHexTx = some tx)
    (hfee : if params.length > 1 then (paramAt params 1).get_bool = .ok fOverrideFees
            else fOverrideFees = false) :
    sendrawtransaction E σ params false = sendrawtransaction_submit E σ tx fOverrideFees := by
  unfold sendrawtransaction
  simp only
  have hhelp : ¬ (false = true ∨ params.length < 1 ∨ params.length > 2) := by
    rintro (h | h | h)
    · cases h
    · omega
    · omega
  rw [if_neg hhelp, hT]
  simp only [hstr, hdec]
  by_cases h1 : params.length > 1
  · rw [if_pos h1] at hfee
    rw [if_pos h1, hfee]
  · rw [if_neg h1] at hfee
    rw [if_neg h1, hfee]

/-- C13: A call of `sendrawtransaction` whose arguments decode to a transaction that
the mempool already holds, and for which the chain view has no coins below height
1000000000, returns the hex of the hash of the decoded transaction; it makes no call of
`AcceptToMemoryPool`, leaves the node state (so the mempool) as it was, and hands the
transaction to relay. -/
theorem sendrawtransaction_in_mempool (E : Externals) (σ : NodeState) (params : List UniValue)
    (strHexTx : String) (tx : CTransaction) (fOverrideFees : Bool)
    (hlen : 1 ≤ params.length ∧ params.length ≤ 2)
    (hT : E.RPCTypeCheck params [.VSTR, .VBOOL] false = .ok ())
    (hstr : (paramAt params 0).get_str = .ok strHexTx)
    (hdec : E.DecodeHexTx strHexTx = some tx)
    (hfee : if params.length > 1 then (paramAt params 1).get_bool = .ok fOverrideFees
            else fOverrideFees = false)
    (hmem : (σ.mempool (E.GetHash tx)).isSome = true)
    (hchain : ∀ coins, σ.pcoinsTip (E.GetHash tx) = some coins →
      ¬ coins.nHeight < 1000000000) :
    sendrawtransaction E σ params false =
      { result := .ok (VSTR (E.hashToString (E.GetHash tx))),
        node := σ, admissions := [], relayed := [tx] } := by
  rw [sendrawtransaction_decoded E σ params strHexTx tx fOverrideFees hlen hT hstr hdec hfee]
  unfold sendrawtransaction_submit
  simp only [hmem]
  have hfalse : (match σ.pcoinsTip (E.GetHash tx) with
      | some coins => decide (coins.nHeight < 1000000000)
      | none => false) = false := by
    cases hc : σ.pcoinsTip (E.GetHash tx) with
    | none => rfl
    | some coins => simpa using hchain coins hc
  rw [hfalse]
  simp

theorem sendrawtransaction_in_mempool_witness :
    sendrawtransaction Externals.reference scenarioMempoolNode [VSTR scenarioOneInputHex] false =
      { result := .ok (VSTR (Externals.reference.hashToString
          (Externals.reference.GetHash scenarioOneInputTx))),
        node := scenarioMempoolNode, admissions := [], relayed := [scenarioOneInputTx] } :=
  sendrawtransaction_in_mempool Externals.reference scenarioMempoolNode
    [VSTR scenarioOneInputHex] scenarioOneInputHex scenarioOneInputTx false
    (by decide) (by rfl) (by rfl) (by rfl) (by rfl) (by rfl)
    (fun coins h => by cases h)

/-- C14: A call of `sendrawtransaction` whose arguments decode to a transaction for
which the chain view holds coins with height below 1000000000 throws
`RPC_TRANSACTION_ALREADY_IN_CHAIN`, whether or not the mempool holds the transaction; it
makes no call of `AcceptToMemoryPool`, hands nothing to relay and leaves the node state as
it was. -/
theorem sendrawtransaction_in_chain (E : Externals) (σ : NodeState) (params : List UniValue)
    (strHexTx : String) (tx : CTransaction) (fOverrideFees : Bool) (coins : CCoins)
    (hlen : 1 ≤ params.length ∧ params.length ≤ 2)
    (hT : E.RPCTypeCheck params [.VSTR, .VBOOL] false = .ok ())
    (hstr : (paramAt params 0).get_str = .ok strHexTx)
    (hdec : E.DecodeHexTx strHexTx = some tx)
    (hfee : if params.length > 1 then (paramAt params 1).get_bool = .ok fOverrideFees
            else fOverrideFees = false)
    (hcoins : σ.pcoinsTip (E.GetHash tx) = some coins)
    (hheight : coins.nHeight < 1000000000) :
    sendrawtransaction E σ params false =
      { result := .error (.JSONRPCError .RPC_TRANSACTION_ALREADY_IN_CHAIN
          "transaction already in block chain"),
        node := σ, admissions := [], relayed := [] } := by
  rw [sendrawtransaction_decoded E σ params strHexTx tx fOverrideFees hlen hT hstr hdec hfee]
  unfold sendrawtransaction_submit
  simp only [hcoins, decide_eq_true hheight]
  simp

theorem sendrawtransaction_in_chain_witness :
    sendrawtransaction Externals.reference scenarioChainNode
        [VSTR scenarioOneInputHex, VBOOL true] false =
      { result := .error (.JSONRPCError .RPC_TRANSACTION_ALREADY_IN_CHAIN
          "transaction already in block chain"),
        node := scenarioChainNode, admissions := [], relayed := [] } :=
  sendrawtransaction_in_chain Externals.reference scenarioChainNode
    [VSTR scenarioOneInputHex, VBOOL true] scenarioOneInputHex scenarioOneInputTx true
    { fCoinBase := false, vout := [{ nValue := 1, scriptPubKey := [81] }],
      nHeight := 100, nVersion := 1 }
    (by decide) (by rfl) (by rfl) (by rfl) (by rfl) (by rfl) (by decide)

/-- C15: A call of `sendrawtransaction` whose arguments decode to a transaction that
is neither in the mempool nor detected on chain makes exactly one call of
`AcceptToMemoryPool`, with `fRejectAbsurdFee` the negation of the second argument (false
when there is none).  When that call fails, the handler throws and hands nothing to relay:
`RPC_TRANSACTION_REJECTED` with the message made of the reject code, a colon and a blank, and
the reject reason when the validation state is invalid, otherwise `RPC_TRANSACTION_ERROR`
with `Missing inputs` when inputs are missing, otherwise `RPC_TRANSACTION_ERROR` with the
reject reason.  When the call succeeds the hash is returned and the transaction relayed. -/
theorem sendrawtransaction_admission (E : Externals) (σ : NodeState) (params : List UniValue)
    (strHexTx : String) (tx : CTransaction) (fOverrideFees : Bool)
    (hlen : 1 ≤ params.length ∧ params.length ≤ 2)
    (hT : E.RPCTypeCheck params [.VSTR, .VBOOL] false = .ok ())
    (hstr : (paramAt params 0).get_str = .ok strHexTx)
    (hdec : E.DecodeHexTx strHexTx = some tx)
    (hfee : if params.length > 1 then (paramAt params 1).get_bool = .ok fOverrideFees
            else fOverrideFees = false)
    (hmem : σ.mempool (E.GetHash tx) = none)
    (hchain : ∀ coins, σ.pcoinsTip (E.GetHash tx) = some coins →
      ¬ coins.nHeight < 1000000000) :
    (sendrawtransaction E σ params false).admissions = [(tx, false, false, !fOverrideFees)] ∧
    (sendrawtransaction E σ params false).node =
      (E.AcceptToMemoryPool σ tx false false (!fOverrideFees)).node ∧
    ((E.AcceptToMemoryPool σ tx false false (!fOverrideFees)).fAccepted = false →
      (sendrawtransaction E σ params false).result =
        .error (admissionError (E.AcceptToMemoryPool σ tx false false (!fOverrideFees)).state
          (E.AcceptToMemoryPool σ tx false false (!fOverrideFees)).fMissingInputs) ∧
      (sendrawtransaction E σ params false).relayed = []) ∧
    ((E.AcceptToMemoryPool σ tx false false (!fOverrideFees)).fAccepted = true →
      (sendrawtransaction E σ params false).result =
        .ok (VSTR (E.hashToString (E.GetHash tx))) ∧
      (sendrawtransaction E σ params false).relayed = [tx]) := by
  rw [sendrawtransaction_decoded E σ params strHexTx tx fOverrideFees hlen hT hstr hdec hfee]
  unfold sendrawtransaction_submit
  have hfalse : (match σ.pcoinsTip (E.GetHash tx) with
      | some coins => decide (coins.nHeight < 1000000000)
      | none => false) = false := by
    cases hc : σ.pcoinsTip (E.GetHash tx) with
    | none => rfl
    | some coins => simpa using hchain coins hc
  simp only [hmem, hfalse]
  unfold admissionError
  cases ha : (E.AcceptToMemoryPool σ tx false false (!fOverrideFees)).fAccepted <;>
    cases hi : (E.AcceptToMemoryPool σ tx false false (!fOverrideFees)).state.fInvalid <;>
    cases hm : (E.AcceptToMemoryPool σ tx false false (!fOverrideFees)).fMissingInputs <;>
    simp [ha, hi, hm]

theorem sendrawtransaction_admission_witness :
    ((sendrawtransaction Externals.reference scenarioEmptyNode
        [VSTR scenarioNoInputHex, VBOOL true] false).result =
      .error (.JSONRPCError .RPC_TRANSACTION_REJECTED "16: bad-txns-vin-empty")) ∧
    ((sendrawtransaction Externals.reference scenarioEmptyNode
        [VSTR scenarioNoInputHex, VBOOL true] false).admissions =
      [(scenarioNoInputTx, false, false, !true)] ∧
    (sendrawtransaction Externals.reference scenarioEmptyNode
        [VSTR scenarioNoInputHex, VBOOL true] false).node =
      (Externals.reference.AcceptToMemoryPool scenarioEmptyNode scenarioNoInputTx false false
        (!true)).node ∧
    ((Externals.reference.AcceptToMemoryPool scenarioEmptyNode scenarioNoInputTx false false
        (!true)).fAccepted = false →
      (sendrawtransaction Externals.reference scenarioEmptyNode
          [VSTR scenarioNoInputHex, VBOOL true] false).result =
        .error (admissionError
          (Externals.reference.AcceptToMemoryPool scenarioEmptyNode scenarioNoInputTx false
            false (!true)).state
          (Externals.reference.AcceptToMemoryPool scenarioEmptyNode scenarioNoInputTx false
            false (!true)).fMissingInputs) ∧
      (sendrawtransaction Externals.reference scenarioEmptyNode
          [VSTR scenarioNoInputHex, VBOOL true] false).relayed = []) ∧
    ((Externals.reference.AcceptToMemoryPool scenarioEmptyNode scenarioNoInputTx false false
        (!true)).fAccepted = true →
      (sendrawtransaction Externals.reference scenarioEmptyNode
          [VSTR scenarioNoInputHex, VBOOL true] false).result =
        .ok (VSTR (Externals.reference.hashToString
          (Externals.reference.GetHash scenarioNoInputTx))) ∧
      (sendrawtransaction Externals.reference scenarioEmptyNode
          [VSTR scenarioNoInputHex, VBOOL true] false).relayed = [scenarioNoInputTx])) :=
  ⟨by rfl,
   sendrawtransaction_admission Externals.reference scenarioEmptyNode
     [VSTR scenarioNoInputHex, VBOOL true] scenarioNoInputHex scenarioNoInputTx true
     (by decide) (by rfl) (by rfl) (by rfl) (by rfl) (by rfl) (fun coins h => by cases h)⟩

/-- On the reference instance a transaction with an unknown input is refused for missing
inputs, and one admitted to the mempool is relayed. -/
theorem sendrawtransaction_missing_inputs_example :
    (sendrawtransaction Externals.reference scenarioEmptyNode [VSTR scenarioOneInputHex]
        false).result = .error (.JSONRPCError .RPC_TRANSACTION_ERROR "Missing inputs") ∧
    (sendrawtransaction Externals.reference scenarioEmptyNode [VSTR scenarioOneInputHex]
        false).admissions = [(scenarioOneInputTx, false, false, true)] ∧
    (sendrawtransaction Externals.reference scenarioEmptyNode [VSTR scenarioOneInputHex]
        false).relayed = [] :=
  ⟨by rfl, by rfl, by rfl⟩

/-! ## gettxoutproof: the requested transaction ids -/

/-- The loop over an array of strings either throws `RPC_INVALID_PARAMETER`, or every string
is 64 bytes of hex, the hashes are pairwise different and new to the set, and the loop ends
with the hashes added to the set and `oneTxid` the last of them. -/
theorem gettxoutproof_txids_strings (E : Externals) (strs : List String) :
    ∀ st : List uint256 × uint256,
      (∃ msg, gettxoutproof_txids E (strs.map VSTR) st =
        .error (.JSONRPCError .RPC_INVALID_PARAMETER msg)) ∨
      (gettxoutproof_txids E (strs.map VSTR) st =
          .ok (st.1 ++ strs.map E.uint256S, ((strs.map E.uint256S).getLast?).getD st.2) ∧
        (∀ s ∈ strs, s.utf8ByteSize = 64 ∧ E.IsHex s = true) ∧
        (∀ h ∈ strs.map E.uint256S, h ∉ st.1) ∧
        (strs.map E.uint256S).Nodup) := by
  induction strs with
  | nil =>
    intro st
    right
    refine ⟨?_, ?_, ?_, ?_⟩
    · simp [gettxoutproof_txids]
    · intro s hs; cases hs
    · intro h hh; cases hh
    · exact List.nodup_nil
  | cons s rest ih =>
    intro st
    rw [List.map_cons]
    unfold gettxoutproof_txids
    simp only [UniValue.get_str]
    by_cases hbad : s.utf8ByteSize ≠ 64 ∨ (!E.IsHex s) = true
    · left
      rw [if_pos hbad]
      exact ⟨_, rfl⟩
    · rw [if_neg hbad]
      by_cases hdup : E.uint256S s ∈ st.1
      · left
        rw [if_pos hdup]
        exact ⟨_, rfl⟩
      · rw [if_neg hdup]
        rcases ih (st.1 ++ [E.uint256S s], E.uint256S s) with ⟨msg, hmsg⟩ | ⟨hok, hvalid, hnew, hnd⟩
        · left
          exact ⟨msg, hmsg⟩
        · right
          have hs : s.utf8ByteSize = 64 ∧ E.IsHex s = true := by
            constructor
            · by_contra hne
              exact hbad (Or.inl hne)
            · cases hx : E.IsHex s with
              | true => rfl
              | false => exact absurd (Or.inr (by simp [hx])) hbad
          refine ⟨?_, ?_, ?_, ?_⟩
          · rw [hok]
            simp only [List.map_cons, List.append_assoc, List.singleton_append,
              List.getLast?_cons, Option.getD_some]
          · intro s' hs'
            rcases List.mem_cons.1 hs' with h | h
            · rw [h]; exact hs
            · exact hvalid s' h
          · intro h hh
            rcases List.mem_cons.1 hh with h1 | h1
            · rw [h1]; exact hdup
            · intro hmem
              exact hnew h h1 (List.mem_append_left _ hmem)
          · rw [List.map_cons, List.nodup_cons]
            refine ⟨?_, hnd⟩
            intro hmem
            exact hnew _ hmem (List.mem_append_right _ (List.mem_singleton_self _))

/-- The set the loop ends with has no element twice. -/
theorem gettxoutproof_txids_nodup (E : Externals) (txids : List UniValue) :
    ∀ st st' : List uint256 × uint256, st.1.Nodup →
      gettxoutproof_txids E txids st = .ok st' → st'.1.Nodup := by
  induction txids with
  | nil =>
    intro st st' hnd h
    unfold gettxoutproof_txids at h
    cases h
    exact hnd
  | cons txid rest ih =>
    intro st st' hnd h
    unfold gettxoutproof_txids at h
    split at h
    · cases h
    · split at h
      · cases h
      · simp only at h
        split at h
        · cases h
        · rename_i hnew
          refine ih _ st' ?_ h
          simp only
          rw [List.nodup_append]
          refine ⟨hnd, List.nodup_singleton _, ?_⟩
          intro a ha hb
          rw [List.mem_singleton] at hb
          rw [hb] at ha
          exact hnew ha

/-- C16: A call of `gettxoutproof` with one or two arguments whose first argument is
an array of strings throws `RPC_INVALID_PARAMETER` whenever one of the strings is not 64
bytes long or not hexadecimal, and whenever two of the strings (at different positions) denote
the same 256-bit hash; the error is the same on every node state, so it is raised before the
chain, the block index or a block is consulted. -/
theorem gettxoutproof_invalid_txids (E : Externals) (params : List UniValue)
    (strs : List String)
    (hlen : params.length = 1 ∨ params.length = 2)
    (harr : paramAt params 0 = VARR (strs.map VSTR))
    (hbad : (∃ s ∈ strs, s.utf8ByteSize ≠ 64 ∨ E.IsHex s = false) ∨
      ¬ (strs.map E.uint256S).Nodup) :
    ∃ msg, ∀ σ : NodeState,
      gettxoutproof E σ params false = .error (.JSONRPCError .RPC_INVALID_PARAMETER msg) := by
  have hhelp : ¬ (false = true ∨ (params.length ≠ 1 ∧ params.length ≠ 2)) := by
    rintro (h | ⟨h1, h2⟩)
    · cases h
    · rcases hlen with h | h
      · exact h1 h
      · exact h2 h
  rcases gettxoutproof_txids_strings E strs ([], 0) with ⟨msg, hmsg⟩ | ⟨-, hvalid, -, hnd⟩
  · refine ⟨msg, fun σ => ?_⟩
    unfold gettxoutproof
    rw [if_neg hhelp, harr]
    simp only [UniValue.get_array, hmsg]
  · exfalso
    rcases hbad with ⟨s, hs, hne | hhex⟩ | hdup
    · exact hne (hvalid s hs).1
    · rw [(hvalid s hs).2] at hhex
      cases hhex
    · exact hdup hnd

theorem gettxoutproof_invalid_txids_witness :
    (gettxoutproof Externals.reference scenarioEmptyNode
        [VARR [VSTR scenarioTxidLower, VSTR scenarioTxidUpper]] false =
      .error (.JSONRPCError .RPC_INVALID_PARAMETER
        ("Invalid parameter, duplicated txid: " ++ scenarioTxidUpper))) ∧
    ∃ msg, ∀ σ : NodeState,
      gettxoutproof Externals.reference σ
          [VARR [VSTR scenarioTxidLower, VSTR scenarioTxidUpper]] false =
        .error (.JSONRPCError .RPC_INVALID_PARAMETER msg) :=
  ⟨by rfl,
   gettxoutproof_invalid_txids Externals.reference
     [VARR [VSTR scenarioTxidLower, VSTR scenarioTxidUpper]]
     [scenarioTxidLower, scenarioTxidUpper] (Or.inl rfl) (by rfl)
     (Or.inr (fun h => (List.nodup_cons.1 h).1 (List.mem_singleton.2 (by rfl))))⟩

/-! ## gettxoutproof: the transactions found in the block -/

/-- For two lists without repetition, as many elements of the first are members of the
second as the second is long exactly when every element of the second is in the first. -/
theorem filter_mem_length_eq_iff {α : Type} [DecidableEq α] (L S : List α) (hL : L.Nodup)
    (hS : S.Nodup) :
    (L.filter (fun x => decide (x ∈ S))).length = S.length ↔ ∀ x ∈ S, x ∈ L := by
  have hF : (L.filter (fun x => decide (x ∈ S))).Nodup := List.Nodup.filter _ hL
  have hsub : L.filter (fun x => decide (x ∈ S)) ⊆ S := by
    intro x hx
    have := (List.mem_filter.1 hx).2
    simpa using this
  have hsp := List.subperm_of_subset hF hsub
  constructor
  · intro hlen x hx
    have hperm := hsp.perm_of_length_le (le_of_eq hlen.symm)
    have hx' := hperm.symm.subset hx
    exact (List.mem_filter.1 hx').1
  · intro hall
    have hsub' : S ⊆ L.filter (fun x => decide (x ∈ S)) := by
      intro x hx
      exact List.mem_filter.2 ⟨hall x hx, by simpa using hx⟩
    have hsp' := List.subperm_of_subset hS hsub'
    exact le_antisymm hsp.length_le hsp'.length_le

theorem filter_hash_length (E : Externals) (vtx : List CTransaction) (S : List uint256) :
    (vtx.filter (fun tx => decide (E.GetHash tx ∈ S))).length =
      ((vtx.map E.GetHash).filter (fun h => decide (h ∈ S))).length := by
  rw [List.filter_map, List.length_map]
  rfl

/-- A call whose transaction ids, block index entry and block are as given returns what
lines 271-283 return for the block and the set. -/
theorem gettxoutproof_resolved (E : Externals) (σ : NodeState) (params : List UniValue)
    (txids : List UniValue) (setTxids : List uint256) (oneTxid : uint256)
    (pblockindex : CBlockIndex) (block : CBlock)
    (hlen : params.length = 1 ∨ params.length = 2)
    (harr : (paramAt params 0).get_array = .ok txids)
    (htx : gettxoutproof_txids E txids ([], 0) = .ok (setTxids, oneTxid))
    (hidx : gettxoutproof_blockindex E σ params oneTxid = .ok pblockindex)
    (hread : σ.blockFiles pblockindex = some block) :
    gettxoutproof E σ params false = gettxoutproof_proof E block setTxids := by
  have hhelp : ¬ (false = true ∨ (params.length ≠ 1 ∧ params.length ≠ 2)) := by
    rintro (h | ⟨h1, h2⟩)
    · cases h
    · rcases hlen with h | h
      · exact h1 h
      · exact h2 h
  unfold gettxoutproof
  rw [if_neg hhelp, harr]
  simp only [htx, hidx, hread]

/-- Once the transaction ids are parsed and the block is resolved and
read (a block of fewer than 2^32 transactions), `gettxoutproof` returns a proof, the hex of
the serialized Merkle block built from the block and the set, exactly when the number of
transactions of the block whose hash is requested equals the number of requested ids;
otherwise it throws `RPC_INVALID_ADDRESS_OR_KEY` with the message that not all transactions
were found.  When the hashes of the transactions of the block are pairwise different, the
two numbers are equal exactly when every requested id is the hash of a transaction of the
block. -/
theorem gettxoutproof_found_count (E : Externals) (σ : NodeState) (params : List UniValue)
    (txids : List UniValue) (setTxids : List uint256) (oneTxid : uint256)
    (pblockindex : CBlockIndex) (block : CBlock)
    (hlen : params.length = 1 ∨ params.length = 2)
    (harr : (paramAt params 0).get_array = .ok txids)
    (htx : gettxoutproof_txids E txids ([], 0) = .ok (setTxids, oneTxid))
    (hidx : gettxoutproof_blockindex E σ params oneTxid = .ok pblockindex)
    (hread : σ.blockFiles pblockindex = some block)
    (hsize : block.vtx.length < 4294967296) :
    ((block.vtx.filter (fun tx => decide (E.GetHash tx ∈ setTxids))).length = setTxids.length →
      gettxoutproof E σ params false =
        .ok (VSTR (E.HexStr (E.serializeMerkleBlock (E.buildMerkleBlock block setTxids))))) ∧
    ((block.vtx.filter (fun tx => decide (E.GetHash tx ∈ setTxids))).length ≠ setTxids.length →
      gettxoutproof E σ params false =
        .error (.JSONRPCError .RPC_INVALID_ADDRESS_OR_KEY
          "(Not all) transactions not found in specified block")) ∧
    ((block.vtx.map E.GetHash).Nodup →
      ((block.vtx.filter (fun tx => decide (E.GetHash tx ∈ setTxids))).length =
          setTxids.length ↔
        ∀ h ∈ setTxids, ∃ tx ∈ block.vtx, E.GetHash tx = h)) := by
  rw [gettxoutproof_resolved E σ params txids setTxids oneTxid pblockindex block hlen harr htx
    hidx hread]
  have hcount : gettxoutproof_ntxFound E block setTxids =
      (block.vtx.filter (fun tx => decide (E.GetHash tx ∈ setTxids))).length := by
    unfold gettxoutproof_ntxFound
    apply Nat.mod_eq_of_lt
    exact lt_of_le_of_lt (List.length_filter_le _ _) hsize
  have hnd : setTxids.Nodup :=
    gettxoutproof_txids_nodup E txids ([], 0) (setTxids, oneTxid) List.nodup_nil htx
  refine ⟨?_, ?_, ?_⟩
  · intro heq
    unfold gettxoutproof_proof
    rw [hcount, if_neg (not_not.2 heq)]
  · intro hne
    unfold gettxoutproof_proof
    rw [hcount, if_pos hne]
  · intro hblock
    rw [filter_hash_length, filter_mem_length_eq_iff _ _ hblock hnd]
    constructor
    · intro hall h hh
      obtain ⟨tx, htxm, htxh⟩ := List.mem_map.1 (hall h hh)
      exact ⟨tx, htxm, htxh⟩
    · intro hall h hh
      obtain ⟨tx, htxm, htxh⟩ := hall h hh
      exact List.mem_map.2 ⟨tx, htxm, htxh⟩

theorem gettxoutproof_found_count_example :
    (gettxoutproof Externals.reference (scenarioBlockNode scenarioBlock)
        [VARR [VSTR scenarioOneInputTxid]] false = .ok (VSTR scenarioProofHex)) ∧
    (((scenarioBlock.vtx.filter (fun tx => decide (Externals.reference.GetHash tx ∈
          [Externals.reference.GetHash scenarioOneInputTx]))).length =
        [Externals.reference.GetHash scenarioOneInputTx].length →
      gettxoutproof Externals.reference (scenarioBlockNode scenarioBlock)
          [VARR [VSTR scenarioOneInputTxid]] false =
        .ok (VSTR (Externals.reference.HexStr (Externals.reference.serializeMerkleBlock
          (Externals.reference.buildMerkleBlock scenarioBlock
            [Externals.reference.GetHash scenarioOneInputTx]))))) ∧
    ((scenarioBlock.vtx.filter (fun tx => decide (Externals.reference.GetHash tx ∈
          [Externals.reference.GetHash scenarioOneInputTx]))).length ≠
        [Externals.reference.GetHash scenarioOneInputTx].length →
      gettxoutproof Externals.reference (scenarioBlockNode scenarioBlock)
          [VARR [VSTR scenarioOneInputTxid]] false =
        .error (.JSONRPCError .RPC_INVALID_ADDRESS_OR_KEY
          "(Not all) transactions not found in specified block")) ∧
    ((scenarioBlock.vtx.map Externals.reference.GetHash).Nodup →
      ((scenarioBlock.vtx.filter (fun tx => decide (Externals.reference.GetHash tx ∈
          [Externals.reference.GetHash scenarioOneInputTx]))).length =
          [Externals.reference.GetHash scenarioOneInputTx].length ↔
        ∀ h ∈ [Externals.reference.GetHash scenarioOneInputTx],
          ∃ tx ∈ scenarioBlock.vtx, Externals.reference.GetHash tx = h))) :=
  ⟨by rfl,
   gettxoutproof_found_count Externals.reference (scenarioBlockNode scenarioBlock)
     [VARR [VSTR scenarioOneInputTxid]] [VSTR scenarioOneInputTxid]
     [Externals.reference.GetHash scenarioOneInputTx]
     (Externals.reference.GetHash scenarioOneInputTx) scenarioBlockIndex scenarioBlock
     (Or.inl rfl) (by rfl) (by rfl) (by rfl) (by rfl) (by decide)⟩

/-- C17 does not hold of the code: lines 272-276 count the transactions of the block whose
hash is in the set and compare the count with the size of the set, where the comment of line
276 and the error message say that every requested transaction must be found.  The block
`scenarioRepeatBlock`, stored by the node off the active chain and named by its hash in the
call, lists the transaction `scenarioSpendA` twice: asked for that one transaction, which is
in the block, the call counts 2 against a set of size 1 and throws; asked for it and for an id
that no transaction of the block has, the call counts 2 against a set of size 2 and returns
a proof. -/
theorem gettxoutproof_repeated_transaction :
    ((paramAt [VARR [VSTR scenarioSpendATxid], VSTR scenarioRepeatBlockHashHex] 0).get_array =
        .ok [VSTR scenarioSpendATxid] ∧
      gettxoutproof_txids Externals.reference [VSTR scenarioSpendATxid] ([], 0) =
        .ok ([Externals.reference.GetHash scenarioSpendA],
          Externals.reference.GetHash scenarioSpendA) ∧
      gettxoutproof_blockindex Externals.reference scenarioRepeatNode
        [VARR [VSTR scenarioSpendATxid], VSTR scenarioRepeatBlockHashHex]
        (Externals.reference.GetHash scenarioSpendA) = .ok scenarioRepeatIndex ∧
      scenarioRepeatNode.chainActive.Contains scenarioRepeatIndex = false ∧
      scenarioRepeatNode.blockFiles scenarioRepeatIndex = some scenarioRepeatBlock ∧
      (∀ h ∈ [Externals.reference.GetHash scenarioSpendA],
        ∃ tx ∈ scenarioRepeatBlock.vtx, Externals.reference.GetHash tx = h) ∧
      gettxoutproof_ntxFound Externals.reference scenarioRepeatBlock
        [Externals.reference.GetHash scenarioSpendA] = 2 ∧
      gettxoutproof Externals.reference scenarioRepeatNode
          [VARR [VSTR scenarioSpendATxid], VSTR scenarioRepeatBlockHashHex] false =
        .error (.JSONRPCError .RPC_INVALID_ADDRESS_OR_KEY
          "(Not all) transactions not found in specified block")) ∧
    (gettxoutproof_txids Externals.reference
        [VSTR scenarioTxidLower, VSTR scenarioSpendATxid] ([], 0) =
        .ok ([Externals.reference.uint256S scenarioTxidLower,
              Externals.reference.GetHash scenarioSpendA],
          Externals.reference.GetHash scenarioSpendA) ∧
      (¬ ∃ tx ∈ scenarioRepeatBlock.vtx,
        Externals.reference.GetHash tx = Externals.reference.uint256S scenarioTxidLower) ∧
      ∃ strHex, gettxoutproof Externals.reference scenarioRepeatNode
          [VARR [VSTR scenarioTxidLower, VSTR scenarioSpendATxid],
           VSTR scenarioRepeatBlockHashHex] false =
        .ok (VSTR strHex)) := by
  refine ⟨⟨by rfl, by rfl, by rfl, by rfl, by rfl, ?_, by rfl, by rfl⟩, by rfl, ?_,
    ⟨_, by rfl⟩⟩
  · intro h hh
    rw [List.mem_singleton] at hh
    subst hh
    exact ⟨scenarioSpendA, by simp [scenarioRepeatBlock], by rfl⟩
  · rintro ⟨tx, htx, hh⟩
    simp only [scenarioRepeatBlock, List.mem_cons, List.mem_singleton, List.not_mem_nil,
      or_false] at htx
    rcases htx with rfl | rfl | rfl | rfl <;> revert hh <;> decide

/-! ## gettxoutproof: the block that is read -/

theorem CChain.atHeight_some (chain : CChain) (nHeight : Int) (h0 : 0 < nHeight)
    (h1 : nHeight ≤ chain.Height) :
    ∃ pindex, chain[nHeight.toNat]? = some pindex ∧ chain.atHeight nHeight = some pindex := by
  unfold CChain.Height at h1
  have hlt : nHeight.toNat < chain.length := by omega
  refine ⟨chain[nHeight.toNat], List.getElem?_eq_getElem hlt, ?_⟩
  unfold CChain.atHeight
  rw [if_neg (by omega), List.getElem?_eq_getElem hlt]

/-- C18: The block `gettxoutproof` reads is selected in this order.  (a) With a
second argument, the block index entry of the hash it denotes is taken, and an unknown hash
throws `Block not found`, whatever the chain view and the transaction lookup hold.
(b) Without a second argument, when the chain view has coins of `oneTxid` with
`0 < nHeight` and `nHeight` at most the height of the active chain, the entry of the active
chain at that height is taken.  (c) Otherwise the transaction lookup decides: nothing found
or a null block hash throws `Transaction not yet in block`, a block hash unknown to the
block index throws `Transaction index corrupt`, and else the entry of that hash is taken.
For an array of strings, `oneTxid` is the hash of the last string (the null hash for an empty
array), and the handler reads the block of the entry selected for it. -/
theorem gettxoutproof_block_priority (E : Externals) (σ : NodeState) (params : List UniValue)
    (oneTxid : uint256) :
    (params.length > 1 → ∀ str, (paramAt params 1).get_str = .ok str →
      (σ.mapBlockIndex (E.uint256S str) = none →
        gettxoutproof_blockindex E σ params oneTxid =
          .error (.JSONRPCError .RPC_INVALID_ADDRESS_OR_KEY "Block not found")) ∧
      (∀ pblockindex, σ.mapBlockIndex (E.uint256S str) = some pblockindex →
        gettxoutproof_blockindex E σ params oneTxid = .ok pblockindex)) ∧
    (¬ params.length > 1 → ∀ coins, σ.pcoinsTip oneTxid = some coins →
      0 < coins.nHeight → coins.nHeight ≤ σ.chainActive.Height →
      ∃ pblockindex, σ.chainActive[coins.nHeight.toNat]? = some pblockindex ∧
        gettxoutproof_blockindex E σ params oneTxid = .ok pblockindex) ∧
    (¬ params.length > 1 →
      (∀ coins, σ.pcoinsTip oneTxid = some coins →
        ¬ (0 < coins.nHeight ∧ coins.nHeight ≤ σ.chainActive.Height)) →
      (E.GetTransaction σ oneTxid false = none →
        gettxoutproof_blockindex E σ params oneTxid =
          .error (.JSONRPCError .RPC_INVALID_ADDRESS_OR_KEY "Transaction not yet in block")) ∧
      (∀ tx, E.GetTransaction σ oneTxid false = some (tx, 0) →
        gettxoutproof_blockindex E σ params oneTxid =
          .error (.JSONRPCError .RPC_INVALID_ADDRESS_OR_KEY "Transaction not yet in block")) ∧
      (∀ tx hashBlock, E.GetTransaction σ oneTxid false = some (tx, hashBlock) →
        hashBlock ≠ 0 → σ.mapBlockIndex hashBlock = none →
        gettxoutproof_blockindex E σ params oneTxid =
          .error (.JSONRPCError .RPC_INTERNAL_ERROR "Transaction index corrupt")) ∧
      (∀ tx hashBlock pblockindex, E.GetTransaction σ oneTxid false = some (tx, hashBlock) →
        hashBlock ≠ 0 → σ.mapBlockIndex hashBlock = some pblockindex →
        gettxoutproof_blockindex E σ params oneTxid = .ok pblockindex)) ∧
    (∀ (strs : List String) (setTxids : List uint256) (one : uint256),
      (params.length = 1 ∨ params.length = 2) →
      paramAt params 0 = VARR (strs.map VSTR) →
      gettxoutproof_txids E (strs.map VSTR) ([], 0) = .ok (setTxids, one) →
      one = ((strs.map E.uint256S).getLast?).getD 0 ∧
      gettxoutproof E σ params false =
        match gettxoutproof_blockindex E σ params one with
        | .error e => .error e
        | .ok pblockindex =>
          match σ.blockFiles pblockindex with
          | none => .error (.JSONRPCError .RPC_INTERNAL_ERROR "Can\x27t read block from disk")
          | some block => gettxoutproof_proof E block setTxids) := by
  refine ⟨?_, ?_, ?_, ?_⟩
  · intro hlen str hstr
    refine ⟨?_, ?_⟩
    · intro hnone
      unfold gettxoutproof_blockindex gettxoutproof_select
      rw [if_pos hlen, hstr]
      simp only [hnone]
    · intro pblockindex hsome
      unfold gettxoutproof_blockindex gettxoutproof_select
      rw [if_pos hlen, hstr]
      simp only [hsome]
  · intro hlen coins hcoins h0 h1
    obtain ⟨pblockindex, hget, hat⟩ := CChain.atHeight_some σ.chainActive coins.nHeight h0 h1
    refine ⟨pblockindex, hget, ?_⟩
    unfold gettxoutproof_blockindex gettxoutproof_select
    rw [if_neg hlen]
    simp only [hcoins]
    rw [if_pos ⟨h0, h1⟩, hat]
  · intro hlen hno
    have hsel : gettxoutproof_blockindex E σ params oneTxid =
        gettxoutproof_lookup E σ oneTxid := by
      unfold gettxoutproof_blockindex gettxoutproof_select
      rw [if_neg hlen]
      cases hc : σ.pcoinsTip oneTxid with
      | none => rfl
      | some coins =>
        simp only
        rw [if_neg]
        intro hcond
        exact hno coins hc ⟨hcond.1, hcond.2⟩
    rw [hsel]
    unfold gettxoutproof_lookup
    refine ⟨?_, ?_, ?_, ?_⟩
    · intro hnone
      simp only [hnone]
    · intro tx hnull
      simp only [hnull, if_true]
    · intro tx hashBlock hget hne hnone
      simp only [hget, if_neg hne, hnone]
    · intro tx hashBlock pblockindex hget hne hsome
      simp only [hget, if_neg hne, hsome]
  · intro strs setTxids one hlen harr htx
    have hhelp : ¬ (false = true ∨ (params.length ≠ 1 ∧ params.length ≠ 2)) := by
      rintro (h | ⟨h1, h2⟩)
      · cases h
      · rcases hlen with h | h
        · exact h1 h
        · exact h2 h
    refine ⟨?_, ?_⟩
    · rcases gettxoutproof_txids_strings E strs ([], 0) with ⟨msg, hmsg⟩ | ⟨hok, -, -, -⟩
      · rw [hmsg] at htx
        cases htx
      · rw [hok] at htx
        have h2 := congrArg Prod.snd (Except.ok.inj htx)
        exact h2.symm
    · unfold gettxoutproof
      rw [if_neg hhelp, harr]
      simp only [UniValue.get_array, htx]

theorem gettxoutproof_block_priority_witness :
    gettxoutproof_blockindex Externals.reference (scenarioBlockNode scenarioBlock)
        [VARR [VSTR scenarioOneInputTxid], VSTR scenarioTxidLower]
        (Externals.reference.GetHash scenarioOneInputTx) =
      .error (.JSONRPCError .RPC_INVALID_ADDRESS_OR_KEY "Block not found") ∧
    gettxoutproof_blockindex Externals.reference (scenarioBlockNode scenarioBlock)
        [VARR [VSTR scenarioOneInputTxid], VSTR scenarioBlockHashHex]
        (Externals.reference.GetHash scenarioOneInputTx) = .ok scenarioBlockIndex ∧
    (∃ pblockindex,
      (scenarioBlockNode scenarioBlock).chainActive[scenarioChainCoins.nHeight.toNat]? =
        some pblockindex ∧
      gettxoutproof_blockindex Externals.reference (scenarioBlockNode scenarioBlock)
        [VARR [VSTR scenarioOneInputTxid]]
        (Externals.reference.GetHash scenarioOneInputTx) = .ok pblockindex) ∧
    gettxoutproof_blockindex Externals.reference scenarioEmptyNode
        [VARR [VSTR scenarioOneInputTxid]]
        (Externals.reference.GetHash scenarioOneInputTx) =
      .error (.JSONRPCError .RPC_INVALID_ADDRESS_OR_KEY "Transaction not yet in block") :=
  ⟨((gettxoutproof_block_priority Externals.reference (scenarioBlockNode scenarioBlock)
      [VARR [VSTR scenarioOneInputTxid], VSTR scenarioTxidLower]
      (Externals.reference.GetHash scenarioOneInputTx)).1 (by decide) scenarioTxidLower
      (by rfl)).1 (by rfl),
   ((gettxoutproof_block_priority Externals.reference (scenarioBlockNode scenarioBlock)
      [VARR [VSTR scenarioOneInputTxid], VSTR scenarioBlockHashHex]
      (Externals.reference.GetHash scenarioOneInputTx)).1 (by decide) scenarioBlockHashHex
      (by rfl)).2 scenarioBlockIndex (by rfl),
   (gettxoutproof_block_priority Externals.reference (scenarioBlockNode scenarioBlock)
      [VARR [VSTR scenarioOneInputTxid]]
      (Externals.reference.GetHash scenarioOneInputTx)).2.1 (by decide) scenarioChainCoins
      (by rfl) (by decide) (by decide),
   ((gettxoutproof_block_priority Externals.reference scenarioEmptyNode
      [VARR [VSTR scenarioOneInputTxid]]
      (Externals.reference.GetHash scenarioOneInputTx)).2.2.1 (by decide)
      (fun coins h => by cases h)).1 (by rfl)⟩

/-! ## verifytxoutproof -/

/-- A call whose argument decodes to the Merkle block `merkleBlock`: what the handler does
after decoding. -/
theorem verifytxoutproof_decoded (E : Externals) (σ : NodeState) (params : List UniValue)
    (proof : List Nat) (merkleBlock : CMerkleBlock)
    (hlen : params.length = 1)
    (hhex : E.ParseHexV (paramAt params 0) "proof" = .ok proof)
    (hdec : E.deserializeMerkleBlock proof = some merkleBlock) :
    verifytxoutproof E σ params false =
      if (E.ExtractMatches merkleBlock.txn).1 ≠ merkleBlock.header.hashMerkleRoot then
        .ok (VARR [])
      else
        match σ.mapBlockIndex (E.headerGetHash merkleBlock.header) with
        | none => .error (.JSONRPCError .RPC_INVALID_ADDRESS_OR_KEY "Block not found in chain")
        | some pblockindex =>
          if !σ.chainActive.Contains pblockindex then
            .error (.JSONRPCError .RPC_INVALID_ADDRESS_OR_KEY "Block not found in chain")
          else
            .ok (VARR ((E.ExtractMatches merkleBlock.txn).2.map
              (fun hash => VSTR (E.hashToString hash)))) := by
  have hhelp : ¬ (false = true ∨ params.length ≠ 1) := by
    rintro (h | h)
    · cases h
    · exact h hlen
  unfold verifytxoutproof
  rw [if_neg hhelp, hhex]
  simp only [hdec]

/-- C19: A call of `verifytxoutproof` whose argument decodes to a Merkle block whose
partial Merkle tree does not reconstruct to the Merkle root of its header returns the empty
array and throws nothing, on every node state: whether the block index knows the header and
whether its block is on the active chain plays no part. -/
theorem verifytxoutproof_root_mismatch (E : Externals) (σ : NodeState)
    (params : List UniValue) (proof : List Nat) (merkleBlock : CMerkleBlock)
    (hlen : params.length = 1)
    (hhex : E.ParseHexV (paramAt params 0) "proof" = .ok proof)
    (hdec : E.deserializeMerkleBlock proof = some merkleBlock)
    (hroot : (E.ExtractMatches merkleBlock.txn).1 ≠ merkleBlock.header.hashMerkleRoot) :
    verifytxoutproof E σ params false = .ok (VARR []) := by
  rw [verifytxoutproof_decoded E σ params proof merkleBlock hlen hhex hdec, if_pos hroot]

theorem verifytxoutproof_root_mismatch_witness :
    verifytxoutproof Externals.reference (scenarioBlockNode scenarioBlock)
      [VSTR scenarioBadProofHex] false = .ok (VARR []) :=
  verifytxoutproof_root_mismatch Externals.reference (scenarioBlockNode scenarioBlock)
    [VSTR scenarioBadProofHex] _
    { scenarioMerkleBlock with
      txn := { scenarioMerkleBlock.txn with
        vHash := [4722366482869645213951, Reference.GetHash scenarioOneInputTx] } }
    rfl (by rfl) (by rfl) (by decide)

/-- C20: A call of `verifytxoutproof` whose argument decodes to a Merkle block whose
partial Merkle tree reconstructs to the Merkle root of its header throws
`RPC_INVALID_ADDRESS_OR_KEY` with the message `Block not found in chain` exactly when the
hash of the header is unknown to the block index or its entry is not on the active chain;
otherwise it returns the array of the matched hashes, in the order of extraction, each as
its hex string. -/
theorem verifytxoutproof_root_match (E : Externals) (σ : NodeState)
    (params : List UniValue) (proof : List Nat) (merkleBlock : CMerkleBlock)
    (hlen : params.length = 1)
    (hhex : E.ParseHexV (paramAt params 0) "proof" = .ok proof)
    (hdec : E.deserializeMerkleBlock proof = some merkleBlock)
    (hroot : (E.ExtractMatches merkleBlock.txn).1 = merkleBlock.header.hashMerkleRoot) :
    ((∃ e, verifytxoutproof E σ params false = .error e) ↔
      blockNotInChain σ (E.headerGetHash merkleBlock.header)) ∧
    (blockNotInChain σ (E.headerGetHash merkleBlock.header) →
      verifytxoutproof E σ params false =
        .error (.JSONRPCError .RPC_INVALID_ADDRESS_OR_KEY "Block not found in chain")) ∧
    (¬ blockNotInChain σ (E.headerGetHash merkleBlock.header) →
      verifytxoutproof E σ params false =
        .ok (VARR ((E.ExtractMatches merkleBlock.txn).2.map
          (fun hash => VSTR (E.hashToString hash))))) := by
  rw [verifytxoutproof_decoded E σ params proof merkleBlock hlen hhex hdec,
    if_neg (not_not.2 hroot)]
  unfold blockNotInChain
  cases hidx : σ.mapBlockIndex (E.headerGetHash merkleBlock.header) with
  | none =>
    refine ⟨⟨fun _ => Or.inl rfl, fun _ => ⟨_, rfl⟩⟩, fun _ => rfl, fun h => ?_⟩
    exact absurd (Or.inl rfl) h
  | some pblockindex =>
    cases hc : σ.chainActive.Contains pblockindex with
    | false =>
      refine ⟨⟨fun _ => Or.inr ⟨pblockindex, rfl, hc⟩, fun _ => ⟨.JSONRPCError .RPC_INVALID_ADDRESS_OR_KEY "Block not found in chain",
          by simp [hc]⟩⟩,
        fun _ => by simp [hc], fun h => ?_⟩
      exact absurd (Or.inr ⟨pblockindex, rfl, hc⟩) h
    | true =>
      refine ⟨⟨?_, ?_⟩, ?_, fun _ => by simp [hc]⟩
      · rintro ⟨e, he⟩
        simp [hc] at he
      · rintro (h | ⟨p, hp, hcp⟩)
        · cases h
        · cases hp
          rw [hc] at hcp
          cases hcp
      · rintro (h | ⟨p, hp, hcp⟩)
        · cases h
        · cases hp
          rw [hc] at hcp
          cases hcp

theorem verifytxoutproof_root_match_witness :
    (verifytxoutproof Externals.reference (scenarioBlockNode scenarioBlock)
        [VSTR scenarioProofHex] false = .ok (VARR [VSTR scenarioOneInputTxid])) ∧
    (verifytxoutproof Externals.reference scenarioEmptyNode [VSTR scenarioProofHex] false =
      .error (.JSONRPCError .RPC_INVALID_ADDRESS_OR_KEY "Block not found in chain")) ∧
    (((∃ e, verifytxoutproof Externals.reference scenarioEmptyNode [VSTR scenarioProofHex]
        false = .error e) ↔
      blockNotInChain scenarioEmptyNode
        (Externals.reference.headerGetHash scenarioMerkleBlock.header)) ∧
    (blockNotInChain scenarioEmptyNode
        (Externals.reference.headerGetHash scenarioMerkleBlock.header) →
      verifytxoutproof Externals.reference scenarioEmptyNode [VSTR scenarioProofHex] false =
        .error (.JSONRPCError .RPC_INVALID_ADDRESS_OR_KEY "Block not found in chain")) ∧
    (¬ blockNotInChain scenarioEmptyNode
        (Externals.reference.headerGetHash scenarioMerkleBlock.header) →
      verifytxoutproof Externals.reference scenarioEmptyNode [VSTR scenarioProofHex] false =
        .ok (VARR ((Externals.reference.ExtractMatches scenarioMerkleBlock.txn).2.map
          (fun hash => VSTR (Externals.reference.hashToString hash)))))) :=
  ⟨by rfl, by rfl,
   verifytxoutproof_root_match Externals.reference scenarioEmptyNode [VSTR scenarioProofHex]
     _ scenarioMerkleBlock rfl (by rfl) (by rfl) (by rfl)⟩

/-! ## util.cpp: negated options and log time stamps -/

theorem utf8ByteSize_go_ge (l : List Char) : l.length ≤ String.utf8ByteSize.go l := by
  induction l with
  | nil => simp [String.utf8ByteSize.go]
  | cons c cs ih =>
    simp only [String.utf8ByteSize.go, List.length_cons]
    have := Char.utf8Size_pos c
    omega

theorem length_le_utf8ByteSize (s : String) : s.data.length ≤ s.utf8ByteSize := by
  cases s with
  | mk l => exact utf8ByteSize_go_ge l

/-- The test of `InterpretNegativeSetting` holds exactly for the keys that consist of `-no`
and at least one more character. -/
theorem negativeSetting_test_iff (strKey : String) :
    (strKey.utf8ByteSize > 3 ∧ strKey.data[0]? = some '-' ∧ strKey.data[1]? = some 'n' ∧
      strKey.data[2]? = some 'o') ↔
    ∃ c rest, strKey.data = '-' :: 'n' :: 'o' :: c :: rest := by
  cases strKey with
  | mk l =>
    constructor
    · rintro ⟨hlen, h0, h1, h2⟩
      match l, hlen, h0, h1, h2 with
      | [], _, h0, _, _ => simp at h0
      | [_], _, _, h1, _ => simp at h1
      | [_, _], _, _, _, h2 => simp at h2
      | [a, b, c], hlen, h0, h1, h2 =>
        simp only [List.getElem?_cons_zero, List.getElem?_cons_succ, Option.some.injEq]
          at h0 h1 h2
        subst h0 h1 h2
        exact absurd hlen (by decide)
      | a :: b :: c :: d :: rest, _, h0, h1, h2 =>
        simp only [List.getElem?_cons_zero, List.getElem?_cons_succ, Option.some.injEq]
          at h0 h1 h2
        subst h0 h1 h2
        exact ⟨d, rest, rfl⟩
    · rintro ⟨c, rest, h⟩
      simp only at h
      subst h
      refine ⟨?_, rfl, rfl, rfl⟩
      have := length_le_utf8ByteSize (String.mk ('-' :: 'n' :: 'o' :: c :: rest))
      simp only [List.length_cons] at this
      omega

/-- C27 (amended): `InterpretNegativeSetting` turns a key `-noX` with `X` non-empty into the
key `-X`, and the value into `0` when the value is empty or `atoi` reads a number other than
0 from it, and into `1` otherwise (so `-noX=0` becomes `-X=1`); every other key, the bare
key `-no` among them, is left as it is together with its value. -/
theorem InterpretNegativeSetting_spec (atoi : String → Int) (strKey strValue : String) :
    (∀ c rest, strKey.data = '-' :: 'n' :: 'o' :: c :: rest →
      InterpretNegativeSetting atoi strKey strValue =
        (String.mk ('-' :: c :: rest),
         if strValue = "" ∨ atoi strValue ≠ 0 then "0" else "1")) ∧
    ((¬ ∃ c rest, strKey.data = '-' :: 'n' :: 'o' :: c :: rest) →
      InterpretNegativeSetting atoi strKey strValue = (strKey, strValue)) := by
  refine ⟨?_, ?_⟩
  · intro c rest h
    unfold InterpretNegativeSetting
    rw [if_pos ((negativeSetting_test_iff strKey).2 ⟨c, rest, h⟩)]
    have hkey : "-" ++ String.mk (strKey.data.drop 3) = String.mk ('-' :: c :: rest) := by
      rw [h]
      rfl
    rw [hkey]
    congr 1
    unfold InterpretBool
    by_cases he : strValue = ""
    · simp [he]
    · by_cases ha : atoi strValue = 0
      · simp [he, ha]
      · simp [he, ha]
  · intro h
    unfold InterpretNegativeSetting
    rw [if_neg (fun hc => h ((negativeSetting_test_iff strKey).1 hc))]

theorem InterpretNegativeSetting_spec_witness :
    InterpretNegativeSetting Reference.atoi "-nofoo" "" = ("-foo", "0") ∧
    InterpretNegativeSetting Reference.atoi "-nofoo" "1" = ("-foo", "0") ∧
    InterpretNegativeSetting Reference.atoi "-no" "1" = ("-no", "1") ∧
    InterpretNegativeSetting Reference.atoi "-foo" "1" = ("-foo", "1") :=
  ⟨(InterpretNegativeSetting_spec Reference.atoi "-nofoo" "").1 'f' ['o', 'o'] rfl,
   (InterpretNegativeSetting_spec Reference.atoi "-nofoo" "1").1 'f' ['o', 'o'] rfl,
   (InterpretNegativeSetting_spec Reference.atoi "-no" "1").2
     (fun ⟨_, _, h⟩ => by cases h),
   (InterpretNegativeSetting_spec Reference.atoi "-foo" "1").2
     (fun ⟨_, _, h⟩ => by cases h)⟩

/-- C27 (as stated) fails: for the key `-nofoo` with the value `0` the key becomes `-foo`
and the value becomes `1`, not `0`. -/
theorem InterpretNegativeSetting_counterexample :
    InterpretNegativeSetting Reference.atoi "-nofoo" "0" = ("-foo", "1") ∧
    InterpretNegativeSetting Reference.atoi "-nofoo" "0" ≠ ("-foo", "0") := by
  refine ⟨by rfl, ?_⟩
  intro h
  have h2 := congrArg Prod.snd h
  revert h2
  decide

/-- C28: with time stamps enabled, `LogTimestampStr` returns the string itself when the
flag `fStartedNewLine` is false on entry; when it is true it returns the time stamp (the
formatted seconds, followed by the microseconds when those are logged), one blank and the
string; the flag is true afterwards exactly when the string is not empty and its last
character is the newline. -/
theorem LogTimestampStr_spec (DateTimeStrFormat : String → Int → String)
    (formatMicros : Int → String) (fLogTimeMicros : Bool) (nTimeMicros : Int) (str : String) :
    (LogTimestampStr DateTimeStrFormat formatMicros true fLogTimeMicros nTimeMicros str
        false).1 = str ∧
    (LogTimestampStr DateTimeStrFormat formatMicros true fLogTimeMicros nTimeMicros str
        true).1 =
      (DateTimeStrFormat "%Y-%m-%d %H:%M:%S" (nTimeMicros.tdiv 1000000) ++
        (if fLogTimeMicros then formatMicros (nTimeMicros.tmod 1000000) else "")) ++
        " " ++ str ∧
    ∀ fStartedNewLine,
      ((LogTimestampStr DateTimeStrFormat formatMicros true fLogTimeMicros nTimeMicros str
          fStartedNewLine).2 = true ↔
        str ≠ "" ∧ str.data.getLast? = some '\n') := by
  refine ⟨?_, ?_, ?_⟩
  · unfold LogTimestampStr
    by_cases h : str ≠ "" ∧ str.data.getLast? = some '\n' <;> simp [h]
  · unfold LogTimestampStr
    cases fLogTimeMicros <;>
      by_cases h : str ≠ "" ∧ str.data.getLast? = some '\n' <;>
      simp [h, String.append_assoc]
  · intro fStartedNewLine
    unfold LogTimestampStr
    by_cases h : str ≠ "" ∧ str.data.getLast? = some '\n'
    · simp only [Bool.not_true, Bool.false_eq_true, if_false, if_pos h, true_iff]
      exact h
    · simp only [Bool.not_true, Bool.false_eq_true, if_false, if_neg h, false_iff]
      simpa using h

theorem LogTimestampStr_spec_witness :
    LogTimestampStr Reference.DateTimeStrFormat Reference.formatMicros true true 1500000042
        "abc" true = ("1500.000042 abc", false) ∧
    LogTimestampStr Reference.DateTimeStrFormat Reference.formatMicros true true 1500000042
        scenarioLogLine false = (scenarioLogLine, true) ∧
    ((LogTimestampStr Reference.DateTimeStrFormat Reference.formatMicros true true 1500000042
        scenarioLogLine false).1 = scenarioLogLine ∧
    (LogTimestampStr Reference.DateTimeStrFormat Reference.formatMicros true true 1500000042
        scenarioLogLine true).1 =
      (Reference.DateTimeStrFormat "%Y-%m-%d %H:%M:%S" ((1500000042 : Int).tdiv 1000000) ++
        (if true then Reference.formatMicros ((1500000042 : Int).tmod 1000000) else "")) ++
        " " ++ scenarioLogLine ∧
    ∀ fStartedNewLine,
      ((LogTimestampStr Reference.DateTimeStrFormat Reference.formatMicros true true
          1500000042 scenarioLogLine fStartedNewLine).2 = true ↔
        scenarioLogLine ≠ "" ∧ scenarioLogLine.data.getLast? = some '\n')) :=
  ⟨by rfl, by rfl,
   LogTimestampStr_spec Reference.DateTimeStrFormat Reference.formatMicros true 1500000042
     scenarioLogLine⟩

/-! ## util.cpp: the option maps -/

theorem valuesOf_nil (k : String) : valuesOf [] k = [] := rfl

theorem valuesOf_cons (kv : String × String) (entries : List (String × String))
    (k : String) :
    valuesOf (kv :: entries) k =
      if kv.1 = k then kv.2 :: valuesOf entries k else valuesOf entries k := by
  unfold valuesOf
  by_cases h : kv.1 = k
  · simp [List.filter_cons, h]
  · simp [List.filter_cons, h]

theorem ParseParameters_loop_eq_foldl (atoi : String → Int) (args : List String) :
    ∀ m : ArgsMaps, ParseParameters_loop atoi args m =
      (parsedOptions atoi args).foldl (fun m kv => m.assign kv.1 kv.2) m := by
  induction args with
  | nil => intro m; rfl
  | cons arg rest ih =>
    intro m
    unfold ParseParameters_loop parsedOptions
    cases h : ParseParameters_arg atoi arg with
    | none => rfl
    | some kv =>
      simp only [List.foldl_cons]
      exact ih _

/-- The maps after a sequence of assignments: under each key the multi-valued map holds the
old values followed by the values assigned, and the single-valued map the last value
assigned, or the old value when none was assigned. -/
theorem foldl_assign (entries : List (String × String)) (k : String) :
    ∀ m : ArgsMaps,
      (entries.foldl (fun m kv => m.assign kv.1 kv.2) m).mapMultiArgs k =
        (if valuesOf entries k = [] then m.mapMultiArgs k
         else some ((m.mapMultiArgs k).getD [] ++ valuesOf entries k)) ∧
      (entries.foldl (fun m kv => m.assign kv.1 kv.2) m).mapArgs k =
        (match (valuesOf entries k).getLast? with
         | some v => some v
         | none => m.mapArgs k) := by
  induction entries with
  | nil => intro m; simp [valuesOf_nil]
  | cons kv rest ih =>
    intro m
    rw [List.foldl_cons, valuesOf_cons]
    obtain ⟨ih1, ih2⟩ := ih (m.assign kv.1 kv.2)
    rw [ih1, ih2]
    by_cases hk : kv.1 = k
    · subst hk
      simp only [if_true, ArgsMaps.assign, ArgsMaps.push_back]
      refine ⟨?_, ?_⟩
      · by_cases hv : valuesOf rest kv.1 = []
        · simp [hv]
        · simp [hv]
      · rw [List.getLast?_cons]
        cases hl : (valuesOf rest kv.1).getLast? with
        | none => simp
        | some v => simp
    · have hk' : ¬ k = kv.1 := fun h => hk h.symm
      simp only [if_neg hk, ArgsMaps.assign, ArgsMaps.push_back, if_neg hk']
      exact ⟨trivial, trivial⟩

/-- The maps after `ParseParameters`, by key. -/
theorem ParseParameters_maps (atoi : String → Int) (argv : List String) (maps : ArgsMaps)
    (k : String) :
    (ParseParameters atoi argv maps).mapMultiArgs k =
        (if valuesOf (parsedOptions atoi (argv.drop 1)) k = [] then none
         else some (valuesOf (parsedOptions atoi (argv.drop 1)) k)) ∧
      (ParseParameters atoi argv maps).mapArgs k =
        (valuesOf (parsedOptions atoi (argv.drop 1)) k).getLast? := by
  unfold ParseParameters
  rw [ParseParameters_loop_eq_foldl]
  obtain ⟨h1, h2⟩ := foldl_assign (parsedOptions atoi (argv.drop 1)) k ArgsMaps.clear
  rw [h1, h2]
  refine ⟨?_, ?_⟩
  · simp [ArgsMaps.clear]
  · cases (valuesOf (parsedOptions atoi (argv.drop 1)) k).getLast? with
    | none => rfl
    | some v => rfl

theorem InterpretNegativeSetting_key (atoi : String → Int) (strKey strValue : String)
    (h : strKey.data[0]? = some '-') :
    (InterpretNegativeSetting atoi strKey strValue).1.data[0]? = some '-' := by
  unfold InterpretNegativeSetting
  split
  · simp only [String.data_append]
    simp
  · exact h

/-- A key that the loop of `ParseParameters` enters starts with `-`. -/
theorem ParseParameters_arg_key (atoi : String → Int) (arg : String) (kv : String × String)
    (h : ParseParameters_arg atoi arg = some kv) : kv.1.data[0]? = some '-' := by
  unfold ParseParameters_arg at h
  simp only at h
  split at h
  · cases h
  · rename_i hdash
    have hdash' : (splitArg arg).1.data[0]? = some '-' := not_not.1 hdash
    have hkv := (Option.some.inj h).symm
    subst hkv
    apply InterpretNegativeSetting_key
    split
    · rename_i hcond
      have h1 := hcond.2
      cases hd : (splitArg arg).1.data with
      | nil => rw [hd] at h1; simp at h1
      | cons a rest =>
        rw [hd] at h1
        simpa using h1
    · exact hdash'

theorem parsedOptions_key (atoi : String → Int) (args : List String) (kv : String × String)
    (h : kv ∈ parsedOptions atoi args) : kv.1.data[0]? = some '-' := by
  induction args with
  | nil => cases h
  | cons arg rest ih =>
    unfold parsedOptions at h
    cases ha : ParseParameters_arg atoi arg with
    | none => rw [ha] at h; cases h
    | some kv' =>
      rw [ha] at h
      rcases List.mem_cons.1 h with h1 | h1
      · rw [h1]; exact ParseParameters_arg_key atoi arg kv' ha
      · exact ih h1

theorem parsedOptions_break (atoi : String → Int) (pre post : List String) (a : String)
    (h : ParseParameters_arg atoi a = none) :
    parsedOptions atoi (pre ++ a :: post) = parsedOptions atoi pre := by
  induction pre with
  | nil =>
    simp only [List.nil_append]
    unfold parsedOptions
    rw [h]
  | cons arg rest ih =>
    rw [List.cons_append]
    unfold parsedOptions
    cases ParseParameters_arg atoi arg with
    | none => rfl
    | some kv => simp only; rw [ih]

theorem valuesOf_mem (entries : List (String × String)) (k v : String)
    (h : v ∈ valuesOf entries k) : (k, v) ∈ entries := by
  unfold valuesOf at h
  obtain ⟨kv, hkv, hv⟩ := List.mem_map.1 h
  have hmem := List.mem_filter.1 hkv
  have hk : kv.1 = k := by simpa using hmem.2
  have : kv = (k, v) := by
    cases kv with
    | mk a b => simp only at hk hv; rw [hk, hv]
  rw [← this]
  exact hmem.1

theorem ParseParameters_arg_none_iff (atoi : String → Int) (arg : String) :
    ParseParameters_arg atoi arg = none ↔ (splitArg arg).1.data[0]? ≠ some '-' := by
  unfold ParseParameters_arg
  simp only
  split
  · rename_i h
    exact ⟨fun _ => h, fun _ => rfl⟩
  · rename_i h
    constructor
    · intro hc; cases hc
    · intro hc; exact absurd hc h

theorem splitArg_dash (a : String) :
    splitArg ("-" ++ a) = ("-" ++ (splitArg a).1, (splitArg a).2) := by
  have hdata : ("-" ++ a).data = '-' :: a.data := by
    rw [String.data_append]
    rfl
  have hmem : ('=' ∈ ("-" ++ a).data) ↔ ('=' ∈ a.data) := by
    rw [hdata, List.mem_cons]
    constructor
    · rintro (h | h)
      · exact absurd h (by decide)
      · exact h
    · exact Or.inr
  unfold splitArg
  by_cases h : '=' ∈ a.data
  · rw [if_pos h, if_pos (hmem.2 h), hdata]
    have h1 : List.takeWhile (fun x => decide (x ≠ '=')) ('-' :: a.data) =
        '-' :: List.takeWhile (fun x => decide (x ≠ '=')) a.data := by
      rw [List.takeWhile_cons]
      simp
    have h2 : List.dropWhile (fun x => decide (x ≠ '=')) ('-' :: a.data) =
        List.dropWhile (fun x => decide (x ≠ '=')) a.data := by
      rw [List.dropWhile_cons]
      simp
    rw [h1, h2]
    rfl
  · rw [if_neg h, if_neg (fun hc => h (hmem.1 hc))]

/-- The name of an argument that starts with one `-` only starts with one `-` only. -/
theorem splitArg_name (a : String) (rest : List Char) (ha : a.data = '-' :: rest)
    (hrest : rest[0]? ≠ some '-') :
    ∃ r, (splitArg a).1.data = '-' :: r ∧ r[0]? ≠ some '-' := by
  unfold splitArg
  by_cases h : '=' ∈ a.data
  · rw [if_pos h]
    simp only [ha]
    refine ⟨List.takeWhile (fun x => decide (x ≠ '=')) rest, ?_, ?_⟩
    · rw [List.takeWhile_cons]
      simp
    · cases rest with
      | nil => simp
      | cons c cs =>
        have hc : c ≠ '-' := by
          intro hcc
          apply hrest
          rw [hcc]
          simp
        rw [List.takeWhile_cons]
        split
        · simpa using hc
        · simp
  · rw [if_neg h]
    exact ⟨rest, ha, hrest⟩

/-- An argument written with two `-` yields the key and the value of the argument written
with one. -/
theorem ParseParameters_arg_dash (atoi : String → Int) (a : String) (rest : List Char)
    (ha : a.data = '-' :: rest) (hrest : rest[0]? ≠ some '-') :
    ParseParameters_arg atoi ("-" ++ a) = ParseParameters_arg atoi a := by
  obtain ⟨r, hn, hr⟩ := splitArg_name a rest ha hrest
  have hone : ParseParameters_arg atoi a =
      some (InterpretNegativeSetting atoi (splitArg a).1 (splitArg a).2) := by
    unfold ParseParameters_arg
    simp only
    rw [if_neg (by rw [hn]; simp)]
    rw [if_neg]
    rintro ⟨-, h1⟩
    rw [hn] at h1
    exact hr (by simpa using h1)
  have htwo : ParseParameters_arg atoi ("-" ++ a) =
      some (InterpretNegativeSetting atoi (splitArg a).1 (splitArg a).2) := by
    unfold ParseParameters_arg
    simp only
    rw [splitArg_dash]
    have hd : ("-" ++ (splitArg a).1).data = '-' :: '-' :: r := by
      rw [String.data_append, hn]
      rfl
    simp only
    rw [if_neg (by rw [hd]; simp)]
    have hlen := length_le_utf8ByteSize ("-" ++ (splitArg a).1)
    rw [hd] at hlen
    simp only [List.length_cons] at hlen
    rw [if_pos ⟨by omega, by rw [hd]; simp⟩]
    have hs : String.mk (("-" ++ (splitArg a).1).data.drop 1) = (splitArg a).1 := by
      apply String.ext
      rw [hd, hn]
      rfl
    rw [hs]
  rw [hone, htwo]

/-- C25: `ParseParameters` reads an argument written `--foo` as the argument `-foo`: both
yield the same key and value.  Of the options read from the command line (the arguments up
to the first that is not an option), the multi-valued map holds under each key all values
given for that key, in the order of the command line, and the single-valued map holds the
last of them. -/
theorem ParseParameters_repeated (atoi : String → Int) (argv : List String) (maps : ArgsMaps)
    (k : String) :
    (∀ (a : String) (rest : List Char), a.data = '-' :: rest → rest[0]? ≠ some '-' →
      ParseParameters_arg atoi ("-" ++ a) = ParseParameters_arg atoi a) ∧
    (ParseParameters atoi argv maps).mapMultiArgs k =
      (if valuesOf (parsedOptions atoi (argv.drop 1)) k = [] then none
       else some (valuesOf (parsedOptions atoi (argv.drop 1)) k)) ∧
    (ParseParameters atoi argv maps).mapArgs k =
      (valuesOf (parsedOptions atoi (argv.drop 1)) k).getLast? :=
  ⟨fun a rest ha hrest => ParseParameters_arg_dash atoi a rest ha hrest,
   (ParseParameters_maps atoi argv maps k).1, (ParseParameters_maps atoi argv maps k).2⟩

/-- C30: after `ParseParameters` the two maps have the same keys, every key starts with
`-`, and under every key the multi-valued map holds a non-empty list whose last element is
the entry of the single-valued map; an argument whose name does not start with `-`, and
every argument after it, changes nothing; and the maps do not depend on what they held before
the call. -/
theorem ParseParameters_invariants (atoi : String → Int) (argv : List String)
    (maps : ArgsMaps) :
    (∀ k, ((ParseParameters atoi argv maps).mapArgs k).isSome = true ↔
      ((ParseParameters atoi argv maps).mapMultiArgs k).isSome = true) ∧
    (∀ k v, (ParseParameters atoi argv maps).mapArgs k = some v → k.data[0]? = some '-') ∧
    (∀ k vs, (ParseParameters atoi argv maps).mapMultiArgs k = some vs →
      vs ≠ [] ∧ (ParseParameters atoi argv maps).mapArgs k = vs.getLast?) ∧
    (∀ (argv0 : String) (pre post : List String) (a : String),
      (splitArg a).1.data[0]? ≠ some '-' →
      ParseParameters atoi (argv0 :: (pre ++ a :: post)) maps =
        ParseParameters atoi (argv0 :: pre) maps) ∧
    (∀ maps', ParseParameters atoi argv maps' = ParseParameters atoi argv maps) := by
  refine ⟨?_, ?_, ?_, ?_, ?_⟩
  · intro k
    obtain ⟨h1, h2⟩ := ParseParameters_maps atoi argv maps k
    rw [h1, h2]
    by_cases hv : valuesOf (parsedOptions atoi (argv.drop 1)) k = []
    · simp [hv]
    · rw [if_neg hv]
      simp only [Option.isSome_some, iff_true]
      cases hl : (valuesOf (parsedOptions atoi (argv.drop 1)) k).getLast? with
      | none => exact absurd (List.getLast?_eq_none_iff.1 hl) hv
      | some v => rfl
  · intro k v hk
    rw [(ParseParameters_maps atoi argv maps k).2] at hk
    have hmem : v ∈ valuesOf (parsedOptions atoi (argv.drop 1)) k :=
      List.mem_of_getLast?_eq_some hk
    exact parsedOptions_key atoi _ (k, v) (valuesOf_mem _ k v hmem)
  · intro k vs hk
    obtain ⟨h1, h2⟩ := ParseParameters_maps atoi argv maps k
    rw [h1] at hk
    rw [h2]
    by_cases hv : valuesOf (parsedOptions atoi (argv.drop 1)) k = []
    · rw [if_pos hv] at hk
      cases hk
    · rw [if_neg hv] at hk
      have := Option.some.inj hk
      subst this
      exact ⟨hv, rfl⟩
  · intro argv0 pre post a ha
    unfold ParseParameters
    simp only [List.drop_succ_cons, List.drop_zero]
    rw [ParseParameters_loop_eq_foldl, ParseParameters_loop_eq_foldl,
      parsedOptions_break atoi pre post a ((ParseParameters_arg_none_iff atoi a).2 ha)]
  · intro maps'
    rfl

theorem ParseParameters_repeated_witness :
    ParseParameters_arg Reference.atoi ("-" ++ "-foo=2") =
      ParseParameters_arg Reference.atoi "-foo=2" ∧
    (ParseParameters Reference.atoi scenarioArgv scenarioOldMaps).mapMultiArgs "-foo" =
      some ["1", "2", "3"] ∧
    (ParseParameters Reference.atoi scenarioArgv scenarioOldMaps).mapArgs "-foo" = some "3" :=
  ⟨(ParseParameters_repeated Reference.atoi scenarioArgv scenarioOldMaps "-foo").1 "-foo=2"
      ['f', 'o', 'o', '=', '2'] rfl (by decide),
   (ParseParameters_repeated Reference.atoi scenarioArgv scenarioOldMaps "-foo").2.1.trans
      (by rfl),
   (ParseParameters_repeated Reference.atoi scenarioArgv scenarioOldMaps "-foo").2.2.trans
      (by rfl)⟩

theorem ParseParameters_invariants_witness :
    (((ParseParameters Reference.atoi scenarioArgv scenarioOldMaps).mapArgs "-bar").isSome =
        true ↔
      ((ParseParameters Reference.atoi scenarioArgv scenarioOldMaps).mapMultiArgs
        "-bar").isSome = true) ∧
    "-bar".data[0]? = some '-' ∧
    (["0"] ≠ [] ∧
      (ParseParameters Reference.atoi scenarioArgv scenarioOldMaps).mapArgs "-bar" =
        ["0"].getLast?) ∧
    ParseParameters Reference.atoi
        ("bitcoind" :: (["-foo=1", "--foo=2", "-nobar", "-foo=3"] ++ "stop" :: ["-foo=4"]))
        scenarioOldMaps =
      ParseParameters Reference.atoi ("bitcoind" :: ["-foo=1", "--foo=2", "-nobar", "-foo=3"])
        scenarioOldMaps ∧
    (ParseParameters Reference.atoi scenarioArgv ArgsMaps.clear =
      ParseParameters Reference.atoi scenarioArgv scenarioOldMaps) ∧
    (ParseParameters Reference.atoi scenarioArgv scenarioOldMaps).mapArgs "-old" = none :=
  ⟨(ParseParameters_invariants Reference.atoi scenarioArgv scenarioOldMaps).1 "-bar",
   (ParseParameters_invariants Reference.atoi scenarioArgv scenarioOldMaps).2.1 "-bar" "0"
     (by rfl),
   (ParseParameters_invariants Reference.atoi scenarioArgv scenarioOldMaps).2.2.1 "-bar" ["0"]
     (by rfl),
   (ParseParameters_invariants Reference.atoi scenarioArgv scenarioOldMaps).2.2.2.1 "bitcoind"
     ["-foo=1", "--foo=2", "-nobar", "-foo=3"] ["-foo=4"] "stop" (by decide),
   (ParseParameters_invariants Reference.atoi scenarioArgv scenarioOldMaps).2.2.2.2
     ArgsMaps.clear,
   by rfl⟩

/-- The maps after the loop of `ReadConfigFile`: an entry of the single-valued map is kept,
a missing one is set to the first value the file gives for the key; the multi-valued map
holds the old values followed by the values of the file. -/
theorem foldl_ReadConfigFile_entry (atoi : String → Int) (entries : List (String × String))
    (k : String) :
    ∀ m : ArgsMaps,
      (entries.foldl (fun m it => ReadConfigFile_entry atoi m it.1 it.2) m).mapArgs k =
        (match m.mapArgs k with
         | some v => some v
         | none => (valuesOf (configOptions atoi entries) k).head?) ∧
      (entries.foldl (fun m it => ReadConfigFile_entry atoi m it.1 it.2) m).mapMultiArgs k =
        (if valuesOf (configOptions atoi entries) k = [] then m.mapMultiArgs k
         else some ((m.mapMultiArgs k).getD [] ++ valuesOf (configOptions atoi entries) k)) := by
  induction entries with
  | nil =>
    intro m
    refine ⟨?_, ?_⟩
    · simp only [List.foldl_nil, configOptions, List.map_nil, valuesOf_nil, List.head?_nil]
      cases m.mapArgs k <;> rfl
    · simp [configOptions, valuesOf_nil]
  | cons it rest ih =>
    intro m
    rw [List.foldl_cons]
    obtain ⟨ih1, ih2⟩ := ih (ReadConfigFile_entry atoi m it.1 it.2)
    rw [ih1, ih2]
    have hcons : configOptions atoi (it :: rest) =
        InterpretNegativeSetting atoi ("-" ++ it.1) it.2 :: configOptions atoi rest := rfl
    rw [hcons, valuesOf_cons]
    simp only [ReadConfigFile_entry]
    generalize InterpretNegativeSetting atoi ("-" ++ it.1) it.2 = kv
    by_cases hk : kv.1 = k
    · subst hk
      simp only [if_true, ReadConfigFile_entry, ArgsMaps.push_back, true_and]
      refine ⟨?_, ?_⟩
      · cases hm : m.mapArgs kv.1 with
        | none => simp
        | some v => simp
      · by_cases hv : valuesOf (configOptions atoi rest) kv.1 = []
        · simp [hv]
        · simp [hv]
    · have hk' : ¬ k = kv.1 := fun h => hk h.symm
      have hcond : ¬ (k = kv.1 ∧ m.mapArgs kv.1 = none) := fun h => hk' h.1
      simp only [if_neg hk, ArgsMaps.push_back, if_neg hk', if_neg hcond]
      exact ⟨trivial, trivial⟩

/-- C26: `ReadConfigFile` leaves every entry that the single-valued map holds before the
call as it is; a key the map does not hold gets the first value the file gives for it; and
the multi-valued map holds under each key its old values followed by all values the file
gives for the key, in the order of the file.  Keys and values of the file are taken after
`-` is put in front of the key and `InterpretNegativeSetting` is applied.  Without a file
both maps are unchanged. -/
theorem ReadConfigFile_keeps (atoi : String → Int)
    (streamConfig : Option (List (String × String))) (m : ArgsMaps) (k : String) :
    (∀ v, m.mapArgs k = some v → (ReadConfigFile atoi streamConfig m).mapArgs k = some v) ∧
    (∀ entries, streamConfig = some entries → m.mapArgs k = none →
      (ReadConfigFile atoi streamConfig m).mapArgs k =
        (valuesOf (configOptions atoi entries) k).head?) ∧
    (∀ entries, streamConfig = some entries →
      (ReadConfigFile atoi streamConfig m).mapMultiArgs k =
        (if valuesOf (configOptions atoi entries) k = [] then m.mapMultiArgs k
         else some ((m.mapMultiArgs k).getD [] ++ valuesOf (configOptions atoi entries) k))) ∧
    (streamConfig = none → ReadConfigFile atoi streamConfig m = m) := by
  refine ⟨?_, ?_, ?_, ?_⟩
  · intro v hv
    cases streamConfig with
    | none => exact hv
    | some entries =>
      unfold ReadConfigFile
      simp only
      rw [(foldl_ReadConfigFile_entry atoi entries k m).1, hv]
  · intro entries hs hnone
    subst hs
    unfold ReadConfigFile
    simp only
    rw [(foldl_ReadConfigFile_entry atoi entries k m).1, hnone]
  · intro entries hs
    subst hs
    unfold ReadConfigFile
    simp only
    rw [(foldl_ReadConfigFile_entry atoi entries k m).2]
  · intro hs
    subst hs
    rfl

theorem ReadConfigFile_keeps_witness :
    (ReadConfigFile Reference.atoi (some scenarioConfig) scenarioOldMaps).mapArgs "-old" =
      some "1" ∧
    (ReadConfigFile Reference.atoi (some scenarioConfig) scenarioOldMaps).mapArgs "-foo" =
      some "1" ∧
    (ReadConfigFile Reference.atoi (some scenarioConfig) scenarioOldMaps).mapMultiArgs "-old" =
      some ["1", "7"] ∧
    (ReadConfigFile Reference.atoi (some scenarioConfig) scenarioOldMaps).mapMultiArgs "-foo" =
      some ["1", "2"] ∧
    ReadConfigFile Reference.atoi none scenarioOldMaps = scenarioOldMaps :=
  ⟨(ReadConfigFile_keeps Reference.atoi (some scenarioConfig) scenarioOldMaps "-old").1 "1"
      (by rfl),
   ((ReadConfigFile_keeps Reference.atoi (some scenarioConfig) scenarioOldMaps "-foo").2.1
      scenarioConfig rfl (by rfl)).trans (by rfl),
   ((ReadConfigFile_keeps Reference.atoi (some scenarioConfig) scenarioOldMaps "-old").2.2.1
      scenarioConfig rfl).trans (by rfl),
   ((ReadConfigFile_keeps Reference.atoi (some scenarioConfig) scenarioOldMaps "-foo").2.2.1
      scenarioConfig rfl).trans (by rfl),
   (ReadConfigFile_keeps Reference.atoi none scenarioOldMaps "-old").2.2.2 rfl⟩

/-! ## The verbose transaction view -/

theorem CChain.contains_height (chain : CChain) (pindex : CBlockIndex)
    (h : chain.Contains pindex = true) : 0 ≤ pindex.nHeight ∧ pindex.nHeight ≤ chain.Height := by
  unfold CChain.Contains CChain.atHeight at h
  unfold CChain.Height
  by_cases hneg : pindex.nHeight < 0
  · rw [if_pos hneg] at h
    simp at h
  · rw [if_neg hneg] at h
    have hsome : chain[pindex.nHeight.toNat]? = some pindex := by simpa using h
    have hlt := (List.getElem?_eq_some.1 hsome).1
    omega

/-- C22: `TxToJSON` appends to the entries of the transaction, whose keys are `txid`,
`size`, `version`, `locktime`, `vin` and `vout`, the following.  For the null block hash,
nothing: neither `blockhash` nor `confirmations`.  For a block hash other than null whose
block index entry is on the active chain: `blockhash`, `confirmations` with the height of
the active chain minus the height of the block plus 1, which is at least 1, `time` and
`blocktime`.  For one whose entry is not on the active chain: `blockhash` and
`confirmations` 0, without `time` and `blocktime`.  For one unknown to the block index:
`blockhash` alone. -/
theorem TxToJSON_confirmations (E : Externals) (σ : NodeState) (tx : CTransaction)
    (hashBlock : uint256) (entry : List (String × UniValue)) :
    getKeys (TxToJSON_tx E tx) = ["txid", "size", "version", "locktime", "vin", "vout"] ∧
    (hashBlock = 0 → TxToJSON E σ tx hashBlock entry = entry ++ TxToJSON_tx E tx) ∧
    (∀ pindex, hashBlock ≠ 0 → σ.mapBlockIndex hashBlock = some pindex →
      σ.chainActive.Contains pindex = true →
      TxToJSON E σ tx hashBlock entry =
        entry ++ TxToJSON_tx E tx ++ confirmedEntries E σ hashBlock pindex ∧
      1 ≤ σ.chainActive.Height - pindex.nHeight + 1) ∧
    (∀ pindex, hashBlock ≠ 0 → σ.mapBlockIndex hashBlock = some pindex →
      σ.chainActive.Contains pindex = false →
      TxToJSON E σ tx hashBlock entry =
        entry ++ TxToJSON_tx E tx ++
          [("blockhash", VSTR (E.hashToString hashBlock)), ("confirmations", VNUM 0)]) ∧
    (hashBlock ≠ 0 → σ.mapBlockIndex hashBlock = none →
      TxToJSON E σ tx hashBlock entry =
        entry ++ TxToJSON_tx E tx ++ [("blockhash", VSTR (E.hashToString hashBlock))]) := by
  refine ⟨rfl, ?_, ?_, ?_, ?_⟩
  · intro h0
    unfold TxToJSON TxToJSON_block
    rw [if_neg (not_not.2 h0), List.append_nil]
  · intro pindex hne hidx hc
    refine ⟨?_, ?_⟩
    · unfold TxToJSON TxToJSON_block confirmedEntries
      rw [if_pos hne, hidx]
      simp only [hc, if_true]
      have harith : 1 + σ.chainActive.Height - pindex.nHeight =
          σ.chainActive.Height - pindex.nHeight + 1 := by omega
      rw [harith]
      rfl
    · have := CChain.contains_height σ.chainActive pindex hc
      omega
  · intro pindex hne hidx hc
    unfold TxToJSON TxToJSON_block
    rw [if_pos hne, hidx]
    simp only [hc]
    rfl
  · intro hne hidx
    unfold TxToJSON TxToJSON_block
    rw [if_pos hne, hidx]
    rfl

theorem TxToJSON_confirmations_witness :
    (TxToJSON Externals.reference scenarioForkNode scenarioNoInputTx 0 [] =
      TxToJSON_tx Externals.reference scenarioNoInputTx) ∧
    (TxToJSON Externals.reference scenarioForkNode scenarioNoInputTx 11 [] =
      [] ++ TxToJSON_tx Externals.reference scenarioNoInputTx ++
        [("blockhash", VSTR
           "000000000000000000000000000000000000000000000000000000000000000b"),
         ("confirmations", VNUM 2), ("time", VNUM 0), ("blocktime", VNUM 0)] ∧
      (1 : Int) ≤ scenarioForkNode.chainActive.Height - scenarioBlockIndex.nHeight + 1) ∧
    (TxToJSON Externals.reference scenarioForkNode scenarioNoInputTx 12 [] =
      [] ++ TxToJSON_tx Externals.reference scenarioNoInputTx ++
        [("blockhash", VSTR (Externals.reference.hashToString 12)),
         ("confirmations", VNUM 0)]) ∧
    (TxToJSON Externals.reference scenarioForkNode scenarioNoInputTx 14 [] =
      [] ++ TxToJSON_tx Externals.reference scenarioNoInputTx ++
        [("blockhash", VSTR (Externals.reference.hashToString 14))]) :=
  ⟨(TxToJSON_confirmations Externals.reference scenarioForkNode scenarioNoInputTx 0 []).2.1
      rfl,
   (TxToJSON_confirmations Externals.reference scenarioForkNode scenarioNoInputTx 11 []).2.2.1
      scenarioBlockIndex (by decide) (by rfl) (by rfl),
   (TxToJSON_confirmations Externals.reference scenarioForkNode scenarioNoInputTx 12 []).2.2.2.1
      { hashBlock := 12, nHeight := 1, nTime := 5 } (by decide) (by rfl) (by rfl),
   (TxToJSON_confirmations Externals.reference scenarioForkNode scenarioNoInputTx
      14 []).2.2.2.2 (by decide) (by rfl)⟩

/-! ## decodescript -/

/-- The keys `ScriptPubKeyToJSON` pushes, by its two cases. -/
theorem ScriptPubKeyToJSON_keys (E : Externals) (scriptPubKey : CScript)
    (out : List (String × UniValue)) (fIncludeHex : Bool) :
    getKeys (ScriptPubKeyToJSON E scriptPubKey out fIncludeHex) =
      getKeys out ++ ["asm"] ++ (if fIncludeHex then ["hex"] else []) ++
        (if (E.ExtractDestinations scriptPubKey).fOk then ["reqSigs", "type", "addresses"]
         else ["type"]) := by
  unfold ScriptPubKeyToJSON getKeys
  cases fIncludeHex <;> cases hf : (E.ExtractDestinations scriptPubKey).fOk <;> simp [hf]

/-- A result of `decodescript`: the script decoded from the argument, and the object built
for it. -/
theorem decodescript_ok (E : Externals) (params : List UniValue) (fHelp : Bool)
    (r : UniValue) (h : decodescript E params fHelp = .ok r) :
    ∃ str script, (paramAt params 0).get_str = .ok str ∧
      (if str.utf8ByteSize > 0 then E.ParseHexV (paramAt params 0) "argument" else .ok []) =
        .ok script ∧
      r = VOBJ (ScriptPubKeyToJSON E script [] false ++
        [("p2sh", VSTR (E.addressToString (E.scriptIDAddress script)))]) := by
  unfold decodescript at h
  split at h
  · cases h
  · split at h
    · cases h
    · split at h
      · cases h
      · rename_i str hstr
        split at h
        · cases h
        · rename_i script hscript
          exact ⟨str, script, hstr, hscript, (Except.ok.inj h).symm⟩

/-- C23 does not hold of the code: the object `decodescript` returns has the keys `asm`,
`type` and `p2sh`, with `reqSigs` and `addresses` for a script with destinations, and never
the key `hex`, because `ScriptPubKeyToJSON` is called with `fIncludeHex` false.  On the
reference instance the call for the script `51` returns the three entries shown. -/
theorem decodescript_no_hex :
    (∀ (E : Externals) (params : List UniValue) (fHelp : Bool) (r : UniValue),
      decodescript E params fHelp = .ok r →
      ∃ entries, r = VOBJ entries ∧ "hex" ∉ getKeys entries ∧
        "asm" ∈ getKeys entries ∧ "type" ∈ getKeys entries ∧ "p2sh" ∈ getKeys entries) ∧
    decodescript Externals.reference [VSTR "51"] false =
      .ok (VOBJ [("asm", VSTR "51"), ("type", VSTR "nonstandard"), ("p2sh", VSTR "31")]) := by
  refine ⟨?_, by rfl⟩
  intro E params fHelp r h
  obtain ⟨str, script, -, -, hr⟩ := decodescript_ok E params fHelp r h
  refine ⟨_, hr, ?_, ?_, ?_, ?_⟩
  all_goals
    have hkeys := ScriptPubKeyToJSON_keys E script [] false
    have happ : getKeys (ScriptPubKeyToJSON E script [] false ++
        [("p2sh", VSTR (E.addressToString (E.scriptIDAddress script)))]) =
        getKeys (ScriptPubKeyToJSON E script [] false) ++ ["p2sh"] := by
      simp [getKeys]
    rw [happ, hkeys]
    cases hf : (E.ExtractDestinations script).fOk <;> simp [getKeys]

/-- C24: `decodescript` applied to the empty string does not throw when the type check
accepts the argument: no hex is parsed, and the object for the empty script is returned.
When the empty script has no destinations and its type is named `nonstandard`, the object
holds `asm`, `type` with the value `nonstandard`, and `p2sh` with the address of the hash of
the empty script, and neither `reqSigs` nor `addresses`. -/
theorem decodescript_empty (E : Externals)
    (hT : E.RPCTypeCheck [VSTR ""] [.VSTR] false = .ok ()) :
    decodescript E [VSTR ""] false =
      .ok (VOBJ (ScriptPubKeyToJSON E [] [] false ++
        [("p2sh", VSTR (E.addressToString (E.scriptIDAddress [])))])) ∧
    ((E.ExtractDestinations []).fOk = false →
      E.GetTxnOutputType (E.ExtractDestinations []).typeRet = "nonstandard" →
      decodescript E [VSTR ""] false =
        .ok (VOBJ [("asm", VSTR (E.ScriptToAsmStr [])), ("type", VSTR "nonstandard"),
                   ("p2sh", VSTR (E.addressToString (E.scriptIDAddress [])))])) := by
  have hfirst : decodescript E [VSTR ""] false =
      .ok (VOBJ (ScriptPubKeyToJSON E [] [] false ++
        [("p2sh", VSTR (E.addressToString (E.scriptIDAddress [])))])) := by
    unfold decodescript
    rw [if_neg (by decide), hT]
    rfl
  refine ⟨hfirst, ?_⟩
  intro hok htype
  rw [hfirst]
  unfold ScriptPubKeyToJSON
  simp [hok, htype]

theorem decodescript_empty_witness :
    decodescript Externals.reference [VSTR ""] false =
      .ok (VOBJ (ScriptPubKeyToJSON Externals.reference [] [] false ++
        [("p2sh", VSTR (Externals.reference.addressToString
          (Externals.reference.scriptIDAddress [])))])) ∧
    decodescript Externals.reference [VSTR ""] false =
      .ok (VOBJ [("asm", VSTR ""), ("type", VSTR "nonstandard"), ("p2sh", VSTR "30")]) :=
  ⟨(decodescript_empty Externals.reference (by rfl)).1,
   (decodescript_empty Externals.reference (by rfl)).2 (by rfl) (by rfl)⟩

/-! ## The merge over variants with fewer inputs -/

/-- The merge reads input `i` of every variant: with a variant that has no input `i` it
reads past the end of that variant. -/
theorem signrawtransaction_merge_short (E : Externals) (prevPubKey : CScript) (i : Nat)
    (txVariants : List CMutableTransaction) :
    ∀ mergedTx : CMutableTransaction, (∃ txv ∈ txVariants, txv.vin.length ≤ i) →
      signrawtransaction_merge E prevPubKey i txVariants mergedTx = none := by
  induction txVariants with
  | nil =>
    rintro mergedTx ⟨txv, hmem, -⟩
    cases hmem
  | cons txv rest ih =>
    rintro mergedTx ⟨txv', hmem, hshort⟩
    unfold signrawtransaction_merge
    rcases List.mem_cons.1 hmem with h | h
    · subst h
      have hnone : txv'.vin.get? i = none := by
        rw [List.get?_eq_getElem?]
        exact List.getElem?_eq_none hshort
      rw [hnone]
      cases mergedTx.vin.get? i <;> rfl
    · cases h1 : mergedTx.vin.get? i with
      | none => rfl
      | some txin =>
        cases h2 : txv.vin.get? i with
        | none => rfl
        | some txvin =>
          simp only
          exact ih _ ⟨txv', h, hshort⟩

/-- C29 does not hold of the code: the merge of lines 762-764 reads `txv.vin[i]` for every
variant and every resolved input `i` of the first variant without comparing `i` with the
number of inputs of the variant.  For the hex of a transaction with the one input `(7, 1)`
followed by a transaction without inputs, and the previous output `(7, 1)` given, input 0 is
resolved and `vin[0]` of the second variant, which has no inputs, is read, with the key
`k1` given as well as with an empty list of keys. -/
theorem signrawtransaction_merge_out_of_range :
    signrawtransaction_txVariants Externals.reference
        ((Reference.parseHexDigits (scenarioOneInputHex ++ scenarioNoInputHex).data).getD []).length
        ((Reference.parseHexDigits (scenarioOneInputHex ++ scenarioNoInputHex).data).getD []) [] =
      .ok [scenarioOneInputTx, scenarioNoInputTx] ∧
    scenarioNoInputTx.vin.length ≤ 0 ∧
    signrawtransaction_merge Externals.reference [107, 49] 0
      [scenarioOneInputTx, scenarioNoInputTx] scenarioOneInputTx = none ∧
    signrawtransaction Externals.reference (fun _ => none) none
      [VSTR (scenarioOneInputHex ++ scenarioNoInputHex), VARR [scenarioPrevOut],
       VARR [VSTR "k1"]] false = .ok none ∧
    signrawtransaction Externals.reference (fun _ => none) none
      [VSTR (scenarioOneInputHex ++ scenarioNoInputHex), VARR [scenarioPrevOut],
       VARR []] false = .ok none :=
  ⟨by rfl, by decide,
   signrawtransaction_merge_short Externals.reference [107, 49] 0
     [scenarioOneInputTx, scenarioNoInputTx] scenarioOneInputTx
     ⟨scenarioNoInputTx, by simp, by decide⟩,
   by rfl, by rfl⟩

/-! ## A proof made by gettxoutproof is accepted by verifytxoutproof -/

/-- C21: let `block` be stored for a block index entry that the block index holds under the
hash of the header of `block` and that is on the active chain, and let `t` be a transaction
of `block`, whose transactions have pairwise different hashes.  Assume of the code outside
this file, for the Merkle block built from `block` and the hash of `t`: it carries the
header of `block`, its partial Merkle tree yields the Merkle root of that header and the hash
of `t` as the only match, it is read back from its serialization, and the hex of the
serialization is parsed back.  Then `gettxoutproof` called with the id of `t` and the hash of
`block` returns a hex string, and `verifytxoutproof` called with that string returns the
array that holds the id of `t` and nothing else. -/
theorem verifytxoutproof_gettxoutproof (E : Externals) (σ : NodeState) (block : CBlock)
    (pblockindex : CBlockIndex) (t : CTransaction) (txid blockhash : String)
    (ht : t ∈ block.vtx)
    (hnodup : (block.vtx.map E.GetHash).Nodup)
    (hsize : block.vtx.length < 4294967296)
    (htxid : txid.utf8ByteSize = 64 ∧ E.IsHex txid = true ∧ E.uint256S txid = E.GetHash t)
    (hblockhash : E.uint256S blockhash = E.headerGetHash block.header)
    (hindex : σ.mapBlockIndex (E.headerGetHash block.header) = some pblockindex)
    (hread : σ.blockFiles pblockindex = some block)
    (hchain : σ.chainActive.Contains pblockindex = true)
    (hheader : (E.buildMerkleBlock block [E.GetHash t]).header = block.header)
    (hsound : E.ExtractMatches (E.buildMerkleBlock block [E.GetHash t]).txn =
      (block.header.hashMerkleRoot, [E.GetHash t]))
    (hser : E.deserializeMerkleBlock
        (E.serializeMerkleBlock (E.buildMerkleBlock block [E.GetHash t])) =
      some (E.buildMerkleBlock block [E.GetHash t]))
    (hhex : E.ParseHexV
        (VSTR (E.HexStr (E.serializeMerkleBlock (E.buildMerkleBlock block [E.GetHash t]))))
        "proof" =
      .ok (E.serializeMerkleBlock (E.buildMerkleBlock block [E.GetHash t]))) :
    ∃ strHex,
      gettxoutproof E σ [VARR [VSTR txid], VSTR blockhash] false = .ok (VSTR strHex) ∧
      verifytxoutproof E σ [VSTR strHex] false =
        .ok (VARR [VSTR (E.hashToString (E.GetHash t))]) := by
  refine ⟨E.HexStr (E.serializeMerkleBlock (E.buildMerkleBlock block [E.GetHash t])), ?_, ?_⟩
  · have htxids : gettxoutproof_txids E [VSTR txid] ([], 0) =
        .ok ([E.GetHash t], E.GetHash t) := by
      unfold gettxoutproof_txids
      simp only [UniValue.get_str]
      rw [if_neg (by simp [htxid.1, htxid.2.1])]
      rw [if_neg (by simp), htxid.2.2]
      unfold gettxoutproof_txids
      rfl
    have hidx : gettxoutproof_blockindex E σ [VARR [VSTR txid], VSTR blockhash]
        (E.GetHash t) = .ok pblockindex := by
      unfold gettxoutproof_blockindex gettxoutproof_select
      rw [if_pos (by simp)]
      simp only [paramAt, List.getD_cons_succ, List.getD_cons_zero, UniValue.get_str,
        hblockhash, hindex]
    rw [gettxoutproof_resolved E σ [VARR [VSTR txid], VSTR blockhash] [VSTR txid]
      [E.GetHash t] (E.GetHash t) pblockindex block (Or.inr rfl) rfl htxids hidx hread]
    have hcount : (block.vtx.filter (fun tx => decide (E.GetHash tx ∈ [E.GetHash t]))).length =
        [E.GetHash t].length := by
      rw [filter_hash_length,
        filter_mem_length_eq_iff _ _ hnodup (List.nodup_singleton _)]
      intro x hx
      rw [List.mem_singleton] at hx
      rw [hx]
      exact List.mem_map.2 ⟨t, ht, rfl⟩
    unfold gettxoutproof_proof gettxoutproof_ntxFound
    rw [Nat.mod_eq_of_lt (lt_of_le_of_lt (List.length_filter_le _ _) hsize), hcount]
    simp
  · rw [verifytxoutproof_decoded E σ
      [VSTR (E.HexStr (E.serializeMerkleBlock (E.buildMerkleBlock block [E.GetHash t])))]
      (E.serializeMerkleBlock (E.buildMerkleBlock block [E.GetHash t]))
      (E.buildMerkleBlock block [E.GetHash t]) rfl hhex hser]
    rw [hsound, hheader]
    simp only [ne_eq, not_true_eq_false, if_false, hindex, hchain, Bool.not_true,
      Bool.false_eq_true, List.map_cons, List.map_nil]

theorem verifytxoutproof_gettxoutproof_witness :
    ∃ strHex,
      gettxoutproof Externals.reference (scenarioBlockNode scenarioBlock)
        [VARR [VSTR scenarioOneInputTxid], VSTR scenarioBlockHashHex] false =
          .ok (VSTR strHex) ∧
      verifytxoutproof Externals.reference (scenarioBlockNode scenarioBlock) [VSTR strHex]
        false =
        .ok (VARR [VSTR (Externals.reference.hashToString
          (Externals.reference.GetHash scenarioOneInputTx))]) :=
  verifytxoutproof_gettxoutproof Externals.reference (scenarioBlockNode scenarioBlock)
    scenarioBlock scenarioBlockIndex scenarioOneInputTx scenarioOneInputTxid
    scenarioBlockHashHex (by simp [scenarioBlock])
    (by decide) (by decide) ⟨by rfl, by rfl, by rfl⟩ (by rfl) (by rfl) (by rfl) (by rfl)
    (by rfl) (by rfl) (by rfl) (by rfl)

end Blockchain
